import Mathlib

/-!
# LEDCtrlr: the serial protocol engine of `src/LEDCtrlr.cpp`

A shallow embedding of the Arduino sketch.  The sketch's globals and function-local
statics become the fields of one `State` record which every function takes and returns.

* C strings (`const char *`) are `List Nat`: the bytes before the terminating NUL.
  `&str[p]` is `str.drop p`, `strlen` is `List.length`.
* `byte` values are `Nat`, reduced `% 256` where the sketch narrows to `byte`.
* `int` values are `Int`.  The one place where a value can leave the range of `int` is
  `atoi` on a long numeral; C leaves that undefined, avr-libc wraps, and so does `atoi`
  here, to `INT_BITS` bits.  `strtol` clamps to `long` as C says.
* `millis()` is a parameter of the function that reads it.
* `Serial.write` appends to the field `out`; the bytes `Serial.read` delivers are the
  `List Nat` argument of `serialEvent`, which returns what it leaves unread.
* FastLED and `digitalWrite` calls are appended to the field `hw`.
* Two ghost fields, `errLog` and `cmdLog`, record the calls of `sendErrorResponse` and of
  `processCommand`; no function reads them.
-/

namespace LEDCtrlr

/-! ## Constants of the sketch and of the platform -/

/-- Width of `int`: 16 bits on the AVR boards the sketch is written for (it prints a
`uint32_t` with `%lX`). -/
def INT_BITS : Nat := 16

/-- Width of `long`: 32 bits. -/
def LONG_BITS : Nat := 32

def LONG_MAX : Int := 2 ^ (LONG_BITS - 1) - 1

def LONG_MIN : Int := -(2 ^ (LONG_BITS - 1))

/-- Reduction of an integer to the two's complement range of `int`. -/
def wrapInt (v : Int) : Int := (v + 2 ^ (INT_BITS - 1)) % 2 ^ INT_BITS - 2 ^ (INT_BITS - 1)

/-- The bytes of a string literal. -/
def bytesOf (s : String) : List Nat := s.toList.map Char.toNat

def VERSION_STR : List Nat := bytesOf "LED Controller v1.0"

def STRIP_LED_PIN : Int := 3

def DEF_NUM_LEDS : Int := 8

def DEF_COLOR_ORDER : List Nat := bytesOf "GRB"

def DEF_BRIGHTNESS : Nat := 20

def MAX_NUM_LEDS : Int := 300

def SERIAL_BUFFER_SIZE : Int := 20

def lnFeedStr : List Nat := [13, 10]

def echoPromptStr : List Nat := [13, 10, 62, 32]

/-- The character `>`. -/
def promptChar : Nat := 62

/-- The character `E`. -/
def errorChar : Nat := 69

/-- The character `.`. -/
def msgRecvdChar : Nat := 46

/-! ## FastLED: `CRGB` and the calls made on the library -/

/-- FastLED's `CRGB`: three bytes, `raw[0] = r`, `raw[1] = g`, `raw[2] = b`. -/
structure CRGB where
  r : Nat
  g : Nat
  b : Nat
  deriving DecidableEq, Repr

/-- `CRGB(uint32_t colorcode)`: red is bits 23..16, green bits 15..8, blue bits 7..0. -/
def CRGB.ofCode (colorcode : Nat) : CRGB :=
  { r := colorcode / 65536 % 256, g := colorcode / 256 % 256, b := colorcode % 256 }

/-- `(uint32_t)crgb & 0x00FFFFFF`: the colour as a 24-bit number. -/
def CRGB.code24 (c : CRGB) : Nat := (c.r * 65536 + c.g * 256 + c.b) % 16777216

/-- `recvCRGBVal.raw[i] = v`. -/
def CRGB.setRaw (c : CRGB) (i : Int) (v : Nat) : CRGB :=
  if i = 0 then { c with r := v }
  else if i = 1 then { c with g := v }
  else if i = 2 then { c with b := v }
  else c

/-- `CRGB::Black`. -/
def Black : CRGB := CRGB.ofCode 0x000000

/-- The `EOrder` template argument of `FastLED.addLeds`. -/
inductive EOrder where
  | RGB | RBG | GRB | GBR | BRG | BGR
  deriving DecidableEq, Repr

/-- A call on the hardware: FastLED or the status LED pin. -/
inductive HwCall where
  | addLeds (order : EOrder) (numLeds : Int)
  | setBrightness (level : Nat)
  | showLeds (frame : List CRGB)
  | showColor (color : CRGB)
  | digitalWrite (high : Bool)
  deriving DecidableEq, Repr

/-! ## The state: the sketch's globals and statics -/

structure State where
  crgbLedsArr : List CRGB
  serialBuffer : List Nat
  commandBuffer : List Nat
  serialBufferIndex : Int
  commandBufferSize : Int
  lastErrorStr : List Nat
  serialEchoFlag : Bool
  serialCmdWaitingFlag : Bool
  receivingArrayFlag : Bool
  receivingArrayIdx : Int
  recvArrStartTimeMs : Nat
  ledLibInitializedFlag : Bool
  stripNumberLeds : Int
  stripBrightness : Nat
  stripColorOrderStr : List Nat
  /-- `static int cmdRecvDivVal` of `loop`. -/
  cmdRecvDivVal : Int
  /-- `static int recvArrOrd` of `serialEvent`. -/
  recvArrOrd : Int
  /-- `static CRGB recvCRGBVal` of `serialEvent`. -/
  recvCRGBVal : CRGB
  /-- `static bool currentStatusLedFlag` of `setModuleLed`. -/
  currentStatusLedFlag : Bool
  /-- Everything written to `Serial`, oldest byte first. -/
  out : List Nat
  /-- The calls made on FastLED and on the status LED pin, oldest first. -/
  hw : List HwCall
  /-- Ghost: the messages passed to `sendErrorResponse`, oldest first. Never read. -/
  errLog : List (List Nat)
  /-- Ghost: the lines passed to `processCommand`, oldest first. Never read. -/
  cmdLog : List (List Nat)
  deriving DecidableEq, Repr

/-- The globals as the sketch initialises them. -/
def initState : State :=
  { crgbLedsArr := List.replicate 300 Black
    serialBuffer := List.replicate 20 0
    commandBuffer := List.replicate 20 0
    serialBufferIndex := 0
    commandBufferSize := 0
    lastErrorStr := []
    serialEchoFlag := false
    serialCmdWaitingFlag := false
    receivingArrayFlag := false
    receivingArrayIdx := 0
    recvArrStartTimeMs := 0
    ledLibInitializedFlag := false
    stripNumberLeds := DEF_NUM_LEDS
    stripBrightness := DEF_BRIGHTNESS
    stripColorOrderStr := DEF_COLOR_ORDER
    cmdRecvDivVal := -1
    recvArrOrd := 0
    recvCRGBVal := Black
    currentStatusLedFlag := false
    out := []
    hw := []
    errLog := []
    cmdLog := [] }

/-! ## C library functions -/

/-- `isspace` in the C locale. -/
def isspace (c : Nat) : Bool := c = 32 || (9 ≤ c && c ≤ 13)

def isdigit (c : Nat) : Bool := 48 ≤ c && c ≤ 57

def tolower (c : Nat) : Nat := if 65 ≤ c ∧ c ≤ 90 then c + 32 else c

/-- The value of a hexadecimal digit, either case. -/
def hexVal (c : Nat) : Option Nat :=
  if 48 ≤ c ∧ c ≤ 57 then some (c - 48)
  else if 65 ≤ c ∧ c ≤ 70 then some (c - 55)
  else if 97 ≤ c ∧ c ≤ 102 then some (c - 87)
  else none

/-- The C string held by a buffer: the bytes before the first NUL. -/
def cstr (buf : List Nat) : List Nat := buf.takeWhile (fun c => c != 0)

/-- `str[p]` of a C string; the terminating NUL at `p = strlen(str)`. -/
def charAt (str : List Nat) (p : Nat) : Nat := str.getD p 0

/-- `strcasecmp(a, b) == 0`. -/
def strcasecmpEq (a b : List Nat) : Bool := a.map tolower == b.map tolower

/-- The decimal digits at the front of the string, accumulated onto `acc`. -/
def atoiDigits : Nat → List Nat → Nat
  | acc, [] => acc
  | acc, c :: cs => if isdigit c then atoiDigits (acc * 10 + (c - 48)) cs else acc

/-- The integer the numeral at the front of the string denotes, as `atoi` reads it: white
space, an optional sign, decimal digits; 0 when there is no digit. -/
def numeralValue (str : List Nat) : Int :=
  let s := str.dropWhile isspace
  if s.headD 0 = 45 then -(atoiDigits 0 s.tail : Int)
  else if s.headD 0 = 43 then (atoiDigits 0 s.tail : Int)
  else (atoiDigits 0 s : Int)

/-- `atoi`: the numeral at the front of the string; a value beyond `int` wraps. -/
def atoi (str : List Nat) : Int := wrapInt (numeralValue str)

/-- The hexadecimal digits at the front of the string, accumulated onto `acc`. -/
def hexDigits : Nat → List Nat → Nat
  | acc, [] => acc
  | acc, c :: cs =>
    match hexVal c with
    | some d => hexDigits (acc * 16 + d) cs
    | none => acc

/-- `strtol(str, NULL, 16)`: white space, an optional sign, an optional `0x`, hexadecimal
digits; a value outside `long` is clamped to `LONG_MAX` or `LONG_MIN`. -/
def strtol16 (str : List Nat) : Int :=
  let s := str.dropWhile isspace
  let neg := s.headD 0 = 45
  let s := if s.headD 0 = 45 ∨ s.headD 0 = 43 then s.tail else s
  let s :=
    if s.headD 0 = 48 ∧ (charAt s 1 = 120 ∨ charAt s 1 = 88) ∧ (hexVal (charAt s 2)).isSome
    then s.drop 2 else s
  let v : Int := (hexDigits 0 s : Int)
  if neg then (if -v < LONG_MIN then LONG_MIN else -v)
  else (if v > LONG_MAX then LONG_MAX else v)

/-- The decimal digits of `n` in front of `acc`; `fuel` bounds the number of digits. -/
def utoaDigits : Nat → Nat → List Nat → List Nat
  | 0, _, acc => acc
  | fuel + 1, n, acc =>
    if n / 10 = 0 then (48 + n % 10) :: acc
    else utoaDigits fuel (n / 10) ((48 + n % 10) :: acc)

/-- `itoa(v, outBuff, 10)`. -/
def itoa (v : Int) : List Nat :=
  if v < 0 then 45 :: utoaDigits (v.natAbs + 1) v.natAbs []
  else utoaDigits (v.toNat + 1) v.toNat []

/-- An upper-case hexadecimal digit. -/
def hexChar (d : Nat) : Nat := if d < 10 then 48 + d else 55 + d

/-- `sprintf(outBuff, "%06lX", v)` for `v < 2^24`, which the mask `& 0x00FFFFFF` at the one
call guarantees: six upper-case hexadecimal digits. -/
def sprintf06lX (v : Nat) : List Nat :=
  [hexChar (v / 1048576 % 16), hexChar (v / 65536 % 16), hexChar (v / 4096 % 16),
   hexChar (v / 256 % 16), hexChar (v / 16 % 16), hexChar (v % 16)]

/-! ## Serial output and error reporting -/

def writeMsgToSerial (msgData : List Nat) (s : State) : State :=
  { s with out := s.out ++ msgData }

def writeCharToSerial (ch : Nat) (s : State) : State :=
  { s with out := s.out ++ [ch] }

def setModuleLed (onFlag : Bool) (s : State) : State :=
  if onFlag then
    if !s.currentStatusLedFlag then
      { s with currentStatusLedFlag := true, hw := s.hw ++ [HwCall.digitalWrite true] }
    else s
  else
    if s.currentStatusLedFlag then
      { s with currentStatusLedFlag := false, hw := s.hw ++ [HwCall.digitalWrite false] }
    else s

/-- The prompt: `echoPromptStr` with echo on, `promptChar` with echo off. -/
def writePrompt (s : State) : State :=
  if s.serialEchoFlag then writeMsgToSerial echoPromptStr s
  else writeCharToSerial promptChar s

/-- The sketch's `setup()`; the `delay(500)` is not modelled. -/
def setup (s : State) : State :=
  let s := setModuleLed true s
  let s := writeMsgToSerial VERSION_STR s
  let s := writePrompt s
  setModuleLed false s

def initializeLedLib (s : State) : State :=
  let order :=
    if strcasecmpEq s.stripColorOrderStr (bytesOf "GRB") then EOrder.GRB
    else if strcasecmpEq s.stripColorOrderStr (bytesOf "RGB") then EOrder.RGB
    else if strcasecmpEq s.stripColorOrderStr (bytesOf "RBG") then EOrder.RBG
    else if strcasecmpEq s.stripColorOrderStr (bytesOf "GBR") then EOrder.GBR
    else if strcasecmpEq s.stripColorOrderStr (bytesOf "BRG") then EOrder.BRG
    else if strcasecmpEq s.stripColorOrderStr (bytesOf "BGR") then EOrder.BGR
    else EOrder.GRB
  { s with
    hw := s.hw ++ [HwCall.addLeds order s.stripNumberLeds, HwCall.setBrightness s.stripBrightness]
    ledLibInitializedFlag := true }

def sendErrorResponse (msgData : List Nat) (s : State) : State :=
  let s := { s with lastErrorStr := msgData, errLog := s.errLog ++ [msgData] }
  if s.serialEchoFlag then
    let s := writeMsgToSerial lnFeedStr s
    writeMsgToSerial msgData s
  else writeCharToSerial errorChar s

def queryLastErrorMsg (s : State) : State :=
  let s := if s.serialEchoFlag then writeMsgToSerial lnFeedStr s else s
  writeMsgToSerial s.lastErrorStr s

/-! ## Parameter scanning -/

/-- First loop of `findSecondParam`, entered at a position `p < strLen` with `str` the
rest of the string from `p`: the number of characters up to the first space or comma. -/
def scanFirstParam : List Nat → Nat
  | [] => 0
  | c :: cs => if c ≠ 32 ∧ c ≠ 44 then scanFirstParam cs + 1 else 0

/-- Second loop of `findSecondParam`: the number of leading spaces and commas. -/
def scanSeparator : List Nat → Nat
  | [] => 0
  | c :: cs => if c = 32 ∨ c = 44 then scanSeparator cs + 1 else 0

/-- The sketch's `findSecondParam(str, strLen)` with `strLen = strlen(str)`, as at every
call. On the empty string the first loop reads the NUL, increments `p` to 1 and stops. -/
def findSecondParam (str : List Nat) : Nat :=
  if str = [] then 1
  else
    let p := scanFirstParam str
    p + scanSeparator (str.drop p)

/-! ## The commands -/

def configureLeds (paramsStr : List Nat) (s : State) : State :=
  let strLen := paramsStr.length
  if strLen > 0 then
    let numVal := atoi paramsStr
    if numVal > 0 ∧ numVal ≤ MAX_NUM_LEDS then
      let s := { s with stripNumberLeds := numVal }
      let p := findSecondParam paramsStr
      let s :=
        if p > 0 ∧ p < strLen then
          { s with stripColorOrderStr := (paramsStr.drop p).take 4 }
        else s
      initializeLedLib s
    else sendErrorResponse (bytesOf "LED count value out of range") s
  else s

def describeLeds (s : State) : State :=
  let s := if s.serialEchoFlag then writeMsgToSerial lnFeedStr s else s
  let s := writeMsgToSerial (bytesOf "NumLEDs=") s
  let s := writeMsgToSerial (itoa s.stripNumberLeds) s
  let s := writeMsgToSerial (bytesOf " ClrOrder=") s
  let s := writeMsgToSerial s.stripColorOrderStr s
  let s := writeMsgToSerial (bytesOf " LEDPin=") s
  let s := writeMsgToSerial (itoa STRIP_LED_PIN) s
  let s := writeMsgToSerial (bytesOf " Bright=") s
  writeMsgToSerial (itoa s.stripBrightness) s

def queryMaxNumLeds (s : State) : State :=
  let s := if s.serialEchoFlag then writeMsgToSerial lnFeedStr s else s
  writeMsgToSerial (itoa MAX_NUM_LEDS) s

def setBrightness (paramsStr : List Nat) (s : State) : State :=
  if paramsStr.length > 0 then
    let s := { s with stripBrightness := (atoi paramsStr % 256).toNat }
    if s.ledLibInitializedFlag then
      { s with hw := s.hw ++ [HwCall.setBrightness s.stripBrightness,
                              HwCall.showLeds s.crgbLedsArr] }
    else s
  else
    let s := if s.serialEchoFlag then writeMsgToSerial lnFeedStr s else s
    writeMsgToSerial (itoa s.stripBrightness) s

/-- The sketch's `stringToCRGB(str, strLen)` with `strLen = strlen(str)`, as at every call.
The named colours are FastLED's `CRGB::HTMLColorCode` values. -/
def stringToCRGB (str : List Nat) : CRGB :=
  if str.length > 1 then CRGB.ofCode (strtol16 str % 16777216).toNat
  else
    let clrChar := charAt str 0
    let clrChar := if 97 ≤ clrChar ∧ clrChar ≤ 122 then clrChar - 32 else clrChar
    if clrChar = 82 then CRGB.ofCode 0xFF0000        -- 'R' Red
    else if clrChar = 71 then CRGB.ofCode 0x008000   -- 'G' Green
    else if clrChar = 66 then CRGB.ofCode 0x0000FF   -- 'B' Blue
    else if clrChar = 89 then CRGB.ofCode 0xFFFF00   -- 'Y' Yellow
    else if clrChar = 87 then CRGB.ofCode 0xFFFFFF   -- 'W' White
    else if clrChar = 79 then CRGB.ofCode 0xFFA500   -- 'O' Orange
    else if clrChar = 86 then CRGB.ofCode 0xEE82EE   -- 'V' Violet
    else if clrChar = 80 then CRGB.ofCode 0xFFC0CB   -- 'P' Pink
    else if clrChar = 77 then CRGB.ofCode 0xFF00FF   -- 'M' Magenta
    else if clrChar = 67 then CRGB.ofCode 0x00FFFF   -- 'C' Cyan
    else if clrChar = 84 then CRGB.ofCode 0x008080   -- 'T' Teal
    else if clrChar = 65 then CRGB.ofCode 0x808080   -- 'A' Gray
    else if clrChar = 78 then CRGB.ofCode 0xA52A2A   -- 'N' Brown
    else Black

def setPixelColor (paramsStr : List Nat) (s : State) : State :=
  let strLen := paramsStr.length
  if strLen > 0 then
    let ledIdx := atoi paramsStr
    if ledIdx ≥ 0 ∧ ledIdx < s.stripNumberLeds then
      let p := findSecondParam paramsStr
      if p > 0 ∧ p < strLen then
        let crgbVal := stringToCRGB (paramsStr.drop p)
        if crgbVal ≠ Black ∨ charAt paramsStr p = 48 then
          { s with crgbLedsArr := s.crgbLedsArr.set ledIdx.toNat crgbVal }
        else sendErrorResponse (bytesOf "Invalid pixel color value") s
      else sendErrorResponse (bytesOf "Pixel color param not found") s
    else sendErrorResponse (bytesOf "LED index value out of range") s
  else s

def queryPixelColor (paramsStr : List Nat) (s : State) : State :=
  let strLen := paramsStr.length
  if strLen > 0 then
    let ledIdx := atoi paramsStr
    if ledIdx ≥ 0 ∧ ledIdx < s.stripNumberLeds then
      let outBuff := sprintf06lX (s.crgbLedsArr.getD ledIdx.toNat Black).code24
      let s := if s.serialEchoFlag then writeMsgToSerial lnFeedStr s else s
      writeMsgToSerial outBuff s
    else sendErrorResponse (bytesOf "LED index value out of range") s
  else s

def fillStripColor (paramsStr : List Nat) (s : State) : State :=
  let strLen := paramsStr.length
  if strLen > 0 then
    let crgbVal := stringToCRGB paramsStr
    if crgbVal ≠ Black ∨ charAt paramsStr 0 = 48 then
      let fill := fun (arr : List CRGB) (idx : Nat) => arr.set idx crgbVal
      { s with crgbLedsArr := (List.range s.stripNumberLeds.toNat).foldl fill s.crgbLedsArr }
    else sendErrorResponse (bytesOf "Invalid fill color value") s
  else sendErrorResponse (bytesOf "Fill color param not found") s

def showStripColor (paramsStr : List Nat) (s : State) : State :=
  let strLen := paramsStr.length
  if strLen > 0 then
    let crgbVal := stringToCRGB paramsStr
    if crgbVal ≠ Black ∨ charAt paramsStr 0 = 48 then
      let s := if !s.ledLibInitializedFlag then initializeLedLib s else s
      { s with hw := s.hw ++ [HwCall.showColor crgbVal] }
    else sendErrorResponse (bytesOf "Invalid pixel color value") s
  else
    let s := if !s.ledLibInitializedFlag then initializeLedLib s else s
    { s with hw := s.hw ++ [HwCall.showLeds s.crgbLedsArr] }

def setSerialEcho (paramsStr : List Nat) (s : State) : State :=
  if paramsStr.length > 0 then
    if charAt paramsStr 0 = 48 then { s with serialEchoFlag := false }
    else if charAt paramsStr 0 = 49 then { s with serialEchoFlag := true }
    else if strcasecmpEq paramsStr (bytesOf "off") then { s with serialEchoFlag := false }
    else if strcasecmpEq paramsStr (bytesOf "on") then { s with serialEchoFlag := true }
    else sendErrorResponse (bytesOf "Invalid parameter") s
  else
    let s := if s.serialEchoFlag then writeMsgToSerial lnFeedStr s else s
    writeCharToSerial (if s.serialEchoFlag then 49 else 48) s

/-- The `while` of `processCommand`, started at `p = 1` with `str = &procBuffer[1]`: the
number of spaces after the command character. -/
def skipSpaces : List Nat → Nat
  | [] => 0
  | c :: cs => if c = 32 then skipSpaces cs + 1 else 0

/-- The sketch's `processCommand(procBuffer)`; `millis` is what `millis()` returns when the
command is `A`. -/
def processCommand (millis : Nat) (procBuffer : List Nat) (s : State) : State :=
  let s := { s with cmdLog := s.cmdLog ++ [procBuffer] }
  let cmdByte := charAt procBuffer 0
  let cmdByte := if 97 ≤ cmdByte ∧ cmdByte ≤ 122 then cmdByte - 32 else cmdByte
  let p := 1 + skipSpaces (procBuffer.drop 1)
  let paramsStr := procBuffer.drop p
  if cmdByte = 67 then configureLeds paramsStr s            -- 'C'
  else if cmdByte = 68 then describeLeds s                  -- 'D'
  else if cmdByte = 77 then queryMaxNumLeds s               -- 'M'
  else if cmdByte = 80 then setPixelColor paramsStr s       -- 'P'
  else if cmdByte = 82 then queryPixelColor paramsStr s     -- 'R'
  else if cmdByte = 70 then fillStripColor paramsStr s      -- 'F'
  else if cmdByte = 65 then                                 -- 'A'
    { s with receivingArrayIdx := 0, recvArrStartTimeMs := millis, receivingArrayFlag := true }
  else if cmdByte = 83 then showStripColor paramsStr s      -- 'S'
  else if cmdByte = 66 then setBrightness paramsStr s       -- 'B'
  else if cmdByte = 69 then setSerialEcho paramsStr s       -- 'E'
  else if cmdByte = 76 then queryLastErrorMsg s             -- 'L'
  else if cmdByte = 86 then                                 -- 'V'
    let s := if s.serialEchoFlag then writeMsgToSerial lnFeedStr s else s
    writeMsgToSerial VERSION_STR s
  else sendErrorResponse (bytesOf "Unrecognized command") s

/-! ## The byte-arrival handler and the scheduling tick -/

def copySerialMsgBuffer (s : State) : State :=
  let n := s.serialBufferIndex.toNat
  let s := { s with commandBuffer := s.serialBuffer.take n ++ s.commandBuffer.drop n }
  let s := { s with commandBufferSize := s.serialBufferIndex }
  let s := { s with commandBuffer := s.commandBuffer.set s.commandBufferSize.toNat 0 }
  let s := { s with serialBufferIndex := 0 }
  let s := writeCharToSerial msgRecvdChar s
  { s with serialCmdWaitingFlag := false }

/-- The binary branch of the `while` body of `serialEvent`. -/
def recvArrayByte (nextByte : Nat) (s : State) : State :=
  let s := { s with recvCRGBVal := s.recvCRGBVal.setRaw s.recvArrOrd nextByte,
                    recvArrOrd := s.recvArrOrd + 1 }
  if s.recvArrOrd ≥ 3 then
    let s := { s with recvArrOrd := 0 }
    let s := { s with crgbLedsArr := s.crgbLedsArr.set s.receivingArrayIdx.toNat s.recvCRGBVal,
                      receivingArrayIdx := s.receivingArrayIdx + 1 }
    if s.receivingArrayIdx ≥ s.stripNumberLeds then
      let s := { s with receivingArrayFlag := false }
      let s := { s with receivingArrayIdx := 0 }
      writePrompt s
    else s
  else s

/-- The line branch of the `while` body of `serialEvent`, up to the iteration count. -/
def recvLineByte (nextByte : Nat) (s : State) : State :=
  if !s.serialCmdWaitingFlag then
    if nextByte ≠ 13 then
      if nextByte ≥ 32 ∧ s.serialBufferIndex < SERIAL_BUFFER_SIZE - 2 then
        let s := if s.serialEchoFlag then writeCharToSerial nextByte s else s
        { s with serialBuffer := s.serialBuffer.set s.serialBufferIndex.toNat nextByte,
                 serialBufferIndex := s.serialBufferIndex + 1 }
      else s
    else
      if s.serialBufferIndex > 0 then
        if s.commandBufferSize ≤ 0 then copySerialMsgBuffer s
        else { s with serialCmdWaitingFlag := true }
      else if s.commandBufferSize ≤ 0 then writePrompt s
      else s
  else s

/-- The `while (Serial.available())` of `serialEvent`: `input` are the bytes `Serial.read`
delivers, the second component of the result the bytes left unread at the `return`. -/
def serialLoop : List Nat → Int → State → State × List Nat
  | [], _, s => (s, [])
  | rawByte :: rest, iterCount, s =>
    let nextByte := rawByte % 256
    if s.receivingArrayFlag then serialLoop rest iterCount (recvArrayByte nextByte s)
    else
      let s := recvLineByte nextByte s
      if !s.receivingArrayFlag then
        if iterCount + 1 > 20 then (s, rest) else serialLoop rest (iterCount + 1) s
      else serialLoop rest iterCount s

/-- The sketch's `serialEvent()`; `millis` is what `millis()` returns. -/
def serialEvent (millis : Nat) (input : List Nat) (s : State) : State × List Nat :=
  let s :=
    if s.receivingArrayFlag ∧ millis > (s.recvArrStartTimeMs + 5000) % 2 ^ 32 then
      let s := { s with receivingArrayFlag := false }
      let s := { s with receivingArrayIdx := 0 }
      let s := { s with recvArrOrd := 0 }
      sendErrorResponse (bytesOf "Timeout during receive of array data") s
    else s
  serialLoop input 0 s

/-- The sketch's `loop()`; `curTimeMs` is what `millis()` returns at its start and
`cmdTimeMs` what it returns inside `processCommand`. -/
def loop (curTimeMs cmdTimeMs : Nat) (s : State) : State :=
  let curTimeDiv : Int := ((curTimeMs / 100 % 40 : Nat) : Int)
  if s.commandBufferSize > 0 then
    let s := setModuleLed true s
    let s := processCommand cmdTimeMs (cstr s.commandBuffer) s
    let s := { s with commandBufferSize := 0 }
    let s := writePrompt s
    let s := { s with cmdRecvDivVal := (curTimeDiv + 2) % 40 }
    if s.serialCmdWaitingFlag ∧ s.serialBufferIndex > 0 then copySerialMsgBuffer s else s
  else
    if s.cmdRecvDivVal < 0 then
      if curTimeDiv ≥ 39 then setModuleLed true s
      else if curTimeDiv = 0 then setModuleLed false s
      else s
    else
      if curTimeDiv = s.cmdRecvDivVal then
        let s := setModuleLed false s
        { s with cmdRecvDivVal := -1 }
      else s

/-! ## The sketch with its array accesses checked

The same functions, with every access to the pixel array `crgbLedsArr` and to the three
bytes `recvCRGBVal.raw` made through an operation that fails (`none`) on an index out of
bounds; `lim` is the bound the index of a pixel access is checked against. -/

/-- `crgbLedsArr[i] = v`, failing unless `0 ≤ i < lim` and `i` is inside the array. -/
def writePixel (lim : Int) (arr : List CRGB) (i : Int) (v : CRGB) : Option (List CRGB) :=
  if 0 ≤ i ∧ i < lim ∧ i.toNat < arr.length then some (arr.set i.toNat v) else none

/-- `crgbLedsArr[i]`, failing unless `0 ≤ i < lim` and `i` is inside the array. -/
def readPixel (lim : Int) (arr : List CRGB) (i : Int) : Option CRGB :=
  if 0 ≤ i ∧ i < lim ∧ i.toNat < arr.length then some (arr.getD i.toNat Black) else none

/-- `recvCRGBVal.raw[i] = v`, failing unless `i` is 0, 1 or 2. -/
def CRGB.setRawChecked (c : CRGB) (i : Int) (v : Nat) : Option CRGB :=
  if 0 ≤ i ∧ i ≤ 2 then some (c.setRaw i v) else none

/-- The sketch's `setPixelColor` with the write `crgbLedsArr[ledIdx] = crgbVal` checked. -/
def setPixelColorChecked (lim : Int) (paramsStr : List Nat) (s : State) : Option State :=
  let strLen := paramsStr.length
  if strLen > 0 then
    let ledIdx := atoi paramsStr
    if ledIdx ≥ 0 ∧ ledIdx < s.stripNumberLeds then
      let p := findSecondParam paramsStr
      if p > 0 ∧ p < strLen then
        let crgbVal := stringToCRGB (paramsStr.drop p)
        if crgbVal ≠ Black ∨ charAt paramsStr p = 48 then
          match writePixel lim s.crgbLedsArr ledIdx crgbVal with
          | some arr => some { s with crgbLedsArr := arr }
          | none => none
        else some (sendErrorResponse (bytesOf "Invalid pixel color value") s)
      else some (sendErrorResponse (bytesOf "Pixel color param not found") s)
    else some (sendErrorResponse (bytesOf "LED index value out of range") s)
  else some s

/-- The sketch's `queryPixelColor` with the read `crgbLedsArr[ledIdx]` checked. -/
def queryPixelColorChecked (lim : Int) (paramsStr : List Nat) (s : State) : Option State :=
  let strLen := paramsStr.length
  if strLen > 0 then
    let ledIdx := atoi paramsStr
    if ledIdx ≥ 0 ∧ ledIdx < s.stripNumberLeds then
      match readPixel lim s.crgbLedsArr ledIdx with
      | some pixel =>
        let outBuff := sprintf06lX pixel.code24
        let s := if s.serialEchoFlag then writeMsgToSerial lnFeedStr s else s
        some (writeMsgToSerial outBuff s)
      | none => none
    else some (sendErrorResponse (bytesOf "LED index value out of range") s)
  else some s

/-- The `for` loop of `fillStripColor`, `idx` running over `idxs`, with each write
`crgbLedsArr[idx] = crgbVal` checked. -/
def fillLoopChecked (lim : Int) (crgbVal : CRGB) : List Nat → List CRGB → Option (List CRGB)
  | [], arr => some arr
  | idx :: idxs, arr =>
    match writePixel lim arr (idx : Int) crgbVal with
    | some arr => fillLoopChecked lim crgbVal idxs arr
    | none => none

/-- The sketch's `fillStripColor` with the writes `crgbLedsArr[idx] = crgbVal` checked. -/
def fillStripColorChecked (lim : Int) (paramsStr : List Nat) (s : State) : Option State :=
  let strLen := paramsStr.length
  if strLen > 0 then
    let crgbVal := stringToCRGB paramsStr
    if crgbVal ≠ Black ∨ charAt paramsStr 0 = 48 then
      match fillLoopChecked lim crgbVal (List.range s.stripNumberLeds.toNat) s.crgbLedsArr with
      | some arr => some { s with crgbLedsArr := arr }
      | none => none
    else some (sendErrorResponse (bytesOf "Invalid fill color value") s)
  else some (sendErrorResponse (bytesOf "Fill color param not found") s)

/-- The sketch's `processCommand` with the pixel accesses of SetPixel, GetPixel and Fill
checked; the other commands do not index the pixel array. -/
def processCommandChecked (lim : Int) (millis : Nat) (procBuffer : List Nat) (s : State) :
    Option State :=
  let s := { s with cmdLog := s.cmdLog ++ [procBuffer] }
  let cmdByte := charAt procBuffer 0
  let cmdByte := if 97 ≤ cmdByte ∧ cmdByte ≤ 122 then cmdByte - 32 else cmdByte
  let p := 1 + skipSpaces (procBuffer.drop 1)
  let paramsStr := procBuffer.drop p
  if cmdByte = 67 then some (configureLeds paramsStr s)
  else if cmdByte = 68 then some (describeLeds s)
  else if cmdByte = 77 then some (queryMaxNumLeds s)
  else if cmdByte = 80 then setPixelColorChecked lim paramsStr s
  else if cmdByte = 82 then queryPixelColorChecked lim paramsStr s
  else if cmdByte = 70 then fillStripColorChecked lim paramsStr s
  else if cmdByte = 65 then
    some { s with receivingArrayIdx := 0, recvArrStartTimeMs := millis,
                  receivingArrayFlag := true }
  else if cmdByte = 83 then some (showStripColor paramsStr s)
  else if cmdByte = 66 then some (setBrightness paramsStr s)
  else if cmdByte = 69 then some (setSerialEcho paramsStr s)
  else if cmdByte = 76 then some (queryLastErrorMsg s)
  else if cmdByte = 86 then
    let s := if s.serialEchoFlag then writeMsgToSerial lnFeedStr s else s
    some (writeMsgToSerial VERSION_STR s)
  else some (sendErrorResponse (bytesOf "Unrecognized command") s)

/-- The binary branch of the `while` body of `serialEvent` with the writes
`recvCRGBVal.raw[recvArrOrd++] = nextByte` and `crgbLedsArr[receivingArrayIdx++] =
recvCRGBVal` checked. -/
def recvArrayByteChecked (lim : Int) (nextByte : Nat) (s : State) : Option State :=
  match s.recvCRGBVal.setRawChecked s.recvArrOrd nextByte with
  | none => none
  | some val =>
    let s : State := { s with recvCRGBVal := val, recvArrOrd := s.recvArrOrd + 1 }
    if s.recvArrOrd ≥ 3 then
      let s : State := { s with recvArrOrd := 0 }
      match writePixel lim s.crgbLedsArr s.receivingArrayIdx s.recvCRGBVal with
      | none => none
      | some arr =>
        let s : State :=
          { s with crgbLedsArr := arr, receivingArrayIdx := s.receivingArrayIdx + 1 }
        if s.receivingArrayIdx ≥ s.stripNumberLeds then
          let s := { s with receivingArrayFlag := false }
          let s := { s with receivingArrayIdx := 0 }
          some (writePrompt s)
        else some s
    else some s

/-- The `while (Serial.available())` of `serialEvent` with the writes of the binary branch
checked. -/
def serialLoopChecked (lim : Int) : List Nat → Int → State → Option (State × List Nat)
  | [], _, s => some (s, [])
  | rawByte :: rest, iterCount, s =>
    let nextByte := rawByte % 256
    if s.receivingArrayFlag then
      match recvArrayByteChecked lim nextByte s with
      | some s => serialLoopChecked lim rest iterCount s
      | none => none
    else
      let s := recvLineByte nextByte s
      if !s.receivingArrayFlag then
        if iterCount + 1 > 20 then some (s, rest)
        else serialLoopChecked lim rest (iterCount + 1) s
      else serialLoopChecked lim rest iterCount s

/-- The sketch's `serialEvent()` with the writes of the binary branch checked. -/
def serialEventChecked (lim : Int) (millis : Nat) (input : List Nat) (s : State) :
    Option (State × List Nat) :=
  let s :=
    if s.receivingArrayFlag ∧ millis > (s.recvArrStartTimeMs + 5000) % 2 ^ 32 then
      let s := { s with receivingArrayFlag := false }
      let s := { s with receivingArrayIdx := 0 }
      let s := { s with recvArrOrd := 0 }
      sendErrorResponse (bytesOf "Timeout during receive of array data") s
    else s
  serialLoopChecked lim input 0 s

/-- The sketch's `loop()` with the pixel accesses of the dispatched command checked. -/
def loopChecked (lim : Int) (curTimeMs cmdTimeMs : Nat) (s : State) : Option State :=
  let curTimeDiv : Int := ((curTimeMs / 100 % 40 : Nat) : Int)
  if s.commandBufferSize > 0 then
    let s := setModuleLed true s
    match processCommandChecked lim cmdTimeMs (cstr s.commandBuffer) s with
    | none => none
    | some s =>
      let s := { s with commandBufferSize := 0 }
      let s := writePrompt s
      let s := { s with cmdRecvDivVal := (curTimeDiv + 2) % 40 }
      if s.serialCmdWaitingFlag ∧ s.serialBufferIndex > 0 then some (copySerialMsgBuffer s)
      else some s
  else
    if s.cmdRecvDivVal < 0 then
      if curTimeDiv ≥ 39 then some (setModuleLed true s)
      else if curTimeDiv = 0 then some (setModuleLed false s)
      else some s
    else
      if curTimeDiv = s.cmdRecvDivVal then
        let s := setModuleLed false s
        some { s with cmdRecvDivVal := -1 }
      else some s

/-- The states the engine can be in: `setup()`, then byte arrivals and ticks in any order,
with any clock readings and any bytes. -/
inductive Reachable : State → Prop
  | setup : Reachable (setup initState)
  | serialEvent (millis : Nat) (input : List Nat) (s : State) :
      Reachable s → Reachable (serialEvent millis input s).1
  | loop (curTimeMs cmdTimeMs : Nat) (s : State) :
      Reachable s → Reachable (loop curTimeMs cmdTimeMs s)

/-! ## Vocabulary of the statements -/

/-- The value of a string of hexadecimal digits, most significant digit first. -/
def hexValue (t : List Nat) : Nat := t.foldl (fun a c => a * 16 + (hexVal c).getD 0) 0

/-- A colour token of two to six hexadecimal digits. -/
def IsHexToken (t : List Nat) : Prop :=
  2 ≤ t.length ∧ t.length ≤ 6 ∧ ∀ c ∈ t, (hexVal c).isSome = true

/-- The letters of the named-colour table, either case. -/
def colorLetters : List Nat := bytesOf "RGBYWOVPMCTANrgbywovpmctan"

/-- The 24-bit colour a letter of the named-colour table stands for. -/
def namedColor (c : Nat) : Nat :=
  match Char.ofNat (if 97 ≤ c then c - 32 else c) with
  | 'R' => 0xFF0000 | 'G' => 0x008000 | 'B' => 0x0000FF | 'Y' => 0xFFFF00
  | 'W' => 0xFFFFFF | 'O' => 0xFFA500 | 'V' => 0xEE82EE | 'P' => 0xFFC0CB
  | 'M' => 0xFF00FF | 'C' => 0x00FFFF | 'T' => 0x008080 | 'A' => 0x808080
  | 'N' => 0xA52A2A | _ => 0

/-- A colour token of the round-trip law: a table letter or two to six hex digits. -/
def IsColorToken (t : List Nat) : Prop :=
  (∃ c, c ∈ colorLetters ∧ t = [c]) ∨ IsHexToken t

/-- The 24-bit colour a token of the round-trip law denotes. -/
def tokenColor (t : List Nat) : Nat :=
  if t.length = 1 then namedColor (t.headD 0) else hexValue t

/-- Line-mode reception of a run of bytes: the line branch of `serialEvent`, byte by
byte. -/
def feedLine (bytes : List Nat) (s : State) : State :=
  bytes.foldl (fun s rawByte => recvLineByte (rawByte % 256) s) s

/-- A run of invocations of the byte-arrival handler with no tick in between. Each
invocation has its clock reading and the bytes that arrived since the one before; what an
invocation leaves unread is still there for the next. -/
def serialEvents : List (Nat × List Nat) → List Nat → State → State × List Nat
  | [], rx, s => (s, rx)
  | (millis, arrived) :: es, rx, s =>
    serialEvents es (serialEvent millis (rx ++ arrived) s).2
      (serialEvent millis (rx ++ arrived) s).1

/-- All the bytes that arrive during a run of invocations, in order. -/
def arrivals (es : List (Nat × List Nat)) : List Nat := (es.map Prod.snd).flatten

/-- The bytes a line leaves in the reassembly buffer: the printable ones, at most 18. -/
def lineBytes (w : List Nat) : List Nat := (w.filter (fun c => 32 ≤ c)).take 18

/-- The state `s` is `s0` after the bytes `acc` were stored in the reassembly buffer (and
echoed, in echo mode); nothing else differs. -/
def LineAcc (s0 s : State) (acc : List Nat) : Prop :=
  ∃ buf : List Nat,
    s = { s0 with serialBuffer := buf, serialBufferIndex := (acc.length : Int),
                  out := s0.out ++ (if s0.serialEchoFlag then acc else []) } ∧
    buf.take acc.length = acc ∧ buf.length = 20 ∧ acc.length ≤ 18

/-- What a byte other than the terminator adds to the stored line. -/
def accStep (acc : List Nat) (b : Nat) : List Nat :=
  if 32 ≤ b ∧ acc.length < 18 then acc ++ [b] else acc

/-- A command either records no error or is exactly one `sendErrorResponse`. -/
def ErrorOrQuiet (f : State → State) : Prop :=
  ∀ s : State, (f s).errLog = s.errLog ∨ ∃ msg : List Nat, f s = sendErrorResponse msg s

/-- A step that leaves the line buffers, the waiting flag, the statics of `serialEvent`
and the size of the pixel array alone. -/
def KeepsBuffers (f : State → State) : Prop :=
  ∀ s : State, (f s).serialBuffer = s.serialBuffer ∧ (f s).commandBuffer = s.commandBuffer ∧
    (f s).serialBufferIndex = s.serialBufferIndex ∧
    (f s).commandBufferSize = s.commandBufferSize ∧
    (f s).serialCmdWaitingFlag = s.serialCmdWaitingFlag ∧
    (f s).recvArrOrd = s.recvArrOrd ∧ (f s).recvCRGBVal = s.recvCRGBVal ∧
    (f s).crgbLedsArr.length = s.crgbLedsArr.length ∧ (f s).cmdLog = s.cmdLog

/-- The line buffers are within bounds: both lengths are in `[0, 18]` and both buffers
have their 20 bytes. -/
def BuffersOk (s : State) : Prop :=
  0 ≤ s.serialBufferIndex ∧ s.serialBufferIndex ≤ 18 ∧
  0 ≤ s.commandBufferSize ∧ s.commandBufferSize ≤ 18 ∧
  s.serialBuffer.length = 20 ∧ s.commandBuffer.length = 20

/-- A reachable state right after `A` was dispatched with the byte counter at 1: the lines
`A` and `A` arrive together, the first tick dispatches `A` and promotes the second, one
binary byte `0x11` arrives, the second tick dispatches `A` again. -/
def staleCounterState : State :=
  loop 30 30 (serialEvent 20 [17] (loop 10 10
    (serialEvent 0 [65, 13, 65, 13] (setup initState)).1)).1

/-- A frame for the default 8 LEDs: the 24 bytes `0x21 .. 0x38`. -/
def frame24 : List Nat := (List.range 24).map (fun i => i + 33)

/-- Binary-mode reception of a run of bytes: the binary branch of `serialEvent`, byte by
byte. -/
def feedArray (bytes : List Nat) (s : State) : State :=
  bytes.foldl (fun s rawByte => recvArrayByte (rawByte % 256) s) s

/-- The number of bytes still missing from the frame being received. -/
def bytesNeeded (s : State) : Int :=
  3 * (s.stripNumberLeds - s.receivingArrayIdx) - s.recvArrOrd

/-- Binary mode is on, with the index inside the strip and the byte counter in 0..2. -/
def Receiving (s : State) : Prop :=
  s.receivingArrayFlag = true ∧ 0 ≤ s.recvArrOrd ∧ s.recvArrOrd ≤ 2 ∧
  0 ≤ s.receivingArrayIdx ∧ s.receivingArrayIdx < s.stripNumberLeds

/-- The pixel array after the RGB triples of `bytes` were written from index `idx` on. -/
def loadFrame : List CRGB → Nat → List Nat → List CRGB
  | arr, idx, r :: g :: b :: rest => loadFrame (arr.set idx ⟨r, g, b⟩) (idx + 1) rest
  | arr, _, _ => arr

/-- The `i`-th RGB triple of a frame. -/
def pixelOf (bytes : List Nat) (i : Nat) : CRGB :=
  ⟨bytes.getD (3 * i) 0, bytes.getD (3 * i + 1) 0, bytes.getD (3 * i + 2) 0⟩

/-- The command code of a line as `processCommand` reads it: the first character,
lower-case letters folded to upper case; `0` (the NUL) for the empty line. -/
def cmdOf (line : List Nat) : Nat :=
  if 97 ≤ charAt line 0 ∧ charAt line 0 ≤ 122 then charAt line 0 - 32 else charAt line 0

/-- The parameter string of a line as `processCommand` reads it: what follows the first
character and the spaces after it. -/
def paramsOf (line : List Nat) : List Nat := line.drop (1 + skipSpaces (line.drop 1))

/-- The state with the ghost log of dispatched lines emptied: two states agree on every
field of the sketch when they agree after this. -/
def withoutCmdLog (s : State) : State := { s with cmdLog := [] }

/-- A command that does not read the ghost log of dispatched lines. -/
def IgnoresCmdLog (f : State → State) : Prop :=
  ∀ (s : State) (log : List (List Nat)), f { s with cmdLog := log } = { f s with cmdLog := log }

/-- The configuration and the binary mode are the same in `r` as in `s`. -/
def SameMode (s r : State) : Prop :=
  r.stripNumberLeds = s.stripNumberLeds ∧ r.stripColorOrderStr = s.stripColorOrderStr ∧
  r.receivingArrayFlag = s.receivingArrayFlag ∧ r.receivingArrayIdx = s.receivingArrayIdx ∧
  r.recvArrStartTimeMs = s.recvArrStartTimeMs

/-- The bounds on the configuration and on the binary receiver: the LED count is in
`[1, 300]`, the pixel array has its 300 entries, the byte counter is in `[0, 2]`, the
receive index is in `[0, 300)` and is zero outside binary mode, the channel order string has
at most 4 characters. -/
def ModeInv (s : State) : Prop :=
  (1 ≤ s.stripNumberLeds ∧ s.stripNumberLeds ≤ MAX_NUM_LEDS) ∧
  s.crgbLedsArr.length = 300 ∧
  (0 ≤ s.recvArrOrd ∧ s.recvArrOrd ≤ 2) ∧
  (0 ≤ s.receivingArrayIdx ∧ s.receivingArrayIdx < MAX_NUM_LEDS) ∧
  (s.receivingArrayFlag = false → s.receivingArrayIdx = 0) ∧
  s.stripColorOrderStr.length ≤ 4

/-- With the waiting flag set, a line is held in the reassembly buffer and another one is
staged. -/
def WaitInv (s : State) : Prop :=
  s.serialCmdWaitingFlag = true → 0 < s.serialBufferIndex ∧ 0 < s.commandBufferSize

/-- A reachable state in binary mode after the LED count was lowered: the lines `A` and
`C 1` arrive together, the first tick dispatches `A` and promotes `C 1`, three pixels (9
bytes) arrive, the second tick dispatches `C 1`. -/
def loweredCountState : State :=
  loop 30 30 (serialEvent 20 (List.replicate 9 7) (loop 10 10
    (serialEvent 0 (bytesOf "A" ++ [13] ++ bytesOf "C 1" ++ [13]) (setup initState)).1)).1

/-- The six channel orders and their names. -/
def orderTable : List (List Nat × EOrder) :=
  [(bytesOf "RGB", EOrder.RGB), (bytesOf "RBG", EOrder.RBG), (bytesOf "GRB", EOrder.GRB),
   (bytesOf "GBR", EOrder.GBR), (bytesOf "BRG", EOrder.BRG), (bytesOf "BGR", EOrder.BGR)]

/-- A reachable state whose channel order is none of the six: the line `C 4,XYZ`, then a
tick. -/
def oddOrderState : State :=
  loop 10 10 (serialEvent 0 (bytesOf "C 4,XYZ" ++ [13]) (setup initState)).1

/-- A reachable state in binary mode entered 1000 ms before the 32-bit clock wraps: the
line `A` arrives, the tick dispatches it at clock time `2^32 - 1000`. -/
def nearWrapState : State :=
  loop 4294966296 4294966296 (serialEvent 4294966290 [65, 13] (setup initState)).1

/-! ## Theorems -/

set_option maxRecDepth 20000

/-! ### Decimal and hexadecimal conversion -/

theorem utoaDigits_spec (fuel : Nat) : ∀ (n : Nat) (acc : List Nat), n < fuel →
    ∃ ds : List Nat, ∃ k : Nat, utoaDigits fuel n acc = ds ++ acc ∧ ds ≠ [] ∧
      (∀ c ∈ ds, 48 ≤ c ∧ c ≤ 57) ∧
      ∀ (a : Nat) (t : List Nat), atoiDigits a (ds ++ t) = atoiDigits (a * 10 ^ k + n) t := by
  induction fuel with
  | zero => intro n acc h; omega
  | succ f ih =>
    intro n acc h
    unfold utoaDigits
    by_cases h0 : n / 10 = 0
    · refine ⟨[48 + n % 10], 1, by simp [h0], by simp, ?_, ?_⟩
      · intro c hc
        simp at hc
        omega
      · intro a t
        have hd : isdigit (48 + n % 10) = true := by simp [isdigit]; omega
        have hn : n % 10 = n := by omega
        rw [hn] at hd ⊢
        simp [atoiDigits, hd]
    · have hlt : n / 10 < f := by omega
      obtain ⟨ds, k, h1, h2, h3, h4⟩ := ih (n / 10) ((48 + n % 10) :: acc) hlt
      refine ⟨ds ++ [48 + n % 10], k + 1, by simp [h0, h1], by simp, ?_, ?_⟩
      · intro c hc
        rcases List.mem_append.1 hc with hc | hc
        · exact h3 c hc
        · simp at hc
          omega
      · intro a t
        have hd : isdigit (48 + n % 10) = true := by simp [isdigit]; omega
        rw [List.append_assoc, h4]
        simp only [List.singleton_append, atoiDigits, hd, if_true]
        congr 1
        rw [pow_succ]
        have : 48 + n % 10 - 48 = n % 10 := by omega
        rw [this]
        have h10 : n / 10 * 10 + n % 10 = n := by omega
        nlinarith [h10]

theorem atoiDigits_stop (a : Nat) (t : List Nat) (ht : isdigit (t.headD 0) = false) :
    atoiDigits a t = a := by
  cases t with
  | nil => rfl
  | cons c cs =>
    simp only [List.headD_cons] at ht
    simp [atoiDigits, ht]

theorem wrapInt_of_range (v : Int) (h : -32768 ≤ v ∧ v ≤ 32767) : wrapInt v = v := by
  simp only [wrapInt, INT_BITS]
  norm_num
  omega

theorem wrapInt_range (v : Int) : -32768 ≤ wrapInt v ∧ wrapInt v ≤ 32767 := by
  simp only [wrapInt, INT_BITS]
  norm_num
  omega

theorem atoi_digit_head (c : Nat) (cs : List Nat) (h : 48 ≤ c ∧ c ≤ 57) :
    atoi (c :: cs) = wrapInt (atoiDigits 0 (c :: cs) : Int) := by
  have hs : isspace c = false := by simp [isspace]; omega
  have h1 : c ≠ 45 := by omega
  have h2 : c ≠ 43 := by omega
  simp [atoi, numeralValue, List.dropWhile, hs, h1, h2]

theorem atoi_minus_head (cs : List Nat) :
    atoi (45 :: cs) = wrapInt (-(atoiDigits 0 cs : Int)) := by
  have hs : isspace 45 = false := by decide
  simp [atoi, numeralValue, List.dropWhile, hs]

/-- The decimal digits `itoa` writes for a natural number, and what `atoi` reads back. -/
theorem itoa_natCast_spec (n : Nat) :
    ∃ ds : List Nat, ∃ k : Nat, itoa (n : Int) = ds ∧ ds ≠ [] ∧ (∀ c ∈ ds, 48 ≤ c ∧ c ≤ 57) ∧
      ∀ (a : Nat) (t : List Nat), atoiDigits a (ds ++ t) = atoiDigits (a * 10 ^ k + n) t := by
  obtain ⟨ds, k, h1, h2, h3, h4⟩ := utoaDigits_spec (n + 1) n [] (by omega)
  refine ⟨ds, k, ?_, h2, h3, h4⟩
  have : ¬ ((n : Int) < 0) := by omega
  simp [itoa, this, h1]

/-- Reading back what `itoa` wrote: `atoi` of the decimal form of an `int`, followed by
anything that does not start with a digit, is that `int`. -/
theorem atoi_itoa_append (v : Int) (hv : -32768 ≤ v ∧ v ≤ 32767) (t : List Nat)
    (ht : isdigit (t.headD 0) = false) : atoi (itoa v ++ t) = v := by
  by_cases hneg : v < 0
  · obtain ⟨ds, k, h1, h2, h3, h4⟩ := utoaDigits_spec (v.natAbs + 1) v.natAbs [] (by omega)
    have hi : itoa v = 45 :: ds := by simp [itoa, hneg, h1]
    rw [hi, List.cons_append, atoi_minus_head, h4, atoiDigits_stop _ _ ht]
    have hab : (v.natAbs : Int) = -v := by omega
    have hz : 0 * 10 ^ k + v.natAbs = v.natAbs := by simp
    rw [hz, hab, wrapInt_of_range]
    · omega
    · omega
  · obtain ⟨n, rfl⟩ := Int.eq_ofNat_of_zero_le (by omega : 0 ≤ v)
    obtain ⟨ds, k, h1, h2, h3, h4⟩ := itoa_natCast_spec n
    rw [h1]
    cases ds with
    | nil => exact absurd rfl h2
    | cons c cs =>
      rw [List.cons_append, atoi_digit_head c _ (h3 c (by simp)), ← List.cons_append, h4,
        atoiDigits_stop _ _ ht, wrapInt_of_range]
      · simp
      · simp; omega

theorem itoa_head_not_space (v : Int) (t : List Nat) : (itoa v ++ t).headD 0 ≠ 32 := by
  by_cases hneg : v < 0
  · simp [itoa, hneg]
  · obtain ⟨n, rfl⟩ := Int.eq_ofNat_of_zero_le (by omega : 0 ≤ v)
    obtain ⟨ds, k, h1, h2, h3, h4⟩ := itoa_natCast_spec n
    rw [h1]
    cases ds with
    | nil => exact absurd rfl h2
    | cons c cs =>
      have := h3 c (by simp)
      simp only [List.cons_append, List.headD_cons]
      omega

theorem itoa_ne_nil (v : Int) : itoa v ≠ [] := by
  by_cases hneg : v < 0
  · simp [itoa, hneg]
  · obtain ⟨n, rfl⟩ := Int.eq_ofNat_of_zero_le (by omega : 0 ≤ v)
    obtain ⟨ds, k, h1, h2, h3, h4⟩ := itoa_natCast_spec n
    rw [h1]; exact h2

theorem itoa_no_separator (v : Int) : ∀ c ∈ itoa v, c ≠ 32 ∧ c ≠ 44 := by
  by_cases hneg : v < 0
  · obtain ⟨ds, k, h1, h2, h3, h4⟩ := utoaDigits_spec (v.natAbs + 1) v.natAbs [] (by omega)
    have hi : itoa v = 45 :: ds := by simp [itoa, hneg, h1]
    intro c hc
    rw [hi] at hc
    rcases List.mem_cons.1 hc with hc | hc
    · omega
    · have := h3 c hc; omega
  · obtain ⟨n, rfl⟩ := Int.eq_ofNat_of_zero_le (by omega : 0 ≤ v)
    obtain ⟨ds, k, h1, h2, h3, h4⟩ := itoa_natCast_spec n
    intro c hc
    rw [h1] at hc
    have := h3 c hc; omega

/-! ### Parameter scanning -/

theorem scanFirstParam_append (ds t : List Nat) (hds : ∀ c ∈ ds, c ≠ 32 ∧ c ≠ 44)
    (ht : t.headD 32 = 32 ∨ t.headD 32 = 44) : scanFirstParam (ds ++ t) = ds.length := by
  induction ds with
  | nil =>
    cases t with
    | nil => rfl
    | cons c cs =>
      simp only [List.headD_cons] at ht
      simp only [List.nil_append, scanFirstParam, List.length_nil]
      rcases ht with h | h <;> simp [h]
  | cons d ds ih =>
    have hd := hds d (by simp)
    have := ih (fun c hc => hds c (by simp [hc]))
    simp [scanFirstParam, hd, this]

theorem scanSeparator_stop (t : List Nat) (ht : t.headD 0 ≠ 32 ∧ t.headD 0 ≠ 44) :
    scanSeparator t = 0 := by
  cases t with
  | nil => rfl
  | cons c cs =>
    simp only [List.headD_cons] at ht
    simp [scanSeparator, ht]

/-- In `first second`, one space apart, `findSecondParam` finds the start of `second`. -/
theorem findSecondParam_space (ds t : List Nat)
    (hds : ∀ c ∈ ds, c ≠ 32 ∧ c ≠ 44) (ht : t.headD 0 ≠ 32 ∧ t.headD 0 ≠ 44) :
    findSecondParam (ds ++ 32 :: t) = ds.length + 1 := by
  have h1 : scanFirstParam (ds ++ 32 :: t) = ds.length :=
    scanFirstParam_append ds (32 :: t) hds (by simp)
  have h2 : ds ++ 32 :: t ≠ [] := by simp
  simp [findSecondParam, h2, h1, scanSeparator, scanSeparator_stop t ht]

/-- A parameter string without space or comma has no second parameter. -/
theorem findSecondParam_single (ds : List Nat) (hne : ds ≠ [])
    (hds : ∀ c ∈ ds, c ≠ 32 ∧ c ≠ 44) : findSecondParam ds = ds.length := by
  have h1 : scanFirstParam ds = ds.length := by
    simpa using scanFirstParam_append ds [] hds (by simp)
  simp [findSecondParam, hne, h1, scanSeparator]

/-! ### Colour tokens -/

theorem hexVal_lt (c d : Nat) (h : hexVal c = some d) : d < 16 := by
  unfold hexVal at h
  split at h
  · simp at h; omega
  · split at h
    · simp at h; omega
    · split at h
      · simp at h; omega
      · simp at h

theorem hexVal_zero (c : Nat) (h : hexVal c = some 0) : c = 48 := by
  unfold hexVal at h
  split at h
  · simp at h; omega
  · split at h
    · simp at h; omega
    · split at h
      · simp at h; omega
      · simp at h

theorem hexVal_char (c : Nat) (h : (hexVal c).isSome = true) :
    isspace c = false ∧ c ≠ 45 ∧ c ≠ 43 ∧ c ≠ 120 ∧ c ≠ 88 ∧ c ≠ 32 ∧ c ≠ 44 := by
  unfold hexVal at h
  have hc : (48 ≤ c ∧ c ≤ 57) ∨ (65 ≤ c ∧ c ≤ 70) ∨ (97 ≤ c ∧ c ≤ 102) := by
    by_contra hcon
    simp only [not_or] at hcon
    simp [hcon.1, hcon.2.1, hcon.2.2] at h
  refine ⟨?_, by omega, by omega, by omega, by omega, by omega, by omega⟩
  simp [isspace]
  omega

theorem hexDigits_eq_foldl (t : List Nat) (ht : ∀ c ∈ t, (hexVal c).isSome = true) :
    ∀ a : Nat, hexDigits a t = t.foldl (fun a c => a * 16 + (hexVal c).getD 0) a := by
  induction t with
  | nil => intro a; rfl
  | cons c cs ih =>
    intro a
    obtain ⟨d, hd⟩ := Option.isSome_iff_exists.1 (ht c (by simp))
    simp [hexDigits, hd, ih (fun x hx => ht x (by simp [hx]))]

theorem hexFold_lt (t : List Nat) :
    ∀ a : Nat, t.foldl (fun a c => a * 16 + (hexVal c).getD 0) a < (a + 1) * 16 ^ t.length := by
  induction t with
  | nil => intro a; simp
  | cons c cs ih =>
    intro a
    simp only [List.foldl_cons, List.length_cons]
    have hd : (hexVal c).getD 0 < 16 := by
      cases h : hexVal c with
      | none => simp
      | some d => simpa using hexVal_lt c d h
    calc cs.foldl (fun a c => a * 16 + (hexVal c).getD 0) (a * 16 + (hexVal c).getD 0)
        < (a * 16 + (hexVal c).getD 0 + 1) * 16 ^ cs.length := ih _
      _ ≤ ((a + 1) * 16) * 16 ^ cs.length := Nat.mul_le_mul_right _ (by omega)
      _ = (a + 1) * 16 ^ (cs.length + 1) := by rw [pow_succ]; ring

theorem hexFold_ge (t : List Nat) :
    ∀ a : Nat, a ≤ t.foldl (fun a c => a * 16 + (hexVal c).getD 0) a := by
  induction t with
  | nil => intro a; simp
  | cons c cs ih =>
    intro a
    simp only [List.foldl_cons]
    exact le_trans (by omega) (ih _)

theorem hexValue_lt (t : List Nat) (h : t.length ≤ 6) : hexValue t < 16777216 := by
  have h1 := hexFold_lt t 0
  have h2 : 16 ^ t.length ≤ 16 ^ 6 := Nat.pow_le_pow_right (by omega) h
  simp only [hexValue]
  norm_num at h1 h2
  omega

/-- A token of hexadecimal digits whose value is zero starts with the digit `0`. -/
theorem hexValue_zero_head (t : List Nat) (hne : t ≠ [])
    (ht : ∀ c ∈ t, (hexVal c).isSome = true) (h0 : hexValue t = 0) : t.headD 0 = 48 := by
  cases t with
  | nil => exact absurd rfl hne
  | cons c cs =>
    obtain ⟨d, hd⟩ := Option.isSome_iff_exists.1 (ht c (by simp))
    have h1 := hexFold_ge cs (0 * 16 + (hexVal c).getD 0)
    simp only [hexValue, List.foldl_cons] at h0
    rw [h0, hd] at h1
    simp at h1
    subst h1
    simpa using hexVal_zero c hd

/-- On a token of hexadecimal digits that fits in `long`, `strtol` returns its value. -/
theorem strtol16_hexToken (t : List Nat) (hlen : 2 ≤ t.length)
    (ht : ∀ c ∈ t, (hexVal c).isSome = true) (hv : (hexValue t : Int) ≤ LONG_MAX) :
    strtol16 t = (hexValue t : Int) := by
  match t, hlen, ht, hv with
  | c0 :: c1 :: cs, _, ht, hv =>
    have h0 := hexVal_char c0 (ht c0 (by simp))
    have h1 := hexVal_char c1 (ht c1 (by simp))
    have hfold := hexDigits_eq_foldl (c0 :: c1 :: cs) ht 0
    simp only [hexValue, List.foldl_cons, Nat.zero_mul, Nat.zero_add] at hv ⊢
    simp [strtol16, List.dropWhile, h0.1, h0.2.1, h0.2.2.1, charAt, h1.2.2.2.1, h1.2.2.2.2.1,
      hfold]
    intro h
    omega

theorem ofCode_code24 (v : Nat) (h : v < 16777216) : (CRGB.ofCode v).code24 = v := by
  simp only [CRGB.ofCode, CRGB.code24]
  omega

theorem ofCode_eq_Black (v : Nat) (h : v < 16777216) (hb : CRGB.ofCode v = Black) : v = 0 := by
  simp only [CRGB.ofCode, Black, CRGB.mk.injEq] at hb
  omega

/-- The colour `stringToCRGB` returns for a token of two to six hexadecimal digits. -/
theorem stringToCRGB_hexToken (t : List Nat) (h : IsHexToken t) :
    stringToCRGB t = CRGB.ofCode (hexValue t) := by
  obtain ⟨h2, h6, ht⟩ := h
  have hlt := hexValue_lt t h6
  have hmax : (hexValue t : Int) ≤ LONG_MAX := by
    simp only [LONG_MAX, LONG_BITS]; norm_num; omega
  have hl : t.length > 1 := by omega
  have hm : ((hexValue t : Int) % 16777216).toNat = hexValue t := by omega
  simp only [stringToCRGB, hl, if_true, strtol16_hexToken t h2 ht hmax, hm]

/-- The colour `stringToCRGB` returns for a letter of the named-colour table. -/
theorem stringToCRGB_letter (c : Nat) (h : c ∈ colorLetters) :
    stringToCRGB [c] = CRGB.ofCode (namedColor c) ∧ namedColor c ≠ 0 ∧
      namedColor c < 16777216 ∧ c ≠ 32 ∧ c ≠ 44 := by
  have hall : ∀ x ∈ colorLetters, stringToCRGB [x] = CRGB.ofCode (namedColor x) ∧
      namedColor x ≠ 0 ∧ namedColor x < 16777216 ∧ x ≠ 32 ∧ x ≠ 44 := by decide
  exact hall c h

/-- Every token of the round-trip law passes the colour validation of the commands and
is parsed to the colour it denotes. -/
theorem stringToCRGB_colorToken (t : List Nat) (h : IsColorToken t) :
    stringToCRGB t = CRGB.ofCode (tokenColor t) ∧ tokenColor t < 16777216 ∧
      (stringToCRGB t ≠ Black ∨ t.headD 0 = 48) ∧ t ≠ [] ∧
      t.headD 0 ≠ 32 ∧ t.headD 0 ≠ 44 := by
  rcases h with ⟨c, hc, rfl⟩ | h
  · obtain ⟨h1, h2, h3, h4, h5⟩ := stringToCRGB_letter c hc
    refine ⟨by simpa [tokenColor] using h1, by simpa [tokenColor] using h3, Or.inl ?_,
      by simp, by simpa using h4, by simpa using h5⟩
    rw [h1]
    intro hb
    exact h2 (ofCode_eq_Black _ h3 hb)
  · have hs := stringToCRGB_hexToken t h
    obtain ⟨h2, h6, ht⟩ := h
    have hlt := hexValue_lt t h6
    have hne : t ≠ [] := by intro h0; simp [h0] at h2
    have hl : t.length ≠ 1 := by omega
    have hhead : (hexVal (t.headD 0)).isSome = true := by
      cases t with
      | nil => exact absurd rfl hne
      | cons c cs => exact ht c (by simp)
    have hch := hexVal_char _ hhead
    refine ⟨by simpa [tokenColor, hl] using hs, by simpa [tokenColor, hl] using hlt, ?_, hne,
      hch.2.2.2.2.2.1, hch.2.2.2.2.2.2⟩
    by_cases hb : stringToCRGB t = Black
    · right
      rw [hs] at hb
      exact hexValue_zero_head t hne ht (ofCode_eq_Black _ hlt hb)
    · exact Or.inl hb

theorem charAt_eq_headD_drop (l : List Nat) (p : Nat) : charAt l p = (l.drop p).headD 0 := by
  simp [charAt, List.getD_eq_getElem?_getD, List.headD_eq_head?_getD, List.head?_drop]

/-! ### Dispatch of a command line `X params` -/

theorem skipSpaces_stop (t : List Nat) (h : t.headD 0 ≠ 32) : skipSpaces t = 0 := by
  cases t with
  | nil => rfl
  | cons c cs =>
    simp only [List.headD_cons] at h
    simp [skipSpaces, h]

theorem processCommand_P (m : Nat) (params : List Nat) (s : State)
    (hp : params.headD 0 ≠ 32) :
    processCommand m (80 :: 32 :: params) s =
      setPixelColor params { s with cmdLog := s.cmdLog ++ [80 :: 32 :: params] } := by
  simp [processCommand, charAt, skipSpaces, skipSpaces_stop params hp]

theorem processCommand_R (m : Nat) (params : List Nat) (s : State)
    (hp : params.headD 0 ≠ 32) :
    processCommand m (82 :: 32 :: params) s =
      queryPixelColor params { s with cmdLog := s.cmdLog ++ [82 :: 32 :: params] } := by
  simp [processCommand, charAt, skipSpaces, skipSpaces_stop params hp]

theorem processCommand_F (m : Nat) (params : List Nat) (s : State)
    (hp : params.headD 0 ≠ 32) :
    processCommand m (70 :: 32 :: params) s =
      fillStripColor params { s with cmdLog := s.cmdLog ++ [70 :: 32 :: params] } := by
  simp [processCommand, charAt, skipSpaces, skipSpaces_stop params hp]

theorem processCommand_C (m : Nat) (params : List Nat) (s : State)
    (hp : params.headD 0 ≠ 32) :
    processCommand m (67 :: 32 :: params) s =
      configureLeds params { s with cmdLog := s.cmdLog ++ [67 :: 32 :: params] } := by
  simp [processCommand, charAt, skipSpaces, skipSpaces_stop params hp]

theorem processCommand_D (m : Nat) (s : State) :
    processCommand m [68] s = describeLeds { s with cmdLog := s.cmdLog ++ [[68]] } := by
  simp [processCommand, charAt, skipSpaces]

/-! ### SetPixel and GetPixel on a valid index -/

theorem setPixelColor_ok (s : State) (i : Int) (c : List Nat)
    (hi : 0 ≤ i ∧ i < s.stripNumberLeds) (hr : i ≤ 32767) (hne : c ≠ [])
    (hsep : c.headD 0 ≠ 32 ∧ c.headD 0 ≠ 44)
    (hc : stringToCRGB c ≠ Black ∨ c.headD 0 = 48) :
    setPixelColor (itoa i ++ 32 :: c) s =
      { s with crgbLedsArr := s.crgbLedsArr.set i.toNat (stringToCRGB c) } := by
  have hat : atoi (itoa i ++ 32 :: c) = i :=
    atoi_itoa_append i ⟨by omega, hr⟩ (32 :: c) (by simp [isdigit])
  have hfs : findSecondParam (itoa i ++ 32 :: c) = (itoa i).length + 1 :=
    findSecondParam_space (itoa i) c (itoa_no_separator i) hsep
  have hcl : 0 < c.length := List.length_pos.2 hne
  have hdrop : List.drop ((itoa i).length + 1) (itoa i ++ 32 :: c) = c := by
    rw [List.drop_append_eq_append_drop]
    simp
  have hch : charAt (itoa i ++ 32 :: c) ((itoa i).length + 1) = c.headD 0 := by
    rw [charAt_eq_headD_drop, hdrop]
  simp only [setPixelColor, hat, hfs, hdrop, hch]
  have hlen : (itoa i ++ 32 :: c).length > 0 := by simp
  have hp : (itoa i).length + 1 > 0 ∧ (itoa i).length + 1 < (itoa i ++ 32 :: c).length := by
    simp; omega
  have hidx : i ≥ 0 ∧ i < s.stripNumberLeds := ⟨by omega, hi.2⟩
  simp only [hlen, hp, hidx, hc, and_self, if_true]

theorem queryPixelColor_ok (s : State) (i : Int)
    (hi : 0 ≤ i ∧ i < s.stripNumberLeds) (hr : i ≤ 32767) :
    queryPixelColor (itoa i) s =
      writeMsgToSerial (sprintf06lX (s.crgbLedsArr.getD i.toNat Black).code24)
        (if s.serialEchoFlag then writeMsgToSerial lnFeedStr s else s) := by
  have hat : atoi (itoa i) = i := by
    simpa using atoi_itoa_append i ⟨by omega, hr⟩ [] (by decide)
  have hlen : (itoa i).length > 0 := List.length_pos.2 (itoa_ne_nil i)
  have hidx : i ≥ 0 ∧ i < s.stripNumberLeds := ⟨by omega, hi.2⟩
  simp only [queryPixelColor, hat, hlen, hidx, and_self, if_true]

theorem bytesOf_P : bytesOf "P " = [80, 32] := by decide

theorem bytesOf_R : bytesOf "R " = [82, 32] := by decide

theorem bytesOf_F : bytesOf "F " = [70, 32] := by decide

theorem bytesOf_C : bytesOf "C " = [67, 32] := by decide

theorem bytesOf_D : bytesOf "D" = [68] := by decide

theorem bytesOf_space : bytesOf " " = [32] := by decide

/-- What `R i` replies on a valid index: the stored colour of pixel `i`. -/
theorem processCommand_R_ok (m : Nat) (s : State) (i : Int)
    (hi : 0 ≤ i ∧ i < s.stripNumberLeds) (hr : i ≤ 32767) :
    (processCommand m (bytesOf "R " ++ itoa i) s).out =
        s.out ++ (if s.serialEchoFlag then lnFeedStr else []) ++
          sprintf06lX (s.crgbLedsArr.getD i.toNat Black).code24 ∧
      (processCommand m (bytesOf "R " ++ itoa i) s).errLog = s.errLog ∧
      (processCommand m (bytesOf "R " ++ itoa i) s).lastErrorStr = s.lastErrorStr ∧
      (processCommand m (bytesOf "R " ++ itoa i) s).crgbLedsArr = s.crgbLedsArr := by
  have hh : (itoa i).headD 0 ≠ 32 := by simpa using itoa_head_not_space i []
  rw [bytesOf_R, List.cons_append, List.cons_append, List.nil_append,
    processCommand_R m (itoa i) s hh,
    queryPixelColor_ok { s with cmdLog := s.cmdLog ++ [82 :: 32 :: itoa i] } i hi hr]
  cases he : s.serialEchoFlag <;> simp [writeMsgToSerial, he]

/-! ### C1: SetPixel / GetPixel round trip -/

/-- What `P i c` does on a valid index and an accepted colour token. -/
theorem processCommand_P_ok (m : Nat) (s : State) (i : Int) (c : List Nat)
    (hi : 0 ≤ i ∧ i < s.stripNumberLeds) (hr : i ≤ 32767) (hne : c ≠ [])
    (hsep : c.headD 0 ≠ 32 ∧ c.headD 0 ≠ 44)
    (hc : stringToCRGB c ≠ Black ∨ c.headD 0 = 48) :
    processCommand m (bytesOf "P " ++ itoa i ++ bytesOf " " ++ c) s =
      { s with crgbLedsArr := s.crgbLedsArr.set i.toNat (stringToCRGB c)
               cmdLog := s.cmdLog ++ [bytesOf "P " ++ itoa i ++ bytesOf " " ++ c] } := by
  have hh : (itoa i ++ 32 :: c).headD 0 ≠ 32 := itoa_head_not_space i _
  have hl : bytesOf "P " ++ itoa i ++ bytesOf " " ++ c = 80 :: 32 :: (itoa i ++ 32 :: c) := by
    simp [bytesOf_P, bytesOf_space]
  rw [hl, processCommand_P m _ s hh,
    setPixelColor_ok { s with cmdLog := s.cmdLog ++ [80 :: 32 :: (itoa i ++ 32 :: c)] } i c
      hi hr hne hsep hc]

/-- C1. SetPixel/GetPixel round trip: on a strip of `n` LEDs, `1 ≤ n ≤ 300`, for every index
`0 ≤ i < n` and every colour token `c` that is a letter of the named-colour table (either
case) or two to six hexadecimal digits, dispatching `P i c` and then `R i` records no
error, `P i c` replies nothing, and the reply of `R i` is exactly the six upper-case
hexadecimal digits of the 24-bit colour `c` denotes (after the line feed echo mode adds). -/
theorem C1_setPixel_getPixel_roundtrip (s : State) (m1 m2 : Nat) (i : Int) (c : List Nat)
    (hlen : s.crgbLedsArr.length = 300)
    (hn : 1 ≤ s.stripNumberLeds ∧ s.stripNumberLeds ≤ 300)
    (hi : 0 ≤ i ∧ i < s.stripNumberLeds) (hc : IsColorToken c) :
    let s1 := processCommand m1 (bytesOf "P " ++ itoa i ++ bytesOf " " ++ c) s
    let s2 := processCommand m2 (bytesOf "R " ++ itoa i) s1
    s1.errLog = s.errLog ∧ s1.lastErrorStr = s.lastErrorStr ∧ s1.out = s.out ∧
      s2.errLog = s.errLog ∧ s2.lastErrorStr = s.lastErrorStr ∧
      s2.out = s.out ++ (if s.serialEchoFlag then lnFeedStr else []) ++
        sprintf06lX (tokenColor c) := by
  intro s1 s2
  obtain ⟨h1, h2, h3, h4, h5⟩ := stringToCRGB_colorToken c hc
  have hr : i ≤ 32767 := by omega
  have hs1 : s1 = { s with crgbLedsArr := s.crgbLedsArr.set i.toNat (stringToCRGB c)
                           cmdLog := s.cmdLog ++ [bytesOf "P " ++ itoa i ++ bytesOf " " ++ c] } :=
    processCommand_P_ok m1 s i c hi hr h4 h5 h3
  have hi1 : 0 ≤ i ∧ i < s1.stripNumberLeds := by rw [hs1]; exact hi
  obtain ⟨r1, r2, r3, _⟩ := processCommand_R_ok m2 s1 i hi1 hr
  have hidx : i.toNat < s.crgbLedsArr.length := by omega
  have hget : (s1.crgbLedsArr.getD i.toNat Black).code24 = tokenColor c := by
    rw [hs1]
    simp only [List.getD_eq_getElem?_getD, List.getElem?_set_self hidx, Option.getD_some, h1]
    exact ofCode_code24 _ h2
  refine ⟨by rw [hs1], by rw [hs1], by rw [hs1], ?_, ?_, ?_⟩
  · rw [r2, hs1]
  · rw [r3, hs1]
  · rw [r1, hget, hs1]

/-- C1 at the spec's example: after `C 4,RGB`, the line `P 0 R` and then `R 0` reply
`FF0000`. -/
theorem C1_setPixel_getPixel_roundtrip_witness :
    (processCommand 0 (bytesOf "R 0")
        (processCommand 0 (bytesOf "P 0 R")
          (processCommand 0 (bytesOf "C 4,RGB") (setup initState)))).out =
      (setup initState).out ++ bytesOf "FF0000" :=
  (C1_setPixel_getPixel_roundtrip (processCommand 0 (bytesOf "C 4,RGB") (setup initState))
    0 0 0 (bytesOf "R") (by decide) (by decide) (by decide)
    (Or.inl ⟨82, by decide, by decide⟩)).2.2.2.2.2

/-! ### C6: Configure -/

/-- What `D` replies. -/
theorem processCommand_D_out (m : Nat) (s : State) :
    (processCommand m (bytesOf "D") s).out =
      s.out ++ (if s.serialEchoFlag then lnFeedStr else []) ++ bytesOf "NumLEDs=" ++
        itoa s.stripNumberLeds ++ bytesOf " ClrOrder=" ++ s.stripColorOrderStr ++
        bytesOf " LEDPin=" ++ itoa STRIP_LED_PIN ++ bytesOf " Bright=" ++
        itoa s.stripBrightness := by
  rw [bytesOf_D, processCommand_D]
  cases he : s.serialEchoFlag <;> simp [describeLeds, writeMsgToSerial, he]

/-- C6 as stated, for every integer, fails: the numeral `65537` is beyond the sketch's
`int`, `atoi` returns 1 for it, and `C 65537` on the 8-LED state after `setup()` records
no error and sets the LED count to 1, although `65537 > 300`. -/
theorem C6_configure_numeral_beyond_int :
    itoa 65537 = bytesOf "65537" ∧ (65537 : Int) > MAX_NUM_LEDS ∧
    (setup initState).stripNumberLeds = 8 ∧
    (processCommand 0 (bytesOf "C " ++ itoa 65537) (setup initState)).errLog =
      (setup initState).errLog ∧
    (processCommand 0 (bytesOf "C " ++ itoa 65537) (setup initState)).stripNumberLeds = 1 := by
  decide

/-- C6, amended. Configure: for every count that is a value of the sketch's `int`, dispatching
`C count` succeeds if and only if `0 < count ≤ 300`. On success no error is recorded, the
LED count becomes exactly `count` and a following `D` reports `NumLEDs=count`; for
`count ≤ 0` or `count > 300` the error `LED count value out of range` is recorded and the
LED count, the channel order and the brightness are unchanged. -/
theorem C6_configure (s : State) (m m2 : Nat) (count : Int)
    (hr : -32768 ≤ count ∧ count ≤ 32767) :
    let s1 := processCommand m (bytesOf "C " ++ itoa count) s
    (0 < count ∧ count ≤ 300 →
      s1.errLog = s.errLog ∧ s1.lastErrorStr = s.lastErrorStr ∧ s1.stripNumberLeds = count ∧
      (processCommand m2 (bytesOf "D") s1).out =
        s1.out ++ (if s1.serialEchoFlag then lnFeedStr else []) ++ bytesOf "NumLEDs=" ++
          itoa count ++ bytesOf " ClrOrder=" ++ s1.stripColorOrderStr ++
          bytesOf " LEDPin=" ++ itoa STRIP_LED_PIN ++ bytesOf " Bright=" ++
          itoa s1.stripBrightness) ∧
    (count ≤ 0 ∨ count > 300 →
      s1.errLog = s.errLog ++ [bytesOf "LED count value out of range"] ∧
      s1.lastErrorStr = bytesOf "LED count value out of range" ∧
      s1.stripNumberLeds = s.stripNumberLeds ∧
      s1.stripColorOrderStr = s.stripColorOrderStr ∧
      s1.stripBrightness = s.stripBrightness) := by
  intro s1
  have hh : (itoa count).headD 0 ≠ 32 := by simpa using itoa_head_not_space count []
  have hat : atoi (itoa count) = count := by
    simpa using atoi_itoa_append count hr [] (by decide)
  have hlen : (itoa count).length > 0 := List.length_pos.2 (itoa_ne_nil count)
  have hfs : findSecondParam (itoa count) = (itoa count).length :=
    findSecondParam_single _ (itoa_ne_nil count) (itoa_no_separator count)
  have hs1 : s1 = configureLeds (itoa count)
      { s with cmdLog := s.cmdLog ++ [67 :: 32 :: itoa count] } := by
    show processCommand m (bytesOf "C " ++ itoa count) s = _
    rw [bytesOf_C, List.cons_append, List.cons_append, List.nil_append,
      processCommand_C m (itoa count) s hh]
  constructor
  · intro hc
    have hc' : count > 0 ∧ count ≤ MAX_NUM_LEDS := ⟨hc.1, hc.2⟩
    have hcount : s1.stripNumberLeds = count := by
      rw [hs1]
      simp [configureLeds, hlen, hat, hc', hfs, initializeLedLib]
    refine ⟨?_, ?_, hcount, ?_⟩
    · rw [hs1]
      simp [configureLeds, hlen, hat, hc', hfs, initializeLedLib]
    · rw [hs1]
      simp [configureLeds, hlen, hat, hc', hfs, initializeLedLib]
    · rw [processCommand_D_out, hcount]
  · intro hc
    have hc' : ¬ (count > 0 ∧ count ≤ MAX_NUM_LEDS) := by
      simp only [MAX_NUM_LEDS]; omega
    rw [hs1]
    cases he : s.serialEchoFlag <;>
      simp [configureLeds, hlen, hat, hc', sendErrorResponse, writeMsgToSerial,
        writeCharToSerial, he]

/-- C6 at `count = 4` on the state after `setup()`: `C 4` then `D`. -/
theorem C6_configure_witness :
    (processCommand 0 (bytesOf "C " ++ itoa 4) (setup initState)).stripNumberLeds = 4 ∧
    (processCommand 0 (bytesOf "C " ++ itoa 0) (setup initState)).stripNumberLeds = 8 :=
  ⟨((C6_configure (setup initState) 0 0 4 (by decide)).1 (by decide)).2.2.1,
   ((C6_configure (setup initState) 0 0 0 (by decide)).2 (by decide)).2.2.1⟩

/-! ### C7: a command that records an error changes nothing else -/

theorem initializeLedLib_errLog (s : State) : (initializeLedLib s).errLog = s.errLog := by
  simp [initializeLedLib]

theorem configureLeds_errorOrQuiet (p : List Nat) : ErrorOrQuiet (configureLeds p) := by
  intro s
  unfold configureLeds
  simp only []
  split_ifs <;> first
    | (left; simp [initializeLedLib])
    | (right; exact ⟨_, rfl⟩)

theorem setPixelColor_errorOrQuiet (p : List Nat) : ErrorOrQuiet (setPixelColor p) := by
  intro s
  unfold setPixelColor
  simp only []
  split_ifs <;> first
    | (left; rfl)
    | (right; exact ⟨_, rfl⟩)

theorem queryPixelColor_errorOrQuiet (p : List Nat) : ErrorOrQuiet (queryPixelColor p) := by
  intro s
  unfold queryPixelColor
  simp only []
  split_ifs <;> first
    | (left; simp [writeMsgToSerial])
    | (right; exact ⟨_, rfl⟩)

theorem fillStripColor_errorOrQuiet (p : List Nat) : ErrorOrQuiet (fillStripColor p) := by
  intro s
  unfold fillStripColor
  simp only []
  split_ifs <;> first
    | (left; rfl)
    | (right; exact ⟨_, rfl⟩)

theorem showStripColor_errorOrQuiet (p : List Nat) : ErrorOrQuiet (showStripColor p) := by
  intro s
  unfold showStripColor
  simp only []
  split_ifs <;> first
    | (left; simp [initializeLedLib])
    | (right; exact ⟨_, rfl⟩)

theorem setBrightness_errorOrQuiet (p : List Nat) : ErrorOrQuiet (setBrightness p) := by
  intro s
  unfold setBrightness
  simp only []
  split_ifs <;> (left; simp [writeMsgToSerial])

theorem setSerialEcho_errorOrQuiet (p : List Nat) : ErrorOrQuiet (setSerialEcho p) := by
  intro s
  unfold setSerialEcho
  simp only []
  split_ifs <;> first
    | (left; simp [writeMsgToSerial, writeCharToSerial])
    | (right; exact ⟨_, rfl⟩)

/-- Every dispatch either records no error or does nothing but log the line and make one
`sendErrorResponse`. -/
theorem processCommand_errorOrQuiet (m : Nat) (line : List Nat) (s : State) :
    (processCommand m line s).errLog = s.errLog ∨
      ∃ msg : List Nat, processCommand m line s =
        sendErrorResponse msg { s with cmdLog := s.cmdLog ++ [line] } := by
  unfold processCommand
  simp only []
  generalize (if 97 ≤ charAt line 0 ∧ charAt line 0 ≤ 122 then charAt line 0 - 32
    else charAt line 0) = cmdByte
  generalize List.drop (1 + skipSpaces (List.drop 1 line)) line = paramsStr
  by_cases h0 : cmdByte = 67
  · rw [if_pos h0]; exact configureLeds_errorOrQuiet _ _
  rw [if_neg h0]
  by_cases h1 : cmdByte = 68
  · rw [if_pos h1]; left; (cases he : s.serialEchoFlag <;> simp [describeLeds, writeMsgToSerial, he])
  rw [if_neg h1]
  by_cases h2 : cmdByte = 77
  · rw [if_pos h2]; left; (cases he : s.serialEchoFlag <;> simp [queryMaxNumLeds, writeMsgToSerial, he])
  rw [if_neg h2]
  by_cases h3 : cmdByte = 80
  · rw [if_pos h3]; exact setPixelColor_errorOrQuiet _ _
  rw [if_neg h3]
  by_cases h4 : cmdByte = 82
  · rw [if_pos h4]; exact queryPixelColor_errorOrQuiet _ _
  rw [if_neg h4]
  by_cases h5 : cmdByte = 70
  · rw [if_pos h5]; exact fillStripColor_errorOrQuiet _ _
  rw [if_neg h5]
  by_cases h6 : cmdByte = 65
  · rw [if_pos h6]; left; rfl
  rw [if_neg h6]
  by_cases h7 : cmdByte = 83
  · rw [if_pos h7]; exact showStripColor_errorOrQuiet _ _
  rw [if_neg h7]
  by_cases h8 : cmdByte = 66
  · rw [if_pos h8]; exact setBrightness_errorOrQuiet _ _
  rw [if_neg h8]
  by_cases h9 : cmdByte = 69
  · rw [if_pos h9]; exact setSerialEcho_errorOrQuiet _ _
  rw [if_neg h9]
  by_cases h10 : cmdByte = 76
  · rw [if_pos h10]; left; (cases he : s.serialEchoFlag <;> simp [queryLastErrorMsg, writeMsgToSerial, he])
  rw [if_neg h10]
  by_cases h11 : cmdByte = 86
  · rw [if_pos h11]; left; (cases he : s.serialEchoFlag <;> simp [writeMsgToSerial, he])
  rw [if_neg h11]
  right; exact ⟨_, rfl⟩

/-- C7. Validate-then-mutate: for every state and every command line, if dispatching the
line records an error, then the LED count, channel order, brightness, pixel array, echo
flag, strip-initialized flag and binary-receive state (mode flag, index, start time, byte
counter), and also the line buffers and the hardware calls, are what they were before the
dispatch; Last Error is the message recorded and the output is the old output followed by
the error signal. -/
theorem C7_error_leaves_state (s : State) (m : Nat) (line : List Nat)
    (herr : (processCommand m line s).errLog ≠ s.errLog) :
    let s1 := processCommand m line s
    s1.stripNumberLeds = s.stripNumberLeds ∧ s1.stripColorOrderStr = s.stripColorOrderStr ∧
    s1.stripBrightness = s.stripBrightness ∧ s1.crgbLedsArr = s.crgbLedsArr ∧
    s1.serialEchoFlag = s.serialEchoFlag ∧
    s1.ledLibInitializedFlag = s.ledLibInitializedFlag ∧
    s1.receivingArrayFlag = s.receivingArrayFlag ∧
    s1.receivingArrayIdx = s.receivingArrayIdx ∧
    s1.recvArrStartTimeMs = s.recvArrStartTimeMs ∧ s1.recvArrOrd = s.recvArrOrd ∧
    s1.recvCRGBVal = s.recvCRGBVal ∧
    s1.serialBuffer = s.serialBuffer ∧ s1.serialBufferIndex = s.serialBufferIndex ∧
    s1.commandBuffer = s.commandBuffer ∧ s1.commandBufferSize = s.commandBufferSize ∧
    s1.serialCmdWaitingFlag = s.serialCmdWaitingFlag ∧ s1.hw = s.hw ∧
    ∃ msg : List Nat, s1.lastErrorStr = msg ∧ s1.errLog = s.errLog ++ [msg] ∧
      s1.out = s.out ++ (if s.serialEchoFlag then lnFeedStr ++ msg else [errorChar]) := by
  intro s1
  rcases processCommand_errorOrQuiet m line s with h | ⟨msg, h⟩
  · exact absurd h herr
  · have hs1 : s1 = sendErrorResponse msg { s with cmdLog := s.cmdLog ++ [line] } := h
    rw [hs1]
    cases he : s.serialEchoFlag <;>
      simp [sendErrorResponse, writeMsgToSerial, writeCharToSerial, he]

/-- C7 at the unknown command `X` on the state after `setup()`. -/
theorem C7_error_leaves_state_witness :
    (processCommand 0 (bytesOf "X") (setup initState)).errLog ≠ (setup initState).errLog ∧
    (processCommand 0 (bytesOf "X") (setup initState)).crgbLedsArr =
      (setup initState).crgbLedsArr :=
  ⟨by decide, (C7_error_leaves_state (setup initState) 0 (bytesOf "X") (by decide)).2.2.2.1⟩

/-! ### C8: index validation of SetPixel and GetPixel -/

/-- C8 as stated, for every parameter string, fails: the numeral `65536` is beyond the
sketch's `int`, `atoi` returns 0 for it, and on the 8-LED state after `setup()` `R 65536`
records no error and replies the colour of pixel 0, and `P 65536 R` sets pixel 0 to red,
although `65536 ≥ 8`. -/
theorem C8_index_numeral_beyond_int :
    numeralValue (bytesOf "65536") = 65536 ∧ (setup initState).stripNumberLeds = 8 ∧
    (queryPixelColor (bytesOf "65536") (setup initState)).errLog = (setup initState).errLog ∧
    (queryPixelColor (bytesOf "65536") (setup initState)).out =
      (setup initState).out ++ bytesOf "000000" ∧
    (setPixelColor (bytesOf "65536 R") (setup initState)).errLog = (setup initState).errLog ∧
    (setPixelColor (bytesOf "65536 R") (setup initState)).crgbLedsArr.getD 0 Black =
      ⟨255, 0, 0⟩ := by
  decide

/-- C8, amended. Index validation: for every state with LED count `n` and every non-empty
parameter string whose leading integer `i` is a value of the sketch's `int`: if `i < 0` or
`i ≥ n`, both `setPixelColor` (`P`) and `queryPixelColor` (`R`) record the error
`LED index value out of range`, emit only the error signal (no colour reply) and leave
the pixel array unchanged; if `0 ≤ i < n`, neither records that error, and `R` records
none. -/
theorem C8_index_validation (s : State) (p : List Nat) (hp : p ≠ [])
    (hr : -32768 ≤ numeralValue p ∧ numeralValue p ≤ 32767) :
    (numeralValue p < 0 ∨ numeralValue p ≥ s.stripNumberLeds →
      ∀ r : State, r = setPixelColor p s ∨ r = queryPixelColor p s →
        r.lastErrorStr = bytesOf "LED index value out of range" ∧
        r.errLog = s.errLog ++ [bytesOf "LED index value out of range"] ∧
        r.out = s.out ++ (if s.serialEchoFlag
          then lnFeedStr ++ bytesOf "LED index value out of range" else [errorChar]) ∧
        r.crgbLedsArr = s.crgbLedsArr) ∧
    (0 ≤ numeralValue p ∧ numeralValue p < s.stripNumberLeds →
      (setPixelColor p s).errLog ≠ s.errLog ++ [bytesOf "LED index value out of range"] ∧
      (queryPixelColor p s).errLog = s.errLog) := by
  have hlen : p.length > 0 := List.length_pos.2 hp
  have hat : atoi p = numeralValue p := wrapInt_of_range _ hr
  rw [← hat]
  constructor
  · intro hi r hr
    have hidx : ¬ (atoi p ≥ 0 ∧ atoi p < s.stripNumberLeds) := by omega
    have hr' : r = sendErrorResponse (bytesOf "LED index value out of range") s := by
      rcases hr with hr | hr
      · rw [hr]; simp only [setPixelColor, hlen, hidx, if_true, if_false]
      · rw [hr]; simp only [queryPixelColor, hlen, hidx, if_true, if_false]
    rw [hr']
    cases he : s.serialEchoFlag <;>
      simp [sendErrorResponse, writeMsgToSerial, writeCharToSerial, he]
  · intro hi
    have hidx : atoi p ≥ 0 ∧ atoi p < s.stripNumberLeds := ⟨hi.1, hi.2⟩
    constructor
    · simp only [setPixelColor, hlen, hidx, and_self, if_true]
      split_ifs
      · simp
      · cases he : s.serialEchoFlag <;>
          simp [sendErrorResponse, writeMsgToSerial, writeCharToSerial, he] <;> decide
      · cases he : s.serialEchoFlag <;>
          simp [sendErrorResponse, writeMsgToSerial, writeCharToSerial, he] <;> decide
    · simp only [queryPixelColor, hlen, hidx, and_self, if_true]
      cases he : s.serialEchoFlag <;> simp [writeMsgToSerial, he]

/-- C8 on the 8-LED state after `setup()`: `R 8` is out of range, `R 7` is not. -/
theorem C8_index_validation_witness :
    (queryPixelColor (bytesOf "8") (setup initState)).lastErrorStr =
        bytesOf "LED index value out of range" ∧
      (queryPixelColor (bytesOf "7") (setup initState)).errLog = (setup initState).errLog :=
  ⟨((C8_index_validation (setup initState) (bytesOf "8") (by decide) (by decide)).1
      (by decide) _ (Or.inr rfl)).1,
   ((C8_index_validation (setup initState) (bytesOf "7") (by decide) (by decide)).2
      (by decide)).2⟩

/-! ### C9: Fill -/

/-- The `for` loop of `fillStripColor`: the first `n` entries of the array become `v`, the
rest and the length of the array are unchanged. -/
theorem fill_spec (v d : CRGB) (n : Nat) (arr : List CRGB) :
    ((List.range n).foldl (fun a idx => a.set idx v) arr).length = arr.length ∧
    ∀ i : Nat, ((List.range n).foldl (fun a idx => a.set idx v) arr).getD i d =
      if i < n ∧ i < arr.length then v else arr.getD i d := by
  induction n with
  | zero => simp
  | succ n ih =>
    obtain ⟨h1, h2⟩ := ih
    rw [List.range_succ, List.foldl_append]
    simp only [List.foldl_cons, List.foldl_nil, List.length_set]
    refine ⟨h1, fun i => ?_⟩
    have := h2 i
    simp only [List.getD_eq_getElem?_getD] at this ⊢
    rw [List.getElem?_set, h1]
    by_cases hin : n = i
    · subst hin
      by_cases hl : n < arr.length
      · simp [hl]
      · have hnone : arr[n]? = none := List.getElem?_eq_none (by omega)
        simp [hl, hnone]
    · rw [if_neg hin, this]
      by_cases hl : i < n
      · have : i < n + 1 := by omega
        simp [hl, this]
      · have : ¬ i < n + 1 := by omega
        simp [hl, this]

/-- C9. Fill: on a strip of `n ≤ 300` LEDs, for every colour token `c` that passes the
colour validation (it parses to a colour other than black, or starts with the digit `0`),
dispatching `F c` records no error and leaves every pixel `i < n` equal to the colour `c`
parses to, so that `R i` replies its six hexadecimal digits, and leaves every pixel at an
index `i ≥ n` as it was. -/
theorem C9_fill (s : State) (m m2 : Nat) (c : List Nat)
    (hlen : s.crgbLedsArr.length = 300)
    (hn : 0 ≤ s.stripNumberLeds ∧ s.stripNumberLeds ≤ 300)
    (hne : c ≠ []) (hsp : c.headD 0 ≠ 32)
    (hc : stringToCRGB c ≠ Black ∨ c.headD 0 = 48) :
    let s1 := processCommand m (bytesOf "F " ++ c) s
    s1.errLog = s.errLog ∧ s1.lastErrorStr = s.lastErrorStr ∧
    s1.stripNumberLeds = s.stripNumberLeds ∧ s1.crgbLedsArr.length = 300 ∧
    (∀ i : Nat, (i : Int) < s.stripNumberLeds →
      s1.crgbLedsArr.getD i Black = stringToCRGB c) ∧
    (∀ i : Int, 0 ≤ i ∧ i < s.stripNumberLeds →
      (processCommand m2 (bytesOf "R " ++ itoa i) s1).out =
        s1.out ++ (if s1.serialEchoFlag then lnFeedStr else []) ++
          sprintf06lX (stringToCRGB c).code24) ∧
    (∀ i : Nat, s.stripNumberLeds ≤ (i : Int) →
      s1.crgbLedsArr.getD i Black = s.crgbLedsArr.getD i Black) := by
  intro s1
  have hcl : c.length > 0 := List.length_pos.2 hne
  have hc' : stringToCRGB c ≠ Black ∨ charAt c 0 = 48 := by
    rcases hc with h | h
    · exact Or.inl h
    · right; rw [charAt_eq_headD_drop]; simpa using h
  have hs1 : s1 = { s with
      crgbLedsArr := (List.range s.stripNumberLeds.toNat).foldl
        (fun arr idx => arr.set idx (stringToCRGB c)) s.crgbLedsArr
      cmdLog := s.cmdLog ++ [70 :: 32 :: c] } := by
    show processCommand m (bytesOf "F " ++ c) s = _
    rw [bytesOf_F, List.cons_append, List.cons_append, List.nil_append,
      processCommand_F m c s hsp]
    simp only [fillStripColor, hcl, hc', if_true]
  obtain ⟨f1, f2⟩ := fill_spec (stringToCRGB c) Black s.stripNumberLeds.toNat s.crgbLedsArr
  have hget : ∀ i : Nat, (i : Int) < s.stripNumberLeds →
      s1.crgbLedsArr.getD i Black = stringToCRGB c := by
    intro i hi
    rw [hs1]
    have hcond : i < s.stripNumberLeds.toNat ∧ i < s.crgbLedsArr.length := by omega
    simp only [f2 i, hcond, and_self, if_true]
  refine ⟨by rw [hs1], by rw [hs1], by rw [hs1], by rw [hs1]; simpa [f1] using hlen, hget,
    ?_, ?_⟩
  · intro i hi
    have hi1 : 0 ≤ i ∧ i < s1.stripNumberLeds := by rw [hs1]; exact hi
    obtain ⟨r1, _⟩ := processCommand_R_ok m2 s1 i hi1 (by omega)
    have hnat : ((i.toNat : Nat) : Int) < s.stripNumberLeds := by omega
    rw [r1, hget i.toNat hnat]
  · intro i hi
    rw [hs1]
    have hcond : ¬ (i < s.stripNumberLeds.toNat ∧ i < s.crgbLedsArr.length) := by omega
    simp only [f2 i, hcond, if_false]

/-- C9 at the spec's example: `F 00FF00` on a 4-LED strip, then `R 2` replies `00FF00`. -/
theorem C9_fill_witness :
    (processCommand 0 (bytesOf "R 2")
        (processCommand 0 (bytesOf "F 00FF00")
          (processCommand 0 (bytesOf "C 4") (setup initState)))).out =
      (setup initState).out ++ bytesOf "00FF00" :=
  (C9_fill (processCommand 0 (bytesOf "C 4") (setup initState)) 0 0 (bytesOf "00FF00")
    (by decide) (by decide) (by decide) (by decide) (by decide)).2.2.2.2.2.1 2 (by decide)

/-! ### The byte-arrival handler in line mode -/

/-- What the line branch never touches. -/
theorem recvLineByte_frame (b : Nat) (s : State) :
    (recvLineByte b s).receivingArrayFlag = s.receivingArrayFlag ∧
    (recvLineByte b s).receivingArrayIdx = s.receivingArrayIdx ∧
    (recvLineByte b s).recvArrOrd = s.recvArrOrd ∧
    (recvLineByte b s).recvArrStartTimeMs = s.recvArrStartTimeMs ∧
    (recvLineByte b s).crgbLedsArr = s.crgbLedsArr ∧
    (recvLineByte b s).lastErrorStr = s.lastErrorStr ∧
    (recvLineByte b s).errLog = s.errLog ∧
    (recvLineByte b s).cmdLog = s.cmdLog ∧
    (recvLineByte b s).stripNumberLeds = s.stripNumberLeds ∧
    (recvLineByte b s).serialEchoFlag = s.serialEchoFlag := by
  unfold recvLineByte
  cases he : s.serialEchoFlag <;>
    (split_ifs <;>
      simp [copySerialMsgBuffer, writePrompt, writeCharToSerial, writeMsgToSerial, he])

theorem feedLine_frame (bytes : List Nat) : ∀ s : State,
    (feedLine bytes s).receivingArrayFlag = s.receivingArrayFlag ∧
    (feedLine bytes s).receivingArrayIdx = s.receivingArrayIdx ∧
    (feedLine bytes s).recvArrOrd = s.recvArrOrd ∧
    (feedLine bytes s).recvArrStartTimeMs = s.recvArrStartTimeMs ∧
    (feedLine bytes s).crgbLedsArr = s.crgbLedsArr ∧
    (feedLine bytes s).lastErrorStr = s.lastErrorStr ∧
    (feedLine bytes s).errLog = s.errLog ∧
    (feedLine bytes s).cmdLog = s.cmdLog ∧
    (feedLine bytes s).stripNumberLeds = s.stripNumberLeds ∧
    (feedLine bytes s).serialEchoFlag = s.serialEchoFlag := by
  induction bytes with
  | nil => intro s; simp [feedLine]
  | cons b bs ih =>
    intro s
    have h1 := recvLineByte_frame (b % 256) s
    have h2 := ih (recvLineByte (b % 256) s)
    simp only [feedLine, List.foldl_cons] at h2 ⊢
    obtain ⟨a1, a2, a3, a4, a5, a6, a7, a8, a9, a10⟩ := h1
    obtain ⟨b1, b2, b3, b4, b5, b6, b7, b8, b9, b10⟩ := h2
    exact ⟨b1.trans a1, b2.trans a2, b3.trans a3, b4.trans a4, b5.trans a5, b6.trans a6,
      b7.trans a7, b8.trans a8, b9.trans a9, b10.trans a10⟩

theorem feedLine_append (a b : List Nat) (s : State) :
    feedLine (a ++ b) s = feedLine b (feedLine a s) := by
  simp [feedLine, List.foldl_append]

/-- In line mode the `while` of `serialEvent` handles the next `21 - iterCount` bytes as
line input and leaves the rest unread. -/
theorem serialLoop_line (input : List Nat) : ∀ (iterCount : Int) (s : State),
    s.receivingArrayFlag = false → 0 ≤ iterCount → iterCount ≤ 20 →
    serialLoop input iterCount s =
      (feedLine (input.take (21 - iterCount).toNat) s,
       input.drop (21 - iterCount).toNat) := by
  induction input with
  | nil => intro it s _ _ _; simp [serialLoop, feedLine]
  | cons b bs ih =>
    intro it s hf h0 h20
    have hfl : (recvLineByte (b % 256) s).receivingArrayFlag = false :=
      (recvLineByte_frame (b % 256) s).1.trans hf
    obtain ⟨k, hk⟩ : ∃ k : Nat, (21 - it).toNat = k + 1 := ⟨(20 - it).toNat, by omega⟩
    rw [hk]
    simp only [serialLoop, hf, hfl, List.take_succ_cons, List.drop_succ_cons]
    by_cases hit : it + 1 > 20
    · have hk0 : k = 0 := by omega
      simp [hit, hk0, feedLine]
    · have hk' : (21 - (it + 1)).toNat = k := by omega
      simp only [hit, Bool.not_false, if_true, if_false]
      rw [ih (it + 1) _ hfl (by omega) (by omega), hk']
      simp [feedLine]

/-- One invocation of the handler in line mode: the first 21 bytes are line input. -/
theorem serialEvent_line (millis : Nat) (input : List Nat) (s : State)
    (hf : s.receivingArrayFlag = false) :
    serialEvent millis input s = (feedLine (input.take 21) s, input.drop 21) := by
  simp only [serialEvent, hf]
  simpa using serialLoop_line input 0 s hf (by omega) (by omega)

/-- A run of invocations in line mode handles a prefix of the queued and arriving bytes as
line input and leaves the rest unread. -/
theorem serialEvents_line (es : List (Nat × List Nat)) : ∀ (rx : List Nat) (s : State),
    s.receivingArrayFlag = false →
    ∃ k : Nat, serialEvents es rx s =
      (feedLine ((rx ++ arrivals es).take k) s, (rx ++ arrivals es).drop k) := by
  induction es with
  | nil => intro rx s _; exact ⟨0, by simp [serialEvents, arrivals, feedLine]⟩
  | cons e es ih =>
    intro rx s hf
    obtain ⟨millis, arrived⟩ := e
    have he := serialEvent_line millis (rx ++ arrived) s hf
    have hf1 : (feedLine ((rx ++ arrived).take 21) s).receivingArrayFlag = false :=
      (feedLine_frame _ s).1.trans hf
    obtain ⟨k, hk⟩ := ih ((rx ++ arrived).drop 21) (feedLine ((rx ++ arrived).take 21) s) hf1
    have harr : arrivals ((millis, arrived) :: es) = arrived ++ arrivals es := by
      simp [arrivals]
    simp only [serialEvents, he, hk, harr]
    have hsplit : rx ++ (arrived ++ arrivals es) =
        (rx ++ arrived).take 21 ++ ((rx ++ arrived).drop 21 ++ arrivals es) := by
      rw [← List.append_assoc ((rx ++ arrived).take 21), List.take_append_drop,
        List.append_assoc]
    refine ⟨((rx ++ arrived).take 21).length + k, ?_⟩
    rw [hsplit, List.take_append, List.drop_append, feedLine_append]

/-- When a run of invocations in line mode leaves nothing unread, all the bytes were
handled as line input. -/
theorem serialEvents_line_all (es : List (Nat × List Nat)) (s : State)
    (hf : s.receivingArrayFlag = false) (hall : (serialEvents es [] s).2 = []) :
    (serialEvents es [] s).1 = feedLine (arrivals es) s := by
  obtain ⟨k, hk⟩ := serialEvents_line es [] s hf
  rw [hk] at hall ⊢
  simp only [List.nil_append] at hall ⊢
  have hk' : (arrivals es).length ≤ k := by
    by_contra hlt
    have hpos : 0 < ((arrivals es).drop k).length := by rw [List.length_drop]; omega
    rw [hall] at hpos
    simp at hpos
  rw [List.take_of_length_le hk']

/-! ### Reassembly of one line -/

theorem take_succ_set (l : List Nat) (n b : Nat) (h : n < l.length) :
    (l.set n b).take (n + 1) = l.take n ++ [b] := by
  rw [List.set_eq_take_append_cons_drop, if_pos h]
  have hl : (l.take n).length = n := by rw [List.length_take]; omega
  have := @List.take_append Nat (l.take n) (b :: l.drop (n + 1)) 1
  rw [hl] at this
  rw [this]
  simp

theorem cstr_staged (acc rest : List Nat) (hacc : ∀ c ∈ acc, c ≠ 0) :
    cstr (acc ++ 0 :: rest) = acc := by
  unfold cstr
  rw [List.takeWhile_append_of_pos]
  · simp
  · intro a ha
    simpa using hacc a ha

theorem staged_buffer (buf cb acc : List Nat) (h1 : buf.take acc.length = acc)
    (hc : cb.length = 20) (hn : acc.length ≤ 18) :
    (buf.take acc.length ++ cb.drop acc.length).set acc.length 0 =
      acc ++ 0 :: cb.drop (acc.length + 1) := by
  rw [h1, List.set_append]
  simp
  rw [List.set_eq_take_append_cons_drop]
  simp
  omega

theorem foldl_accStep (w : List Nat) : ∀ acc : List Nat, acc.length ≤ 18 →
    w.foldl accStep acc = (acc ++ w.filter (fun c => 32 ≤ c)).take 18 := by
  induction w with
  | nil =>
    intro acc h
    simp [List.take_of_length_le h]
  | cons b bs ih =>
    intro acc h
    simp only [List.foldl_cons]
    by_cases hb : 32 ≤ b
    · by_cases hl : acc.length < 18
      · have hs : accStep acc b = acc ++ [b] := by simp [accStep, hb, hl]
        rw [hs, ih _ (by simp; omega)]
        simp [List.filter_cons, hb]
      · have hs : accStep acc b = acc := by simp [accStep, hl]
        have h18 : acc.length = 18 := by omega
        rw [hs, ih _ h]
        have e1 := @List.take_append Nat acc (List.filter (fun c => decide (32 ≤ c)) bs) 0
        have e2 := @List.take_append Nat acc
          (List.filter (fun c => decide (32 ≤ c)) (b :: bs)) 0
        rw [h18] at e1 e2
        rw [e1, e2]
        simp
    · have hs : accStep acc b = acc := by simp [accStep, hb]
      rw [hs, ih _ h]
      simp [List.filter_cons, hb]

theorem foldl_accStep_nil (w : List Nat) : w.foldl accStep [] = lineBytes w := by
  rw [foldl_accStep w [] (by simp)]
  simp [lineBytes]

theorem lineBytes_spec (w : List Nat) :
    (lineBytes w).length ≤ 18 ∧ (∀ c ∈ lineBytes w, 32 ≤ c) ∧
      (lineBytes w = [] ↔ w.filter (fun c => 32 ≤ c) = []) := by
  refine ⟨by simp [lineBytes, List.length_take], ?_, ?_⟩
  · intro c hc
    have := List.mem_of_mem_take hc
    simpa using (List.mem_filter.1 this).2
  · simp [lineBytes]

/-- A line of at most 18 printable bytes is stored whole. -/
theorem lineBytes_self (l : List Nat) (hl : l.length ≤ 18) (hp : ∀ b ∈ l, 32 ≤ b) :
    lineBytes l = l := by
  have hf : l.filter (fun c => 32 ≤ c) = l := by
    rw [List.filter_eq_self]
    intro a ha
    simpa using hp a ha
  simp [lineBytes, hf, List.take_of_length_le hl]

theorem lineAcc_init (s : State) (hidx : s.serialBufferIndex = 0)
    (hsb : s.serialBuffer.length = 20) : LineAcc s s [] := by
  refine ⟨s.serialBuffer, ?_, by simp, hsb, by simp⟩
  cases s
  simp_all

/-- A byte other than the terminator, with no line waiting: it is stored if it is
printable and the buffer holds fewer than 18 bytes, and dropped otherwise. -/
theorem lineAcc_step (s0 s : State) (acc : List Nat) (b : Nat) (h : LineAcc s0 s acc)
    (hw : s0.serialCmdWaitingFlag = false) (hb : b ≠ 13) :
    LineAcc s0 (recvLineByte b s) (accStep acc b) := by
  obtain ⟨buf, rfl, h1, h2, h3⟩ := h
  by_cases hc : 32 ≤ b ∧ acc.length < 18
  · have hc' : b ≥ 32 ∧ (acc.length : Int) < SERIAL_BUFFER_SIZE - 2 := by
      simp only [SERIAL_BUFFER_SIZE]; omega
    have hs : accStep acc b = acc ++ [b] := by simp [accStep, hc]
    rw [hs]
    refine ⟨buf.set acc.length b, ?_, ?_, by simpa using h2, by simp; omega⟩
    · cases he : s0.serialEchoFlag <;>
        simp [recvLineByte, hw, hb, hc', writeCharToSerial, he]
    · rw [List.length_append, List.length_singleton, take_succ_set buf _ b (by omega), h1]
  · have hc' : ¬ (b ≥ 32 ∧ (acc.length : Int) < SERIAL_BUFFER_SIZE - 2) := by
      simp only [SERIAL_BUFFER_SIZE]; omega
    have hs : accStep acc b = acc := by simp [accStep, hc]
    rw [hs]
    refine ⟨buf, ?_, h1, h2, h3⟩
    simp [recvLineByte, hw, hb, hc']

theorem lineAcc_feed (s0 : State) (w : List Nat) (hw : s0.serialCmdWaitingFlag = false)
    (hb : ∀ b ∈ w, b < 256 ∧ b ≠ 13) : ∀ (s : State) (acc : List Nat),
    LineAcc s0 s acc → LineAcc s0 (feedLine w s) (w.foldl accStep acc) := by
  induction w with
  | nil => intro s acc h; simpa [feedLine] using h
  | cons b bs ih =>
    intro s acc h
    have hb1 := hb b (by simp)
    have hmod : b % 256 = b := Nat.mod_eq_of_lt hb1.1
    have hstep := lineAcc_step s0 s acc b h hw hb1.2
    have := ih (fun x hx => hb x (by simp [hx])) _ _ hstep
    simpa [feedLine, hmod] using this

/-- The terminator after a line was stored, with the staging slot free: the line is
staged, null-terminated, the receipt byte is written and the buffer emptied. -/
theorem lineAcc_terminator_stage (s0 s : State) (acc : List Nat) (h : LineAcc s0 s acc)
    (hw : s0.serialCmdWaitingFlag = false) (hne : acc ≠ []) (hcmd : s0.commandBufferSize ≤ 0)
    (hcb : s0.commandBuffer.length = 20) :
    recvLineByte 13 s =
      { s0 with serialBuffer := (recvLineByte 13 s).serialBuffer
                commandBuffer := acc ++ 0 :: s0.commandBuffer.drop (acc.length + 1)
                commandBufferSize := (acc.length : Int)
                serialBufferIndex := 0
                out := s0.out ++ (if s0.serialEchoFlag then acc else []) ++ [msgRecvdChar] } ∧
    (recvLineByte 13 s).serialBuffer.length = 20 := by
  obtain ⟨buf, rfl, h1, h2, h3⟩ := h
  have hpos : (acc.length : Int) > 0 := by
    have := List.length_pos.2 hne
    omega
  have hsb := staged_buffer buf s0.commandBuffer acc h1 hcb h3
  constructor
  · simp [recvLineByte, hw, hpos, hcmd, copySerialMsgBuffer, writeCharToSerial, hsb, hw]
  · simp [recvLineByte, hw, hpos, hcmd, copySerialMsgBuffer, writeCharToSerial, h2]

/-- The terminator after a line was stored, with the staging slot taken: the line stays
in the reassembly buffer and the waiting flag is set. -/
theorem lineAcc_terminator_wait (s0 s : State) (acc : List Nat) (h : LineAcc s0 s acc)
    (hw : s0.serialCmdWaitingFlag = false) (hne : acc ≠ []) (hcmd : s0.commandBufferSize > 0) :
    recvLineByte 13 s = { s with serialCmdWaitingFlag := true } := by
  obtain ⟨buf, rfl, h1, h2, h3⟩ := h
  have hpos : (acc.length : Int) > 0 := by
    have := List.length_pos.2 hne
    omega
  have hcmd' : ¬ s0.commandBufferSize ≤ 0 := by omega
  simp [recvLineByte, hw, hpos, hcmd']

/-- The terminator on an empty line, with the staging slot free: the prompt. -/
theorem lineAcc_terminator_empty (s0 s : State) (h : LineAcc s0 s [])
    (hw : s0.serialCmdWaitingFlag = false) (hcmd : s0.commandBufferSize ≤ 0) :
    recvLineByte 13 s =
      { s0 with serialBuffer := s.serialBuffer, serialBufferIndex := 0
                out := s0.out ++ (if s0.serialEchoFlag then echoPromptStr else [promptChar]) } := by
  obtain ⟨buf, rfl, h1, h2, h3⟩ := h
  cases he : s0.serialEchoFlag <;>
    simp [recvLineByte, hw, hcmd, writePrompt, writeCharToSerial, writeMsgToSerial, he]

/-! ### C5: byte reassembly -/

/-- Feeding one line and its terminator to an idle reassembler. -/
theorem feedLine_line (s : State) (w : List Nat)
    (hidx : s.serialBufferIndex = 0) (hwait : s.serialCmdWaitingFlag = false)
    (hsb : s.serialBuffer.length = 20) (hw : ∀ b ∈ w, b < 256 ∧ b ≠ 13) :
    LineAcc s (feedLine w s) (lineBytes w) ∧
      feedLine (w ++ [13]) s = recvLineByte 13 (feedLine w s) := by
  constructor
  · rw [← foldl_accStep_nil]
    exact lineAcc_feed s w hwait hw s [] (lineAcc_init s hidx hsb)
  · rw [feedLine_append]
    simp [feedLine]

/-- C5. Byte reassembly: from a line-mode state with empty reassembly buffer, no staged
command and the waiting flag clear, feeding bytes `w` without `0x0D` and then `0x0D`
(over any number of handler invocations that leave nothing unread) records no error and,
with `f` the bytes of `w` of value `≥ 0x20`: if `f` is empty, stages nothing and writes the
prompt; otherwise stages exactly the first `min(|f|, 18)` bytes of `f`, null-terminated,
empties the reassembly buffer and writes the receipt byte `.` (after the echo of the stored
bytes, in echo mode). -/
theorem C5_byte_reassembly (s : State) (es : List (Nat × List Nat)) (w : List Nat)
    (hmode : s.receivingArrayFlag = false) (hidx : s.serialBufferIndex = 0)
    (hcmd : s.commandBufferSize = 0) (hwait : s.serialCmdWaitingFlag = false)
    (hsb : s.serialBuffer.length = 20) (hcb : s.commandBuffer.length = 20)
    (hw : ∀ b ∈ w, b < 256 ∧ b ≠ 13)
    (hes : arrivals es = w ++ [13]) (hall : (serialEvents es [] s).2 = []) :
    let r := (serialEvents es [] s).1
    let f := w.filter (fun c => 32 ≤ c)
    r.errLog = s.errLog ∧ r.lastErrorStr = s.lastErrorStr ∧
    (f = [] →
      r.commandBufferSize = 0 ∧ r.commandBuffer = s.commandBuffer ∧
      r.serialBufferIndex = 0 ∧
      r.out = s.out ++ (if s.serialEchoFlag then echoPromptStr else [promptChar])) ∧
    (f ≠ [] →
      cstr r.commandBuffer = f.take 18 ∧ r.commandBufferSize = ((f.take 18).length : Int) ∧
      (f.take 18).length = min f.length 18 ∧
      r.commandBuffer.getD (f.take 18).length 1 = 0 ∧
      r.serialBufferIndex = 0 ∧ r.serialCmdWaitingFlag = false ∧
      r.out = s.out ++ (if s.serialEchoFlag then f.take 18 else []) ++ [msgRecvdChar]) := by
  intro r f
  have hr : r = feedLine (w ++ [13]) s := by
    rw [← hes]; exact serialEvents_line_all es s hmode hall
  obtain ⟨hacc, hfeed⟩ := feedLine_line s w hidx hwait hsb hw
  obtain ⟨fr1, fr2, fr3, fr4, fr5, fr6, fr7, fr8, fr9, fr10⟩ := feedLine_frame (w ++ [13]) s
  obtain ⟨hl18, hprint, hnil⟩ := lineBytes_spec w
  have hlb : lineBytes w = f.take 18 := rfl
  refine ⟨by rw [hr, fr7], by rw [hr, fr6], ?_, ?_⟩
  · intro hf
    have hlb0 : lineBytes w = [] := hnil.2 hf
    rw [hlb0] at hacc
    have := lineAcc_terminator_empty s _ hacc hwait (by omega)
    rw [hr, hfeed, this]
    exact ⟨hcmd, rfl, rfl, rfl⟩
  · intro hf
    have hlbne : lineBytes w ≠ [] := fun h0 => hf (hnil.1 h0)
    obtain ⟨hstage, _⟩ := lineAcc_terminator_stage s _ _ hacc hwait hlbne (by omega) hcb
    have hnz : ∀ c ∈ lineBytes w, c ≠ 0 := by
      intro c hc
      have := hprint c hc
      omega
    rw [hr, hfeed, hstage, ← hlb]
    refine ⟨cstr_staged _ _ hnz, rfl, by rw [hlb, List.length_take, Nat.min_comm], ?_, rfl,
      hwait, rfl⟩
    show (lineBytes w ++ 0 :: _).getD (lineBytes w).length 1 = 0
    rw [List.getD_eq_getElem?_getD, List.getElem?_append_right (le_refl _)]
    simp

/-- C5 on the state after `setup()`: the bytes of `D`, a line feed and the terminator,
arriving in two invocations, stage the line `D`. -/
theorem C5_byte_reassembly_witness :
    cstr (serialEvents [(0, [68]), (1, [10, 13])] [] (setup initState)).1.commandBuffer =
      [68] :=
  ((C5_byte_reassembly (setup initState) [(0, [68]), (1, [10, 13])] [68, 10]
    (by decide) (by decide) (by decide) (by decide) (by decide) (by decide) (by decide)
    (by decide) (by decide)).2.2.2 (by decide)).1

/-! ### What a dispatch leaves alone -/

theorem sendErrorResponse_keepsBuffers (msg : List Nat) :
    KeepsBuffers (sendErrorResponse msg) := by
  intro s
  cases he : s.serialEchoFlag <;>
    simp [sendErrorResponse, writeMsgToSerial, writeCharToSerial, he]

theorem configureLeds_keepsBuffers (p : List Nat) : KeepsBuffers (configureLeds p) := by
  intro s
  unfold configureLeds
  simp only []
  split_ifs <;> first
    | exact sendErrorResponse_keepsBuffers _ s
    | simp [initializeLedLib]

theorem setPixelColor_keepsBuffers (p : List Nat) : KeepsBuffers (setPixelColor p) := by
  intro s
  unfold setPixelColor
  simp only []
  split_ifs <;> first
    | exact sendErrorResponse_keepsBuffers _ s
    | simp

theorem queryPixelColor_keepsBuffers (p : List Nat) : KeepsBuffers (queryPixelColor p) := by
  intro s
  unfold queryPixelColor
  simp only []
  split_ifs <;> first
    | exact sendErrorResponse_keepsBuffers _ s
    | simp [writeMsgToSerial]

theorem fillStripColor_keepsBuffers (p : List Nat) : KeepsBuffers (fillStripColor p) := by
  intro s
  unfold fillStripColor
  simp only []
  split_ifs <;> first
    | exact sendErrorResponse_keepsBuffers _ s
    | simp [(fill_spec _ Black _ _).1]

theorem showStripColor_keepsBuffers (p : List Nat) : KeepsBuffers (showStripColor p) := by
  intro s
  unfold showStripColor
  simp only []
  split_ifs <;> first
    | exact sendErrorResponse_keepsBuffers _ s
    | simp [initializeLedLib]

theorem setBrightness_keepsBuffers (p : List Nat) : KeepsBuffers (setBrightness p) := by
  intro s
  unfold setBrightness
  simp only []
  split_ifs <;> simp [writeMsgToSerial]

theorem setSerialEcho_keepsBuffers (p : List Nat) : KeepsBuffers (setSerialEcho p) := by
  intro s
  unfold setSerialEcho
  simp only []
  split_ifs <;> first
    | exact sendErrorResponse_keepsBuffers _ s
    | simp [writeMsgToSerial, writeCharToSerial]

/-- A dispatch leaves the line buffers, the waiting flag, the statics of `serialEvent` and
the size of the pixel array alone, and logs the line. -/
theorem processCommand_keepsBuffers (m : Nat) (line : List Nat) (s : State) :
    (processCommand m line s).serialBuffer = s.serialBuffer ∧
    (processCommand m line s).commandBuffer = s.commandBuffer ∧
    (processCommand m line s).serialBufferIndex = s.serialBufferIndex ∧
    (processCommand m line s).commandBufferSize = s.commandBufferSize ∧
    (processCommand m line s).serialCmdWaitingFlag = s.serialCmdWaitingFlag ∧
    (processCommand m line s).recvArrOrd = s.recvArrOrd ∧
    (processCommand m line s).recvCRGBVal = s.recvCRGBVal ∧
    (processCommand m line s).crgbLedsArr.length = s.crgbLedsArr.length ∧
    (processCommand m line s).cmdLog = s.cmdLog ++ [line] := by
  unfold processCommand
  simp only []
  generalize (if 97 ≤ charAt line 0 ∧ charAt line 0 ≤ 122 then charAt line 0 - 32
    else charAt line 0) = cmdByte
  generalize List.drop (1 + skipSpaces (List.drop 1 line)) line = paramsStr
  by_cases h0 : cmdByte = 67
  · rw [if_pos h0]; exact configureLeds_keepsBuffers _ _
  rw [if_neg h0]
  by_cases h1 : cmdByte = 68
  · rw [if_pos h1]; cases he : s.serialEchoFlag <;> simp [describeLeds, writeMsgToSerial, he]
  rw [if_neg h1]
  by_cases h2 : cmdByte = 77
  · rw [if_pos h2]
    cases he : s.serialEchoFlag <;> simp [queryMaxNumLeds, writeMsgToSerial, he]
  rw [if_neg h2]
  by_cases h3 : cmdByte = 80
  · rw [if_pos h3]; exact setPixelColor_keepsBuffers _ _
  rw [if_neg h3]
  by_cases h4 : cmdByte = 82
  · rw [if_pos h4]; exact queryPixelColor_keepsBuffers _ _
  rw [if_neg h4]
  by_cases h5 : cmdByte = 70
  · rw [if_pos h5]; exact fillStripColor_keepsBuffers _ _
  rw [if_neg h5]
  by_cases h6 : cmdByte = 65
  · rw [if_pos h6]; simp
  rw [if_neg h6]
  by_cases h7 : cmdByte = 83
  · rw [if_pos h7]; exact showStripColor_keepsBuffers _ _
  rw [if_neg h7]
  by_cases h8 : cmdByte = 66
  · rw [if_pos h8]; exact setBrightness_keepsBuffers _ _
  rw [if_neg h8]
  by_cases h9 : cmdByte = 69
  · rw [if_pos h9]; exact setSerialEcho_keepsBuffers _ _
  rw [if_neg h9]
  by_cases h10 : cmdByte = 76
  · rw [if_pos h10]
    cases he : s.serialEchoFlag <;> simp [queryLastErrorMsg, writeMsgToSerial, he]
  rw [if_neg h10]
  by_cases h11 : cmdByte = 86
  · rw [if_pos h11]; cases he : s.serialEchoFlag <;> simp [writeMsgToSerial, he]
  rw [if_neg h11]
  exact sendErrorResponse_keepsBuffers _ _

/-! ### The scheduling tick -/

theorem setModuleLed_keepsBuffers (onFlag : Bool) : KeepsBuffers (setModuleLed onFlag) := by
  intro s
  unfold setModuleLed
  split_ifs <;> simp

theorem writePrompt_keepsBuffers : KeepsBuffers writePrompt := by
  intro s
  unfold writePrompt
  split_ifs <;> simp [writeMsgToSerial, writeCharToSerial]

/-- A tick with a staged command: the staged line is dispatched, once; then the waiting
line, if there is one, is promoted into the staging slot, else the slot is free. -/
theorem loop_dispatch (curTimeMs cmdTimeMs : Nat) (s : State) (h : s.commandBufferSize > 0) :
    (loop curTimeMs cmdTimeMs s).cmdLog = s.cmdLog ++ [cstr s.commandBuffer] ∧
    (loop curTimeMs cmdTimeMs s).serialBuffer = s.serialBuffer ∧
    (loop curTimeMs cmdTimeMs s).crgbLedsArr.length = s.crgbLedsArr.length ∧
    (s.serialCmdWaitingFlag = true ∧ s.serialBufferIndex > 0 →
      (loop curTimeMs cmdTimeMs s).commandBuffer =
        (s.serialBuffer.take s.serialBufferIndex.toNat ++
          s.commandBuffer.drop s.serialBufferIndex.toNat).set s.serialBufferIndex.toNat 0 ∧
      (loop curTimeMs cmdTimeMs s).commandBufferSize = s.serialBufferIndex ∧
      (loop curTimeMs cmdTimeMs s).serialBufferIndex = 0 ∧
      (loop curTimeMs cmdTimeMs s).serialCmdWaitingFlag = false) ∧
    (¬ (s.serialCmdWaitingFlag = true ∧ s.serialBufferIndex > 0) →
      (loop curTimeMs cmdTimeMs s).commandBuffer = s.commandBuffer ∧
      (loop curTimeMs cmdTimeMs s).commandBufferSize = 0 ∧
      (loop curTimeMs cmdTimeMs s).serialBufferIndex = s.serialBufferIndex ∧
      (loop curTimeMs cmdTimeMs s).serialCmdWaitingFlag = s.serialCmdWaitingFlag) := by
  obtain ⟨a1, a2, a3, a4, a5, a6, a7, a8, a9⟩ := setModuleLed_keepsBuffers true s
  obtain ⟨b1, b2, b3, b4, b5, b6, b7, b8, b9⟩ :=
    processCommand_keepsBuffers cmdTimeMs (cstr s.commandBuffer) (setModuleLed true s)
  rw [a1] at b1; rw [a2] at b2; rw [a3] at b3; rw [a4] at b4; rw [a5] at b5
  rw [a8] at b8; rw [a9] at b9
  generalize hs1 : processCommand cmdTimeMs (cstr s.commandBuffer) (setModuleLed true s) = s1
    at b1 b2 b3 b4 b5 b6 b7 b8 b9
  have hl : loop curTimeMs cmdTimeMs s =
      (let s2 := { writePrompt { s1 with commandBufferSize := 0 } with
                    cmdRecvDivVal := (((curTimeMs / 100 % 40 : Nat) : Int) + 2) % 40 }
       if s2.serialCmdWaitingFlag ∧ s2.serialBufferIndex > 0 then copySerialMsgBuffer s2
       else s2) := by
    simp only [loop, h, if_true, a2, hs1]
  rw [hl]
  by_cases hc : s.serialCmdWaitingFlag = true ∧ s.serialBufferIndex > 0
  · cases he : s1.serialEchoFlag <;>
      simp [writePrompt, writeMsgToSerial, writeCharToSerial, he, copySerialMsgBuffer,
        b1, b2, b3, b5, b8, b9, hc]
  · cases he : s1.serialEchoFlag <;>
      simp [writePrompt, writeMsgToSerial, writeCharToSerial, he, copySerialMsgBuffer,
        b1, b2, b3, b5, b8, b9, hc]

/-- A tick with no staged command dispatches nothing and leaves the buffers alone. -/
theorem loop_idle (curTimeMs cmdTimeMs : Nat) (s : State) (h : ¬ s.commandBufferSize > 0) :
    (loop curTimeMs cmdTimeMs s).serialBuffer = s.serialBuffer ∧
    (loop curTimeMs cmdTimeMs s).commandBuffer = s.commandBuffer ∧
    (loop curTimeMs cmdTimeMs s).serialBufferIndex = s.serialBufferIndex ∧
    (loop curTimeMs cmdTimeMs s).commandBufferSize = s.commandBufferSize ∧
    (loop curTimeMs cmdTimeMs s).serialCmdWaitingFlag = s.serialCmdWaitingFlag ∧
    (loop curTimeMs cmdTimeMs s).recvArrOrd = s.recvArrOrd ∧
    (loop curTimeMs cmdTimeMs s).recvCRGBVal = s.recvCRGBVal ∧
    (loop curTimeMs cmdTimeMs s).crgbLedsArr.length = s.crgbLedsArr.length ∧
    (loop curTimeMs cmdTimeMs s).cmdLog = s.cmdLog := by
  simp only [loop, h, if_false, setModuleLed]
  split_ifs <;> simp

/-! ### C4: the depth-2 pipeline -/

/-- Two lines fed to an idle reassembler before any tick: the first is staged, the second
is held in the reassembly buffer with the waiting flag set. -/
theorem feedLine_two_lines (s : State) (l1 l2 : List Nat)
    (hidx : s.serialBufferIndex = 0) (hcmd : s.commandBufferSize = 0)
    (hwait : s.serialCmdWaitingFlag = false)
    (hsb : s.serialBuffer.length = 20) (hcb : s.commandBuffer.length = 20)
    (h1 : l1 ≠ [] ∧ l1.length ≤ 18 ∧ ∀ b ∈ l1, 32 ≤ b ∧ b < 256)
    (h2 : l2 ≠ [] ∧ l2.length ≤ 18 ∧ ∀ b ∈ l2, 32 ≤ b ∧ b < 256) :
    let r := feedLine (l1 ++ [13] ++ l2 ++ [13]) s
    r.commandBuffer = l1 ++ 0 :: s.commandBuffer.drop (l1.length + 1) ∧
    r.commandBufferSize = (l1.length : Int) ∧ r.serialCmdWaitingFlag = true ∧
    r.serialBuffer.take l2.length = l2 ∧ r.serialBuffer.length = 20 ∧
    r.serialBufferIndex = (l2.length : Int) ∧ r.cmdLog = s.cmdLog ∧
    r.crgbLedsArr = s.crgbLedsArr := by
  intro r
  have hw1 : ∀ b ∈ l1, b < 256 ∧ b ≠ 13 := fun b hb => by have := h1.2.2 b hb; omega
  have hw2 : ∀ b ∈ l2, b < 256 ∧ b ≠ 13 := fun b hb => by have := h2.2.2 b hb; omega
  have hlb1 : lineBytes l1 = l1 := lineBytes_self l1 h1.2.1 (fun b hb => (h1.2.2 b hb).1)
  have hlb2 : lineBytes l2 = l2 := lineBytes_self l2 h2.2.1 (fun b hb => (h2.2.2 b hb).1)
  obtain ⟨hacc1, hfeed1⟩ := feedLine_line s l1 hidx hwait hsb hw1
  rw [hlb1] at hacc1
  obtain ⟨hst, hstlen⟩ := lineAcc_terminator_stage s _ l1 hacc1 hwait h1.1 (by omega) hcb
  generalize hs1 : recvLineByte 13 (feedLine l1 s) = s1 at hst hstlen
  have hs1idx : s1.serialBufferIndex = 0 := by rw [hst]
  have hs1wait : s1.serialCmdWaitingFlag = false := by rw [hst]; exact hwait
  have hs1cmd : s1.commandBufferSize > 0 := by
    have := List.length_pos.2 h1.1
    rw [hst]; simp; omega
  obtain ⟨hacc2, _⟩ := feedLine_line s1 l2 hs1idx hs1wait hstlen hw2
  rw [hlb2] at hacc2
  have hterm := lineAcc_terminator_wait s1 _ l2 hacc2 hs1wait h2.1 hs1cmd
  have hr : r = { feedLine l2 s1 with serialCmdWaitingFlag := true } := by
    show feedLine (l1 ++ [13] ++ l2 ++ [13]) s = _
    rw [feedLine_append, feedLine_append, hfeed1, hs1, ← hterm]
    simp [feedLine]
  obtain ⟨buf, hb0, hb1, hb2, hb3⟩ := hacc2
  rw [hr, hb0]
  refine ⟨?_, ?_, rfl, hb1, hb2, rfl, ?_, ?_⟩
  · show s1.commandBuffer = _
    rw [hst]
  · show s1.commandBufferSize = _
    rw [hst]
  · show s1.cmdLog = _
    rw [hst]
  · show s1.crgbLedsArr = _
    rw [hst]

/-- C4. Depth-2 pipeline: from an idle line-mode state, when two non-empty lines `l1` and
`l2` of at most 18 bytes `≥ 0x20` arrive as `l1 CR l2 CR` before any tick (over any number of
handler invocations that leave nothing unread), `l1` is staged and `l2` is held with the
waiting flag set; the first tick dispatches exactly `l1` and promotes `l2` into the staging
slot, the second tick dispatches exactly `l2` and empties the pipeline, and a further tick
dispatches nothing: each line is dispatched exactly once, in order. -/
theorem C4_depth2_pipeline (s : State) (es : List (Nat × List Nat)) (l1 l2 : List Nat)
    (t1 m1 t2 m2 t3 m3 : Nat)
    (hmode : s.receivingArrayFlag = false) (hidx : s.serialBufferIndex = 0)
    (hcmd : s.commandBufferSize = 0) (hwait : s.serialCmdWaitingFlag = false)
    (hsb : s.serialBuffer.length = 20) (hcb : s.commandBuffer.length = 20)
    (h1 : l1 ≠ [] ∧ l1.length ≤ 18 ∧ ∀ b ∈ l1, 32 ≤ b ∧ b < 256)
    (h2 : l2 ≠ [] ∧ l2.length ≤ 18 ∧ ∀ b ∈ l2, 32 ≤ b ∧ b < 256)
    (hes : arrivals es = l1 ++ [13] ++ l2 ++ [13]) (hall : (serialEvents es [] s).2 = []) :
    let r := (serialEvents es [] s).1
    let r1 := loop t1 m1 r
    let r2 := loop t2 m2 r1
    (cstr r.commandBuffer = l1 ∧ r.commandBufferSize = (l1.length : Int) ∧
      r.serialCmdWaitingFlag = true ∧ r.serialBuffer.take l2.length = l2 ∧
      r.serialBufferIndex = (l2.length : Int) ∧ r.cmdLog = s.cmdLog) ∧
    (r1.cmdLog = s.cmdLog ++ [l1] ∧ cstr r1.commandBuffer = l2 ∧
      r1.commandBufferSize = (l2.length : Int) ∧ r1.serialCmdWaitingFlag = false ∧
      r1.serialBufferIndex = 0) ∧
    (r2.cmdLog = s.cmdLog ++ [l1, l2] ∧ r2.commandBufferSize = 0 ∧
      r2.serialCmdWaitingFlag = false ∧ r2.serialBufferIndex = 0) ∧
    (loop t3 m3 r2).cmdLog = s.cmdLog ++ [l1, l2] := by
  intro r r1 r2
  have hr : r = feedLine (l1 ++ [13] ++ l2 ++ [13]) s := by
    rw [← hes]; exact serialEvents_line_all es s hmode hall
  obtain ⟨f1, f2, f3, f4, f5, f6, f7, _⟩ :=
    feedLine_two_lines s l1 l2 hidx hcmd hwait hsb hcb h1 h2
  rw [← hr] at f1 f2 f3 f4 f5 f6 f7
  have hnz1 : ∀ c ∈ l1, c ≠ 0 := fun c hc => by have := h1.2.2 c hc; omega
  have hnz2 : ∀ c ∈ l2, c ≠ 0 := fun c hc => by have := h2.2.2 c hc; omega
  have hp1 := List.length_pos.2 h1.1
  have hp2 := List.length_pos.2 h2.1
  have hc1 : cstr r.commandBuffer = l1 := by rw [f1]; exact cstr_staged _ _ hnz1
  have hrcb : r.commandBuffer.length = 20 := by
    rw [f1]; simp [hcb]; omega
  -- first tick
  obtain ⟨d1, d2, _, d4, _⟩ := loop_dispatch t1 m1 r (by omega)
  obtain ⟨e1, e2, e3, e4⟩ := d4 ⟨f3, by omega⟩
  have hn : r.serialBufferIndex.toNat = l2.length := by omega
  rw [hn] at e1
  have hr1cb : r1.commandBuffer = l2 ++ 0 :: r.commandBuffer.drop (l2.length + 1) := by
    show (loop t1 m1 r).commandBuffer = _
    rw [e1]
    exact staged_buffer r.serialBuffer r.commandBuffer l2 f4 hrcb h2.2.1
  have hc2 : cstr r1.commandBuffer = l2 := by rw [hr1cb]; exact cstr_staged _ _ hnz2
  have hr1size : r1.commandBufferSize = (l2.length : Int) := e2.trans f6
  have hr1log : r1.cmdLog = s.cmdLog ++ [l1] := by
    show (loop t1 m1 r).cmdLog = _
    rw [d1, hc1, f7]
  -- second tick
  obtain ⟨g1, _, _, _, g5⟩ := loop_dispatch t2 m2 r1 (by omega)
  have hnw : ¬ (r1.serialCmdWaitingFlag = true ∧ r1.serialBufferIndex > 0) := by
    intro h; have : r1.serialCmdWaitingFlag = false := e4
    rw [this] at h; simp at h
  obtain ⟨_, k2, k3, k4⟩ := g5 hnw
  have hr2log : r2.cmdLog = s.cmdLog ++ [l1, l2] := by
    show (loop t2 m2 r1).cmdLog = _
    rw [g1, hc2, hr1log]; simp
  have hr2size : r2.commandBufferSize = 0 := k2
  -- a further tick
  obtain ⟨_, _, _, _, _, _, _, _, i9⟩ := loop_idle t3 m3 r2 (by omega)
  exact ⟨⟨hc1, f2, f3, f4, f6, f7⟩, ⟨hr1log, hc2, hr1size, e4, e3⟩,
    ⟨hr2log, hr2size, k4.trans e4, k3.trans e3⟩, i9.trans hr2log⟩

/-- C4 on the state after `setup()`: the lines `D` and `M` arrive in one invocation; two
ticks dispatch `D` and then `M`. -/
theorem C4_depth2_pipeline_witness :
    (loop 7 7 (loop 5 5
      (serialEvents [(0, [68, 13, 77, 13])] [] (setup initState)).1)).cmdLog = [[68], [77]] :=
  (C4_depth2_pipeline (setup initState) [(0, [68, 13, 77, 13])] [68] [77] 5 5 7 7 9 9
    (by decide) (by decide) (by decide) (by decide) (by decide) (by decide) (by decide)
    (by decide) (by decide) (by decide)).2.2.1.1

/-! ### C3: the line buffers never overflow -/

theorem buffersOk_of_keeps (s r : State) (h : BuffersOk s)
    (h1 : r.serialBuffer = s.serialBuffer) (h2 : r.commandBuffer = s.commandBuffer)
    (h3 : r.serialBufferIndex = s.serialBufferIndex)
    (h4 : r.commandBufferSize = s.commandBufferSize) : BuffersOk r := by
  unfold BuffersOk at *
  rw [h1, h2, h3, h4]
  exact h

theorem copySerialMsgBuffer_buffersOk (s : State) (h : BuffersOk s) :
    BuffersOk (copySerialMsgBuffer s) := by
  obtain ⟨h1, h2, h3, h4, h5, h6⟩ := h
  simp only [BuffersOk, copySerialMsgBuffer, writeCharToSerial, List.length_set,
    List.length_append, List.length_take, List.length_drop]
  omega

theorem recvLineByte_buffersOk (b : Nat) (s : State) (h : BuffersOk s) :
    BuffersOk (recvLineByte b s) := by
  unfold recvLineByte
  split_ifs <;> first
    | exact h
    | exact copySerialMsgBuffer_buffersOk s h
    | exact buffersOk_of_keeps s _ h rfl rfl rfl rfl
    | exact buffersOk_of_keeps s _ h (writePrompt_keepsBuffers s).1
        (writePrompt_keepsBuffers s).2.1 (writePrompt_keepsBuffers s).2.2.1
        (writePrompt_keepsBuffers s).2.2.2.1
    | (obtain ⟨h1, h2, h3, h4, h5, h6⟩ := h
       simp only [SERIAL_BUFFER_SIZE] at *
       cases he : s.serialEchoFlag <;>
         (simp [BuffersOk, writeCharToSerial, he]; omega))

theorem recvArrayByte_keepsBuffers (b : Nat) (s : State) :
    (recvArrayByte b s).serialBuffer = s.serialBuffer ∧
    (recvArrayByte b s).commandBuffer = s.commandBuffer ∧
    (recvArrayByte b s).serialBufferIndex = s.serialBufferIndex ∧
    (recvArrayByte b s).commandBufferSize = s.commandBufferSize ∧
    (recvArrayByte b s).serialCmdWaitingFlag = s.serialCmdWaitingFlag ∧
    (recvArrayByte b s).cmdLog = s.cmdLog ∧ (recvArrayByte b s).errLog = s.errLog ∧
    (recvArrayByte b s).lastErrorStr = s.lastErrorStr := by
  unfold recvArrayByte
  simp only []
  cases he : s.serialEchoFlag <;>
    (split_ifs <;> simp [writePrompt, writeMsgToSerial, writeCharToSerial, he])

theorem serialLoop_buffersOk (input : List Nat) : ∀ (iterCount : Int) (s : State),
    BuffersOk s → BuffersOk (serialLoop input iterCount s).1 := by
  induction input with
  | nil => intro it s h; simpa [serialLoop] using h
  | cons b bs ih =>
    intro it s h
    unfold serialLoop
    simp only []
    split_ifs
    · obtain ⟨k1, k2, k3, k4, _⟩ := recvArrayByte_keepsBuffers (b % 256) s
      exact ih _ _ (buffersOk_of_keeps s _ h k1 k2 k3 k4)
    · exact recvLineByte_buffersOk _ s h
    · exact ih _ _ (recvLineByte_buffersOk _ s h)
    · exact ih _ _ (recvLineByte_buffersOk _ s h)

theorem serialEvent_buffersOk (millis : Nat) (input : List Nat) (s : State)
    (h : BuffersOk s) : BuffersOk (serialEvent millis input s).1 := by
  unfold serialEvent
  simp only []
  split_ifs
  · apply serialLoop_buffersOk
    obtain ⟨k1, k2, k3, k4, _⟩ := sendErrorResponse_keepsBuffers
      (bytesOf "Timeout during receive of array data")
      { s with receivingArrayFlag := false, receivingArrayIdx := 0, recvArrOrd := 0 }
    exact buffersOk_of_keeps s _ h k1 k2 k3 k4
  · exact serialLoop_buffersOk _ _ _ h

theorem loop_buffersOk (curTimeMs cmdTimeMs : Nat) (s : State) (h : BuffersOk s) :
    BuffersOk (loop curTimeMs cmdTimeMs s) := by
  by_cases hc : s.commandBufferSize > 0
  · obtain ⟨_, d2, _, d4, d5⟩ := loop_dispatch curTimeMs cmdTimeMs s hc
    obtain ⟨h1, h2, h3, h4, h5, h6⟩ := h
    by_cases hw : s.serialCmdWaitingFlag = true ∧ s.serialBufferIndex > 0
    · obtain ⟨e1, e2, e3, e4⟩ := d4 hw
      simp only [BuffersOk, d2, e1, e2, e3, List.length_set, List.length_append,
        List.length_take, List.length_drop]
      omega
    · obtain ⟨e1, e2, e3, e4⟩ := d5 hw
      simp only [BuffersOk, d2, e1, e2, e3]
      omega
  · obtain ⟨k1, k2, k3, k4, _⟩ := loop_idle curTimeMs cmdTimeMs s hc
    exact buffersOk_of_keeps s _ h k1 k2 k3 k4

/-- C3. The line buffers never overflow: in every state reachable from `setup()` by any
byte arrivals (any byte values, any lengths) and ticks, `serialBufferIndex` and
`commandBufferSize` are both in `[0, 18]` and both buffers have their 20 bytes; so the
position `serialBufferIndex` a byte is stored at, the `serialBufferIndex` bytes `memcpy`
copies and the position `commandBufferSize` of the null terminator are within the
buffers. -/
theorem C3_line_buffers_in_bounds (s : State) (h : Reachable s) :
    (0 ≤ s.serialBufferIndex ∧ s.serialBufferIndex ≤ 18) ∧
    (0 ≤ s.commandBufferSize ∧ s.commandBufferSize ≤ 18) ∧
    s.serialBuffer.length = 20 ∧ s.commandBuffer.length = 20 ∧
    s.serialBufferIndex.toNat < s.serialBuffer.length ∧
    s.serialBufferIndex.toNat < s.commandBuffer.length ∧
    s.commandBufferSize.toNat < s.commandBuffer.length := by
  have hok : BuffersOk s := by
    induction h with
    | setup => unfold BuffersOk; decide
    | serialEvent millis input s _ ih => exact serialEvent_buffersOk millis input s ih
    | loop c m s _ ih => exact loop_buffersOk c m s ih
  obtain ⟨h1, h2, h3, h4, h5, h6⟩ := hok
  refine ⟨⟨h1, h2⟩, ⟨h3, h4⟩, h5, h6, ?_, ?_, ?_⟩ <;> omega

/-- C3 on a reachable state: after 30 printable bytes have arrived, 18 are stored. -/
theorem C3_line_buffers_in_bounds_witness :
    (serialEvent 0 (List.replicate 30 65) (setup initState)).1.serialBufferIndex ≤ 18 :=
  (C3_line_buffers_in_bounds _
    (Reachable.serialEvent 0 (List.replicate 30 65) _ Reachable.setup)).1.2

/-! ### C10: recovery from a stalled binary transfer -/

/-- C10. Binary timeout recovery: in binary mode with start timestamp `t`, `t + 5000 < 2^32`,
an invocation of the byte-arrival handler at clock time `millis > t + 5000` clears binary
mode, resets the pixel index and the per-pixel byte counter to 0, records the timeout
message as Last Error, does not modify the pixel array, and handles the bytes of that
invocation as line-mode input (the first 21 of them; the rest stay unread). -/
theorem C10_binary_timeout (s : State) (millis : Nat) (input : List Nat)
    (hflag : s.receivingArrayFlag = true) (ht : s.recvArrStartTimeMs + 5000 < 2 ^ 32)
    (hnow : millis > s.recvArrStartTimeMs + 5000) :
    let r := serialEvent millis input s
    let s0 := sendErrorResponse (bytesOf "Timeout during receive of array data")
      { s with receivingArrayFlag := false, receivingArrayIdx := 0, recvArrOrd := 0 }
    r.1.receivingArrayFlag = false ∧ r.1.receivingArrayIdx = 0 ∧ r.1.recvArrOrd = 0 ∧
    r.1.lastErrorStr = bytesOf "Timeout during receive of array data" ∧
    r.1.errLog = s.errLog ++ [bytesOf "Timeout during receive of array data"] ∧
    r.1.crgbLedsArr = s.crgbLedsArr ∧
    r.1 = feedLine (input.take 21) s0 ∧ r.2 = input.drop 21 := by
  intro r s0
  have hmod : (s.recvArrStartTimeMs + 5000) % 2 ^ 32 = s.recvArrStartTimeMs + 5000 :=
    Nat.mod_eq_of_lt ht
  have hcond : s.receivingArrayFlag = true ∧
      millis > (s.recvArrStartTimeMs + 5000) % 2 ^ 32 := ⟨hflag, by rw [hmod]; exact hnow⟩
  have hs0 : s0.receivingArrayFlag = false ∧ s0.receivingArrayIdx = 0 ∧ s0.recvArrOrd = 0 ∧
      s0.lastErrorStr = bytesOf "Timeout during receive of array data" ∧
      s0.errLog = s.errLog ++ [bytesOf "Timeout during receive of array data"] ∧
      s0.crgbLedsArr = s.crgbLedsArr := by
    have hdef : s0 = sendErrorResponse (bytesOf "Timeout during receive of array data")
      { s with receivingArrayFlag := false, receivingArrayIdx := 0, recvArrOrd := 0 } := rfl
    rw [hdef]
    cases he : s.serialEchoFlag <;>
      simp [sendErrorResponse, writeMsgToSerial, writeCharToSerial, he]
  have hr : r = (feedLine (input.take 21) s0, input.drop 21) := by
    show serialEvent millis input s = _
    simp only [serialEvent, hcond, and_self, if_true]
    simpa using serialLoop_line input 0 s0 hs0.1 (by omega) (by omega)
  obtain ⟨f1, f2, f3, _, f5, f6, f7, _⟩ := feedLine_frame (input.take 21) s0
  obtain ⟨g1, g2, g3, g4, g5, g6⟩ := hs0
  rw [hr]
  exact ⟨f1.trans g1, f2.trans g2, f3.trans g3, f6.trans g4, f7.trans g5, f5.trans g6,
    rfl, rfl⟩

/-- C10 on the state after `A` was dispatched at time 0: at time 5001 the bytes `D CR`
are read as a line and staged. -/
theorem C10_binary_timeout_witness :
    (serialEvent 5001 [68, 13]
      (processCommand 0 (bytesOf "A") (setup initState))).1.receivingArrayFlag = false :=
  (C10_binary_timeout (processCommand 0 (bytesOf "A") (setup initState)) 5001 [68, 13]
    (by decide) (by decide) (by decide)).1

/-! ### C2: binary frame load -/

/-- C2 fails on the code. `A` resets the pixel index but not the per-pixel byte counter of
`serialEvent` (only completion and timeout reset it). In the reachable state
`staleCounterState`, right after `A` was dispatched with 8 LEDs, binary mode is on, the
index is 0 and the counter is 1; of the 24 bytes of a frame the 23rd already ends binary
mode, pixel 0 becomes `(0x11, b[0], b[1])` instead of `(b[0], b[1], b[2])`, and the 24th
byte is stored in the line buffer as text. -/
theorem C2_sendAll_keeps_stale_byte_counter :
    Reachable staleCounterState ∧
    staleCounterState.cmdLog = [[65], [65]] ∧
    staleCounterState.receivingArrayFlag = true ∧ staleCounterState.receivingArrayIdx = 0 ∧
    staleCounterState.stripNumberLeds = 8 ∧ staleCounterState.recvArrOrd = 1 ∧
    (serialEvent 40 (frame24.take 23) staleCounterState).1.receivingArrayFlag = false ∧
    (serialEvent 40 frame24 staleCounterState).1.crgbLedsArr.take 2 =
      [⟨17, 33, 34⟩, ⟨35, 36, 37⟩] ∧
    (serialEvent 40 frame24 staleCounterState).1.serialBufferIndex = 1 ∧
    (serialEvent 40 frame24 staleCounterState).1.serialBuffer.take 1 = [56] := by
  refine ⟨?_, by decide, by decide, by decide, by decide, by decide, by decide, by decide,
    by decide, by decide⟩
  exact Reachable.loop _ _ _ (Reachable.serialEvent _ _ _ (Reachable.loop _ _ _
    (Reachable.serialEvent _ _ _ Reachable.setup)))

/-! ### Binary frame load when the byte counter is 0 at `A` -/

/-- One byte in binary mode while more than one byte is missing: binary mode stays on
and one byte less is missing. -/
theorem recvArrayByte_receiving (b : Nat) (s : State) (h : Receiving s)
    (hn : bytesNeeded s > 1) :
    Receiving (recvArrayByte b s) ∧ bytesNeeded (recvArrayByte b s) = bytesNeeded s - 1 ∧
      (recvArrayByte b s).recvArrStartTimeMs = s.recvArrStartTimeMs := by
  obtain ⟨h1, h2, h3, h4, h5⟩ := h
  simp only [bytesNeeded] at hn
  unfold recvArrayByte
  simp only []
  by_cases ho : s.recvArrOrd + 1 ≥ 3
  · have hi : ¬ (s.receivingArrayIdx + 1 ≥ s.stripNumberLeds) := by omega
    simp only [ho, hi, if_true, if_false, Receiving, bytesNeeded]
    refine ⟨⟨h1, ?_⟩, ?_, trivial⟩ <;> omega
  · simp only [ho, if_false, Receiving, bytesNeeded]
    refine ⟨⟨h1, ?_⟩, ?_, trivial⟩ <;> omega

/-- The byte that completes the frame: binary mode is left, the index and the byte
counter are back at 0. -/
theorem recvArrayByte_last (b : Nat) (s : State) (h : Receiving s)
    (hn : bytesNeeded s = 1) :
    (recvArrayByte b s).receivingArrayFlag = false ∧
      (recvArrayByte b s).receivingArrayIdx = 0 ∧ (recvArrayByte b s).recvArrOrd = 0 := by
  obtain ⟨h1, h2, h3, h4, h5⟩ := h
  simp only [bytesNeeded] at hn
  have ho : s.recvArrOrd + 1 ≥ 3 := by omega
  have hi : s.receivingArrayIdx + 1 ≥ s.stripNumberLeds := by omega
  cases he : s.serialEchoFlag <;>
    simp [recvArrayByte, ho, hi, writePrompt, writeMsgToSerial, writeCharToSerial, he]

theorem feedArray_receiving (bytes : List Nat) : ∀ s : State, Receiving s →
    (bytes.length : Int) < bytesNeeded s →
    Receiving (feedArray bytes s) ∧
      bytesNeeded (feedArray bytes s) = bytesNeeded s - bytes.length ∧
      (feedArray bytes s).recvArrStartTimeMs = s.recvArrStartTimeMs := by
  induction bytes with
  | nil => intro s h _; simp [feedArray, h]
  | cons b bs ih =>
    intro s h hlen
    simp only [List.length_cons, Nat.cast_add, Nat.cast_one] at hlen
    obtain ⟨r1, r2, r3⟩ := recvArrayByte_receiving (b % 256) s h (by omega)
    obtain ⟨i1, i2, i3⟩ := ih (recvArrayByte (b % 256) s) r1 (by omega)
    simp only [feedArray, List.foldl_cons, List.length_cons, Nat.cast_add, Nat.cast_one]
      at i1 i2 i3 ⊢
    exact ⟨i1, by omega, i3.trans r3⟩

/-- While the frame is incomplete the `while` of `serialEvent` handles every byte as
binary data and leaves nothing unread. -/
theorem serialLoop_receiving (input : List Nat) : ∀ (iterCount : Int) (s : State),
    Receiving s → (input.length : Int) ≤ bytesNeeded s →
    serialLoop input iterCount s = (feedArray input s, []) := by
  induction input with
  | nil => intro it s _ _; simp [serialLoop, feedArray]
  | cons b bs ih =>
    intro it s h hlen
    simp only [List.length_cons, Nat.cast_add, Nat.cast_one] at hlen
    simp only [serialLoop, h.1, if_true]
    cases bs with
    | nil => simp [serialLoop, feedArray]
    | cons c cs =>
      simp only [List.length_cons, Nat.cast_add, Nat.cast_one] at hlen
      obtain ⟨r1, r2, _⟩ := recvArrayByte_receiving (b % 256) s h (by omega)
      rw [ih it _ r1 (by simp only [List.length_cons, Nat.cast_add, Nat.cast_one]; omega)]
      simp [feedArray]

theorem feedArray_append (a b : List Nat) (s : State) :
    feedArray (a ++ b) s = feedArray b (feedArray a s) := by
  simp [feedArray, List.foldl_append]

/-- Invocations of the handler that bring no byte, in line mode, change nothing. -/
theorem serialEvents_idle (es : List (Nat × List Nat)) : ∀ s : State,
    s.receivingArrayFlag = false → arrivals es = [] → serialEvents es [] s = (s, []) := by
  induction es with
  | nil => intro s _ _; rfl
  | cons e es ih =>
    intro s hf ha
    obtain ⟨millis, arrived⟩ := e
    have ha' : arrived = [] ∧ arrivals es = [] := by
      simpa [arrivals] using ha
    simp only [serialEvents, ha'.1, List.append_nil, serialEvent_line millis [] s hf]
    simpa [feedLine] using ih s hf ha'.2

/-- Exactly the missing bytes complete the frame. -/
theorem feedArray_complete (bytes : List Nat) : ∀ s : State, Receiving s →
    (bytes.length : Int) = bytesNeeded s →
    (feedArray bytes s).receivingArrayFlag = false ∧
      (feedArray bytes s).receivingArrayIdx = 0 ∧ (feedArray bytes s).recvArrOrd = 0 := by
  induction bytes with
  | nil =>
    intro s h hlen
    obtain ⟨h1, h2, h3, h4, h5⟩ := h
    simp only [bytesNeeded, List.length_nil, Nat.cast_zero] at hlen
    omega
  | cons b bs ih =>
    intro s h hlen
    simp only [List.length_cons, Nat.cast_add, Nat.cast_one] at hlen
    cases bs with
    | nil =>
      simp only [List.length_nil, Nat.cast_zero] at hlen
      simpa [feedArray] using recvArrayByte_last (b % 256) s h (by omega)
    | cons c cs =>
      simp only [List.length_cons, Nat.cast_add, Nat.cast_one] at hlen
      obtain ⟨r1, r2, _⟩ := recvArrayByte_receiving (b % 256) s h (by omega)
      have := ih _ r1 (by simp only [List.length_cons, Nat.cast_add, Nat.cast_one]; omega)
      simpa [feedArray] using this

/-- A run of invocations in binary mode, none of them past the timeout, that brings fewer
bytes than the frame still misses: every byte is handled as binary data, nothing is left
unread and binary mode is still on. -/
theorem serialEvents_receiving (es : List (Nat × List Nat)) : ∀ s : State, Receiving s →
    (∀ e ∈ es, ¬ e.1 > (s.recvArrStartTimeMs + 5000) % 2 ^ 32) →
    ((arrivals es).length : Int) < bytesNeeded s →
    serialEvents es [] s = (feedArray (arrivals es) s, []) := by
  induction es with
  | nil => intro s _ _ _; simp [serialEvents, arrivals, feedArray]
  | cons e es ih =>
    intro s h ht hlen
    obtain ⟨millis, arrived⟩ := e
    have harr : arrivals ((millis, arrived) :: es) = arrived ++ arrivals es := by
      simp [arrivals]
    rw [harr] at hlen ⊢
    simp only [List.length_append, Nat.cast_add] at hlen
    have hno : ¬ (s.receivingArrayFlag = true ∧
        millis > (s.recvArrStartTimeMs + 5000) % 2 ^ 32) := by
      intro hc
      exact ht (millis, arrived) (by simp) hc.2
    have hev : serialEvent millis ([] ++ arrived) s = (feedArray arrived s, []) := by
      simp only [serialEvent, hno, if_false, List.nil_append]
      exact serialLoop_receiving arrived 0 s h (by omega)
    simp only [serialEvents, hev]
    rw [feedArray_append]
    obtain ⟨r1, r2, r3⟩ := feedArray_receiving arrived s h (by omega)
    exact ih _ r1 (fun e he => by rw [r3]; exact ht e (by simp [he])) (by omega)

/-- A run of invocations in binary mode, none of them past the timeout, that brings
exactly the bytes the frame still misses: every byte is handled as binary data and
nothing is left unread. -/
theorem serialEvents_complete (es : List (Nat × List Nat)) : ∀ s : State, Receiving s →
    (∀ e ∈ es, ¬ e.1 > (s.recvArrStartTimeMs + 5000) % 2 ^ 32) →
    ((arrivals es).length : Int) = bytesNeeded s →
    serialEvents es [] s = (feedArray (arrivals es) s, []) := by
  induction es with
  | nil =>
    intro s h _ hlen
    obtain ⟨h1, h2, h3, h4, h5⟩ := h
    simp only [bytesNeeded, arrivals, List.map_nil, List.flatten_nil, List.length_nil,
      Nat.cast_zero] at hlen
    omega
  | cons e es ih =>
    intro s h ht hlen
    obtain ⟨millis, arrived⟩ := e
    have harr : arrivals ((millis, arrived) :: es) = arrived ++ arrivals es := by
      simp [arrivals]
    rw [harr] at hlen ⊢
    simp only [List.length_append, Nat.cast_add] at hlen
    have hno : ¬ (s.receivingArrayFlag = true ∧
        millis > (s.recvArrStartTimeMs + 5000) % 2 ^ 32) := by
      intro hc
      exact ht (millis, arrived) (by simp) hc.2
    have hev : serialEvent millis ([] ++ arrived) s = (feedArray arrived s, []) := by
      simp only [serialEvent, hno, if_false, List.nil_append]
      exact serialLoop_receiving arrived 0 s h (by omega)
    simp only [serialEvents, hev]
    rw [feedArray_append]
    by_cases hlt : (arrived.length : Int) < bytesNeeded s
    · obtain ⟨r1, r2, r3⟩ := feedArray_receiving arrived s h hlt
      exact ih _ r1 (fun e he => by rw [r3]; exact ht e (by simp [he])) (by omega)
    · have hnil : arrivals es = [] := by
        have : (arrivals es).length = 0 := by omega
        exact List.length_eq_zero.1 this
      obtain ⟨c1, _, _⟩ := feedArray_complete arrived s h (by omega)
      rw [hnil]
      simp only [feedArray, List.foldl_nil]
      exact serialEvents_idle es _ c1 hnil

theorem pixelOf_cons (r g b : Nat) (rest : List Nat) (t : Nat) :
    pixelOf (r :: g :: b :: rest) (t + 1) = pixelOf rest t := by
  have e0 : 3 * (t + 1) = 3 * t + 3 := by ring
  have e1 : 3 * (t + 1) + 1 = 3 * t + 1 + 3 := by ring
  have e2 : 3 * (t + 1) + 2 = 3 * t + 2 + 3 := by ring
  simp only [pixelOf, e0, e1, e2, List.getD_cons_succ]

/-- The pixel array after a frame was written from index `i0` on: pixel `i0 + t` is the
`t`-th triple, the other pixels and the size of the array are unchanged. -/
theorem loadFrame_spec (d : CRGB) : ∀ (m : Nat) (bytes : List Nat) (arr : List CRGB)
    (i0 : Nat), bytes.length ≤ m →
    (loadFrame arr i0 bytes).length = arr.length ∧
    ∀ j : Nat, (loadFrame arr i0 bytes).getD j d =
      if i0 ≤ j ∧ j < i0 + bytes.length / 3 ∧ j < arr.length then pixelOf bytes (j - i0)
      else arr.getD j d := by
  intro m
  induction m with
  | zero =>
    intro bytes arr i0 h
    have : bytes = [] := List.length_eq_zero.1 (by omega)
    subst this
    refine ⟨rfl, fun j => ?_⟩
    rw [if_neg (by simp only [List.length_nil]; omega)]
    rfl
  | succ m ih =>
    intro bytes arr i0 h
    match bytes, h with
    | [], _ =>
      refine ⟨rfl, fun j => ?_⟩
      rw [if_neg (by simp only [List.length_nil]; omega)]
      rfl
    | [_], _ =>
      refine ⟨rfl, fun j => ?_⟩
      rw [if_neg (by simp only [List.length_cons, List.length_nil]; omega)]
      rfl
    | [_, _], _ =>
      refine ⟨rfl, fun j => ?_⟩
      rw [if_neg (by simp only [List.length_cons, List.length_nil]; omega)]
      rfl
    | r :: g :: b :: rest, h =>
      simp only [List.length_cons] at h
      obtain ⟨h1, h2⟩ := ih rest (arr.set i0 ⟨r, g, b⟩) (i0 + 1) (by omega)
      simp only [loadFrame, List.length_cons]
      refine ⟨by rw [h1, List.length_set], fun j => ?_⟩
      rw [h2 j]
      simp only [List.length_set]
      have hdiv : (rest.length + 1 + 1 + 1) / 3 = rest.length / 3 + 1 := by omega
      simp only [hdiv]
      by_cases hj : j = i0
      · subst hj
        have hc1 : ¬ (j + 1 ≤ j ∧ j < j + 1 + rest.length / 3 ∧ j < arr.length) := by omega
        rw [if_neg hc1]
        by_cases hl : j < arr.length
        · have hc2 : j ≤ j ∧ j < j + (rest.length / 3 + 1) ∧ j < arr.length :=
            ⟨le_refl _, by omega, hl⟩
          rw [if_pos hc2, List.getD_eq_getElem?_getD, List.getElem?_set_self hl]
          simp [pixelOf]
        · have hc2 : ¬ (j ≤ j ∧ j < j + (rest.length / 3 + 1) ∧ j < arr.length) := by omega
          have e1 : (arr.set j ⟨r, g, b⟩)[j]? = none :=
            List.getElem?_eq_none (by rw [List.length_set]; omega)
          have e2 : arr[j]? = none := List.getElem?_eq_none (by omega)
          rw [if_neg hc2, List.getD_eq_getElem?_getD, List.getD_eq_getElem?_getD, e1, e2]
      · have hset : (arr.set i0 ⟨r, g, b⟩).getD j d = arr.getD j d := by
          rw [List.getD_eq_getElem?_getD, List.getD_eq_getElem?_getD,
            List.getElem?_set_ne (fun h => hj h.symm)]
        rw [hset]
        by_cases hc : i0 + 1 ≤ j ∧ j < i0 + 1 + rest.length / 3 ∧ j < arr.length
        · have hc2 : i0 ≤ j ∧ j < i0 + (rest.length / 3 + 1) ∧ j < arr.length := by omega
          obtain ⟨t, ht⟩ : ∃ t, j - i0 = t + 1 := ⟨j - i0 - 1, by omega⟩
          have ht' : j - (i0 + 1) = t := by omega
          rw [if_pos hc, if_pos hc2, ht, ht', pixelOf_cons]
        · have hc2 : ¬ (i0 ≤ j ∧ j < i0 + (rest.length / 3 + 1) ∧ j < arr.length) := by
            omega
          rw [if_neg hc, if_neg hc2]

/-- The three bytes of one pixel, from byte counter 0. -/
theorem feedArray_pixel (r g b : Nat) (s : State) (hord : s.recvArrOrd = 0)
    (hr : r < 256) (hg : g < 256) (hb : b < 256) :
    feedArray [r, g, b] s =
      if s.receivingArrayIdx + 1 ≥ s.stripNumberLeds then
        writePrompt { s with recvCRGBVal := ⟨r, g, b⟩
                             crgbLedsArr := s.crgbLedsArr.set s.receivingArrayIdx.toNat ⟨r, g, b⟩
                             receivingArrayFlag := false, receivingArrayIdx := 0 }
      else
        { s with recvCRGBVal := ⟨r, g, b⟩
                 crgbLedsArr := s.crgbLedsArr.set s.receivingArrayIdx.toNat ⟨r, g, b⟩
                 receivingArrayIdx := s.receivingArrayIdx + 1 } := by
  have e1 : r % 256 = r := Nat.mod_eq_of_lt hr
  have e2 : g % 256 = g := Nat.mod_eq_of_lt hg
  have e3 : b % 256 = b := Nat.mod_eq_of_lt hb
  cases s
  simp only at hord
  subst hord
  simp only [feedArray, List.foldl_cons, List.foldl_nil, e1, e2, e3, recvArrayByte,
    CRGB.setRaw]
  norm_num

/-- A whole frame, from byte counter 0 and an index with `k + 1` pixels to go. -/
theorem feedArray_frame : ∀ (k : Nat) (bytes : List Nat) (s : State),
    s.recvArrOrd = 0 → 0 ≤ s.receivingArrayIdx →
    s.receivingArrayIdx + ((k : Int) + 1) = s.stripNumberLeds →
    bytes.length = 3 * (k + 1) → (∀ b ∈ bytes, b < 256) →
    ∃ cur : CRGB, feedArray bytes s =
      writePrompt { s with recvCRGBVal := cur
                           crgbLedsArr := loadFrame s.crgbLedsArr s.receivingArrayIdx.toNat bytes
                           receivingArrayFlag := false, receivingArrayIdx := 0 } := by
  intro k
  induction k with
  | zero =>
    intro bytes s hord hidx hn hlen hb
    match bytes, hlen, hb with
    | [r, g, b], _, hb =>
      have hlast : s.receivingArrayIdx + 1 ≥ s.stripNumberLeds := by
        simp only [Nat.cast_zero] at hn; omega
      have hp := feedArray_pixel r g b s hord (hb r (by simp)) (hb g (by simp))
        (hb b (by simp))
      rw [if_pos hlast] at hp
      exact ⟨⟨r, g, b⟩, by rw [hp]; rfl⟩
  | succ k ih =>
    intro bytes s hord hidx hn hlen hb
    match bytes, hlen, hb with
    | r :: g :: b :: rest, hlen, hb =>
      have hmore : ¬ (s.receivingArrayIdx + 1 ≥ s.stripNumberLeds) := by
        simp only [Nat.cast_add, Nat.cast_one] at hn; omega
      have hp := feedArray_pixel r g b s hord (hb r (by simp)) (hb g (by simp))
        (hb b (by simp))
      rw [if_neg hmore] at hp
      have happ : feedArray (r :: g :: b :: rest) s = feedArray rest (feedArray [r, g, b] s) :=
        feedArray_append [r, g, b] rest s
      have hnat : (s.receivingArrayIdx + 1).toNat = s.receivingArrayIdx.toNat + 1 := by omega
      obtain ⟨cur, hrest⟩ := ih rest (feedArray [r, g, b] s) (by rw [hp]; exact hord)
        (by rw [hp]; show 0 ≤ s.receivingArrayIdx + 1; omega)
        (by rw [hp]; show s.receivingArrayIdx + 1 + ((k : Int) + 1) = s.stripNumberLeds
            simp only [Nat.cast_add, Nat.cast_one] at hn; omega)
        (by simp only [List.length_cons] at hlen; omega)
        (fun x hx => hb x (by simp [hx]))
      refine ⟨cur, ?_⟩
      rw [happ, hrest, hp]
      simp only [loadFrame, hnat]

theorem processCommand_A (m : Nat) (s : State) :
    processCommand m (bytesOf "A") s =
      { s with cmdLog := s.cmdLog ++ [bytesOf "A"], receivingArrayIdx := 0
               recvArrStartTimeMs := m, receivingArrayFlag := true } := by
  have h : bytesOf "A" = [65] := by decide
  simp [h, processCommand, charAt, skipSpaces]

theorem hexVal_hexChar : ∀ d : Nat, d < 16 → hexVal (hexChar d) = some d := by
  decide

/-- The six digits `R` replies for a 24-bit colour are a colour token for that colour. -/
theorem stringToCRGB_sprintf06lX (v : Nat) (hv : v < 16777216) :
    stringToCRGB (sprintf06lX v) = CRGB.ofCode v := by
  have h5 := hexVal_hexChar (v / 1048576 % 16) (Nat.mod_lt _ (by omega))
  have h4 := hexVal_hexChar (v / 65536 % 16) (Nat.mod_lt _ (by omega))
  have h3 := hexVal_hexChar (v / 4096 % 16) (Nat.mod_lt _ (by omega))
  have h2 := hexVal_hexChar (v / 256 % 16) (Nat.mod_lt _ (by omega))
  have h1 := hexVal_hexChar (v / 16 % 16) (Nat.mod_lt _ (by omega))
  have h0 := hexVal_hexChar (v % 16) (Nat.mod_lt _ (by omega))
  have htok : IsHexToken (sprintf06lX v) := by
    refine ⟨by simp [sprintf06lX], by simp [sprintf06lX], ?_⟩
    intro c hc
    simp only [sprintf06lX, List.mem_cons, List.mem_singleton, List.not_mem_nil,
      or_false] at hc
    rcases hc with rfl | rfl | rfl | rfl | rfl | rfl <;> simp [*]
  have hval : hexValue (sprintf06lX v) = v := by
    simp only [hexValue, sprintf06lX, List.foldl_cons, List.foldl_nil, h0, h1, h2, h3, h4, h5,
      Option.getD_some]
    omega
  rw [stringToCRGB_hexToken _ htok, hval]

theorem pixelOf_code (bytes : List Nat) (hb : ∀ b ∈ bytes, b < 256) (i : Nat)
    (hi : 3 * i + 2 < bytes.length) :
    CRGB.ofCode (pixelOf bytes i).code24 = pixelOf bytes i := by
  have hget : ∀ j, j < bytes.length → bytes.getD j 0 < 256 := by
    intro j hj
    rw [List.getD_eq_getElem?_getD, List.getElem?_eq_getElem hj]
    exact hb _ (List.getElem_mem hj)
  have h0 := hget (3 * i) (by omega)
  have h1 := hget (3 * i + 1) (by omega)
  have h2 := hget (3 * i + 2) (by omega)
  simp only [pixelOf, CRGB.code24, CRGB.ofCode, CRGB.mk.injEq]
  omega

/-- Binary frame load when the byte counter is 0 at `A`. On a strip of `n` LEDs,
`1 ≤ n ≤ 300`, from a state whose per-pixel byte counter is 0: after `A` is dispatched at
time `m`, handler invocations that are not past the timeout and together bring fewer than
`3n` bytes leave binary mode on; invocations that bring exactly the `3n` bytes `b` read
them all, end binary mode, reset the index and the counter to 0, write the prompt, record
no error, leave pixel `i < n` equal to `(b[3i], b[3i+1], b[3i+2])`, which is the colour
`P i RRGGBB` stores for the hexadecimal token of that triple, and leave the pixels at
`i ≥ n` unchanged. -/
theorem sendAll_frame_load (s : State) (m : Nat) (es es' : List (Nat × List Nat))
    (bytes : List Nat) (hord : s.recvArrOrd = 0)
    (hn : 1 ≤ s.stripNumberLeds ∧ s.stripNumberLeds ≤ 300)
    (hlen : s.crgbLedsArr.length = 300)
    (hbytes : (bytes.length : Int) = 3 * s.stripNumberLeds) (hb : ∀ b ∈ bytes, b < 256)
    (hes : arrivals es = bytes) (ht : ∀ e ∈ es, ¬ e.1 > (m + 5000) % 2 ^ 32)
    (hes' : ((arrivals es').length : Int) < 3 * s.stripNumberLeds)
    (ht' : ∀ e ∈ es', ¬ e.1 > (m + 5000) % 2 ^ 32) :
    let sA := processCommand m (bytesOf "A") s
    let r := serialEvents es [] sA
    (serialEvents es' [] sA).1.receivingArrayFlag = true ∧
    r.2 = [] ∧ r.1.receivingArrayFlag = false ∧ r.1.receivingArrayIdx = 0 ∧
    r.1.recvArrOrd = 0 ∧
    r.1.out = s.out ++ (if s.serialEchoFlag then echoPromptStr else [promptChar]) ∧
    r.1.errLog = s.errLog ∧
    (∀ i : Nat, (i : Int) < s.stripNumberLeds →
      r.1.crgbLedsArr.getD i Black = pixelOf bytes i ∧
      r.1.crgbLedsArr.getD i Black = stringToCRGB (sprintf06lX (pixelOf bytes i).code24)) ∧
    (∀ i : Nat, s.stripNumberLeds ≤ (i : Int) →
      r.1.crgbLedsArr.getD i Black = s.crgbLedsArr.getD i Black) := by
  intro sA r
  have hsA : sA = { s with cmdLog := s.cmdLog ++ [bytesOf "A"], receivingArrayIdx := 0
                           recvArrStartTimeMs := m, receivingArrayFlag := true } :=
    processCommand_A m s
  have hrecv : Receiving sA := by
    rw [hsA]
    exact ⟨rfl, by rw [hord], by rw [hord]; omega, le_refl _, by show (0 : Int) < s.stripNumberLeds; omega⟩
  have hneed : bytesNeeded sA = 3 * s.stripNumberLeds := by
    rw [hsA]; simp only [bytesNeeded, hord]; omega
  have hstart : sA.recvArrStartTimeMs = m := by rw [hsA]
  obtain ⟨k, hk⟩ : ∃ k : Nat, s.stripNumberLeds = (k : Int) + 1 :=
    ⟨(s.stripNumberLeds - 1).toNat, by omega⟩
  -- fewer bytes: binary mode stays on
  have hpart : (serialEvents es' [] sA).1.receivingArrayFlag = true := by
    rw [serialEvents_receiving es' sA hrecv (by rw [hstart]; exact ht')
      (by rw [hneed]; exact hes')]
    exact (feedArray_receiving _ sA hrecv (by rw [hneed]; exact hes')).1.1
  -- the whole frame
  have hr : r = (feedArray bytes sA, []) := by
    show serialEvents es [] sA = _
    rw [serialEvents_complete es sA hrecv (by rw [hstart]; exact ht)
      (by rw [hneed, hes]; exact hbytes), hes]
  obtain ⟨cur, hframe⟩ := feedArray_frame k bytes sA (by rw [hsA]; exact hord)
    (by rw [hsA]) (by rw [hsA]; show (0 : Int) + ((k : Int) + 1) = s.stripNumberLeds; omega)
    (by omega) hb
  have hidx0 : sA.receivingArrayIdx.toNat = 0 := by rw [hsA]; rfl
  rw [hidx0] at hframe
  obtain ⟨l1, l2⟩ := loadFrame_spec Black bytes.length bytes sA.crgbLedsArr 0 (le_refl _)
  have harr : (feedArray bytes sA).crgbLedsArr = loadFrame sA.crgbLedsArr 0 bytes := by
    rw [hframe]
    cases he : sA.serialEchoFlag <;>
      simp [writePrompt, writeMsgToSerial, writeCharToSerial, he]
  have hsAarr : sA.crgbLedsArr = s.crgbLedsArr := by rw [hsA]
  have hpix : ∀ i : Nat, (i : Int) < s.stripNumberLeds →
      (feedArray bytes sA).crgbLedsArr.getD i Black = pixelOf bytes i := by
    intro i hi
    rw [harr, l2 i, hsAarr]
    have hc : 0 ≤ i ∧ i < 0 + bytes.length / 3 ∧ i < s.crgbLedsArr.length := by omega
    rw [if_pos hc]
    simp
  rw [hr]
  refine ⟨hpart, rfl, ?_, ?_, ?_, ?_, ?_, ?_, ?_⟩
  · rw [hframe]
    cases he : sA.serialEchoFlag <;>
      simp [writePrompt, writeMsgToSerial, writeCharToSerial, he]
  · rw [hframe]
    cases he : sA.serialEchoFlag <;>
      simp [writePrompt, writeMsgToSerial, writeCharToSerial, he]
  · rw [hframe]
    cases he : sA.serialEchoFlag <;>
      simp [writePrompt, writeMsgToSerial, writeCharToSerial, he, hsA, hord]
  · rw [hframe, hsA]
    cases he : s.serialEchoFlag <;>
      simp [writePrompt, writeMsgToSerial, writeCharToSerial, he]
  · rw [hframe, hsA]
    cases he : s.serialEchoFlag <;>
      simp [writePrompt, writeMsgToSerial, writeCharToSerial, he]
  · intro i hi
    refine ⟨hpix i hi, ?_⟩
    have hcode : (pixelOf bytes i).code24 < 16777216 := by
      simp only [CRGB.code24]; omega
    rw [stringToCRGB_sprintf06lX _ hcode, pixelOf_code bytes hb i (by omega)]
    exact hpix i hi
  · intro i hi
    show (feedArray bytes sA).crgbLedsArr.getD i Black = _
    rw [harr, l2 i, hsAarr]
    have hc : ¬ (0 ≤ i ∧ i < 0 + bytes.length / 3 ∧ i < s.crgbLedsArr.length) := by omega
    rw [if_neg hc]

/-- The frame load on the 8-LED state after `setup()`: 24 bytes in two invocations. -/
theorem sendAll_frame_load_witness :
    (serialEvents [(10, frame24.take 10), (20, frame24.drop 10)] []
      (processCommand 0 (bytesOf "A") (setup initState))).1.crgbLedsArr.getD 7 Black =
      ⟨54, 55, 56⟩ :=
  ((sendAll_frame_load (setup initState) 0 [(10, frame24.take 10), (20, frame24.drop 10)]
    [(10, frame24.take 10)] frame24 (by decide) (by decide) (by decide) (by decide)
    (by decide) (by decide) (by decide) (by decide) (by decide)).2.2.2.2.2.2.2.1 7
    (by decide)).1

/-! ### Case analysis of a dispatch -/

/-- Whatever holds of each of the thirteen outcomes of the `switch` of `processCommand`
holds of the dispatch. -/
theorem processCommand_cases (P : State → Prop) (m : Nat) (line : List Nat) (s : State)
    (hC : cmdOf line = 67 →
      P (configureLeds (paramsOf line) { s with cmdLog := s.cmdLog ++ [line] }))
    (hD : cmdOf line = 68 → P (describeLeds { s with cmdLog := s.cmdLog ++ [line] }))
    (hM : cmdOf line = 77 → P (queryMaxNumLeds { s with cmdLog := s.cmdLog ++ [line] }))
    (hP : cmdOf line = 80 →
      P (setPixelColor (paramsOf line) { s with cmdLog := s.cmdLog ++ [line] }))
    (hR : cmdOf line = 82 →
      P (queryPixelColor (paramsOf line) { s with cmdLog := s.cmdLog ++ [line] }))
    (hF : cmdOf line = 70 →
      P (fillStripColor (paramsOf line) { s with cmdLog := s.cmdLog ++ [line] }))
    (hA : cmdOf line = 65 →
      P { s with cmdLog := s.cmdLog ++ [line], receivingArrayIdx := 0
                 recvArrStartTimeMs := m, receivingArrayFlag := true })
    (hS : cmdOf line = 83 →
      P (showStripColor (paramsOf line) { s with cmdLog := s.cmdLog ++ [line] }))
    (hB : cmdOf line = 66 →
      P (setBrightness (paramsOf line) { s with cmdLog := s.cmdLog ++ [line] }))
    (hE : cmdOf line = 69 →
      P (setSerialEcho (paramsOf line) { s with cmdLog := s.cmdLog ++ [line] }))
    (hL : cmdOf line = 76 → P (queryLastErrorMsg { s with cmdLog := s.cmdLog ++ [line] }))
    (hV : cmdOf line = 86 →
      P (writeMsgToSerial VERSION_STR
        (if s.serialEchoFlag
         then writeMsgToSerial lnFeedStr { s with cmdLog := s.cmdLog ++ [line] }
         else { s with cmdLog := s.cmdLog ++ [line] })))
    (hX : cmdOf line ∉ [67, 68, 77, 80, 82, 70, 65, 83, 66, 69, 76, 86] →
      P (sendErrorResponse (bytesOf "Unrecognized command")
        { s with cmdLog := s.cmdLog ++ [line] })) :
    P (processCommand m line s) := by
  unfold processCommand
  simp only []
  have hc : (if 97 ≤ charAt line 0 ∧ charAt line 0 ≤ 122 then charAt line 0 - 32
    else charAt line 0) = cmdOf line := rfl
  have hp : List.drop (1 + skipSpaces (List.drop 1 line)) line = paramsOf line := rfl
  rw [hc, hp]
  by_cases h0 : cmdOf line = 67
  · rw [if_pos h0]; exact hC h0
  rw [if_neg h0]
  by_cases h1 : cmdOf line = 68
  · rw [if_pos h1]; exact hD h1
  rw [if_neg h1]
  by_cases h2 : cmdOf line = 77
  · rw [if_pos h2]; exact hM h2
  rw [if_neg h2]
  by_cases h3 : cmdOf line = 80
  · rw [if_pos h3]; exact hP h3
  rw [if_neg h3]
  by_cases h4 : cmdOf line = 82
  · rw [if_pos h4]; exact hR h4
  rw [if_neg h4]
  by_cases h5 : cmdOf line = 70
  · rw [if_pos h5]; exact hF h5
  rw [if_neg h5]
  by_cases h6 : cmdOf line = 65
  · rw [if_pos h6]; exact hA h6
  rw [if_neg h6]
  by_cases h7 : cmdOf line = 83
  · rw [if_pos h7]; exact hS h7
  rw [if_neg h7]
  by_cases h8 : cmdOf line = 66
  · rw [if_pos h8]; exact hB h8
  rw [if_neg h8]
  by_cases h9 : cmdOf line = 69
  · rw [if_pos h9]; exact hE h9
  rw [if_neg h9]
  by_cases h10 : cmdOf line = 76
  · rw [if_pos h10]; exact hL h10
  rw [if_neg h10]
  by_cases h11 : cmdOf line = 86
  · rw [if_pos h11]; exact hV h11
  rw [if_neg h11]
  exact hX (by simp [h0, h1, h2, h3, h4, h5, h6, h7, h8, h9, h10, h11])

/-! ### C12: how a line selects its command -/

theorem sendErrorResponse_ignoresCmdLog (msg : List Nat) :
    IgnoresCmdLog (sendErrorResponse msg) := by
  intro s log
  cases he : s.serialEchoFlag <;>
    simp [sendErrorResponse, writeMsgToSerial, writeCharToSerial, he]

theorem configureLeds_ignoresCmdLog (p : List Nat) : IgnoresCmdLog (configureLeds p) := by
  intro s log
  unfold configureLeds
  dsimp only
  split_ifs <;> first
    | rfl
    | exact sendErrorResponse_ignoresCmdLog _ s log

theorem setPixelColor_ignoresCmdLog (p : List Nat) : IgnoresCmdLog (setPixelColor p) := by
  intro s log
  unfold setPixelColor
  dsimp only
  split_ifs <;> first
    | rfl
    | exact sendErrorResponse_ignoresCmdLog _ s log

theorem queryPixelColor_ignoresCmdLog (p : List Nat) : IgnoresCmdLog (queryPixelColor p) := by
  intro s log
  unfold queryPixelColor
  dsimp only
  split_ifs <;> first
    | rfl
    | exact sendErrorResponse_ignoresCmdLog _ s log

theorem fillStripColor_ignoresCmdLog (p : List Nat) : IgnoresCmdLog (fillStripColor p) := by
  intro s log
  unfold fillStripColor
  dsimp only
  split_ifs <;> first
    | rfl
    | exact sendErrorResponse_ignoresCmdLog _ s log

theorem showStripColor_ignoresCmdLog (p : List Nat) : IgnoresCmdLog (showStripColor p) := by
  intro s log
  unfold showStripColor
  dsimp only
  split_ifs <;> first
    | rfl
    | exact sendErrorResponse_ignoresCmdLog _ s log

theorem setBrightness_ignoresCmdLog (p : List Nat) : IgnoresCmdLog (setBrightness p) := by
  intro s log
  unfold setBrightness
  dsimp only
  split_ifs <;> rfl

theorem setSerialEcho_ignoresCmdLog (p : List Nat) : IgnoresCmdLog (setSerialEcho p) := by
  intro s log
  cases he : s.serialEchoFlag <;>
    (simp only [setSerialEcho, he, sendErrorResponse, writeMsgToSerial, writeCharToSerial]
     split_ifs <;> simp_all)

theorem describeLeds_ignoresCmdLog : IgnoresCmdLog describeLeds := by
  intro s log
  cases he : s.serialEchoFlag <;> simp [describeLeds, writeMsgToSerial, he]

theorem queryMaxNumLeds_ignoresCmdLog : IgnoresCmdLog queryMaxNumLeds := by
  intro s log
  cases he : s.serialEchoFlag <;> simp [queryMaxNumLeds, writeMsgToSerial, he]

theorem queryLastErrorMsg_ignoresCmdLog : IgnoresCmdLog queryLastErrorMsg := by
  intro s log
  cases he : s.serialEchoFlag <;> simp [queryLastErrorMsg, writeMsgToSerial, he]

theorem withoutCmdLog_congr (f : State → State) (hf : IgnoresCmdLog f) (s : State)
    (a b : List (List Nat)) :
    withoutCmdLog (f { s with cmdLog := a }) = withoutCmdLog (f { s with cmdLog := b }) := by
  rw [hf s a, hf s b]
  rfl

/-- Two lines with the same command code and the same parameter string are dispatched
alike: the states after differ in nothing but the ghost log of the lines. -/
theorem processCommand_congr (m : Nat) (l1 l2 : List Nat) (s : State)
    (hc : cmdOf l1 = cmdOf l2) (hp : paramsOf l1 = paramsOf l2) :
    withoutCmdLog (processCommand m l1 s) = withoutCmdLog (processCommand m l2 s) := by
  unfold processCommand
  simp only []
  have hc1 : (if 97 ≤ charAt l1 0 ∧ charAt l1 0 ≤ 122 then charAt l1 0 - 32
    else charAt l1 0) = cmdOf l2 := hc
  have hp1 : List.drop (1 + skipSpaces (List.drop 1 l1)) l1 = paramsOf l2 := hp
  have hc2 : (if 97 ≤ charAt l2 0 ∧ charAt l2 0 ≤ 122 then charAt l2 0 - 32
    else charAt l2 0) = cmdOf l2 := rfl
  have hp2 : List.drop (1 + skipSpaces (List.drop 1 l2)) l2 = paramsOf l2 := rfl
  rw [hc1, hp1, hc2, hp2]
  generalize cmdOf l2 = cmdByte
  generalize paramsOf l2 = paramsStr
  by_cases h0 : cmdByte = 67
  · simp only [if_pos h0]; exact withoutCmdLog_congr _ (configureLeds_ignoresCmdLog _) s _ _
  simp only [if_neg h0]
  by_cases h1 : cmdByte = 68
  · simp only [if_pos h1]; exact withoutCmdLog_congr _ describeLeds_ignoresCmdLog s _ _
  simp only [if_neg h1]
  by_cases h2 : cmdByte = 77
  · simp only [if_pos h2]; exact withoutCmdLog_congr _ queryMaxNumLeds_ignoresCmdLog s _ _
  simp only [if_neg h2]
  by_cases h3 : cmdByte = 80
  · simp only [if_pos h3]; exact withoutCmdLog_congr _ (setPixelColor_ignoresCmdLog _) s _ _
  simp only [if_neg h3]
  by_cases h4 : cmdByte = 82
  · simp only [if_pos h4]; exact withoutCmdLog_congr _ (queryPixelColor_ignoresCmdLog _) s _ _
  simp only [if_neg h4]
  by_cases h5 : cmdByte = 70
  · simp only [if_pos h5]; exact withoutCmdLog_congr _ (fillStripColor_ignoresCmdLog _) s _ _
  simp only [if_neg h5]
  by_cases h6 : cmdByte = 65
  · simp only [if_pos h6]; rfl
  simp only [if_neg h6]
  by_cases h7 : cmdByte = 83
  · simp only [if_pos h7]; exact withoutCmdLog_congr _ (showStripColor_ignoresCmdLog _) s _ _
  simp only [if_neg h7]
  by_cases h8 : cmdByte = 66
  · simp only [if_pos h8]; exact withoutCmdLog_congr _ (setBrightness_ignoresCmdLog _) s _ _
  simp only [if_neg h8]
  by_cases h9 : cmdByte = 69
  · simp only [if_pos h9]; exact withoutCmdLog_congr _ (setSerialEcho_ignoresCmdLog _) s _ _
  simp only [if_neg h9]
  by_cases h10 : cmdByte = 76
  · simp only [if_pos h10]; exact withoutCmdLog_congr _ queryLastErrorMsg_ignoresCmdLog s _ _
  simp only [if_neg h10]
  by_cases h11 : cmdByte = 86
  · simp only [if_pos h11]
    cases he : s.serialEchoFlag <;> simp [withoutCmdLog, writeMsgToSerial, he]
  simp only [if_neg h11]
  exact withoutCmdLog_congr _ (sendErrorResponse_ignoresCmdLog _) s _ _

theorem cmdOf_cons (c : Nat) (rest : List Nat) : cmdOf (c :: rest) = cmdOf [c] := by
  simp [cmdOf, charAt]

theorem cmdOf_fold (c : Nat) : cmdOf [cmdOf [c]] = cmdOf [c] := by
  simp only [cmdOf, charAt, List.getD_cons_zero]
  split_ifs <;> omega

theorem paramsOf_cons (c : Nat) (rest : List Nat) :
    paramsOf (c :: rest) = rest.drop (skipSpaces rest) := by
  simp [paramsOf, Nat.add_comm 1]

theorem paramsOf_spaces (c : Nat) (k : Nat) (params : List Nat) :
    paramsOf (c :: (List.replicate k 32 ++ params)) = paramsOf (c :: params) := by
  rw [paramsOf_cons, paramsOf_cons]
  induction k with
  | zero => simp
  | succ k ih => simpa [List.replicate_succ, skipSpaces] using ih

/-- The dispatch table of `processCommand`: each command code runs its operation on the
parameter string of the line. -/
theorem processCommand_table (m : Nat) (line : List Nat) (s : State) :
    (cmdOf line = 67 →
      processCommand m line s =
        configureLeds (paramsOf line) { s with cmdLog := s.cmdLog ++ [line] }) ∧
    (cmdOf line = 68 →
      processCommand m line s =
        describeLeds { s with cmdLog := s.cmdLog ++ [line] }) ∧
    (cmdOf line = 77 →
      processCommand m line s =
        queryMaxNumLeds { s with cmdLog := s.cmdLog ++ [line] }) ∧
    (cmdOf line = 80 →
      processCommand m line s =
        setPixelColor (paramsOf line) { s with cmdLog := s.cmdLog ++ [line] }) ∧
    (cmdOf line = 82 →
      processCommand m line s =
        queryPixelColor (paramsOf line) { s with cmdLog := s.cmdLog ++ [line] }) ∧
    (cmdOf line = 70 →
      processCommand m line s =
        fillStripColor (paramsOf line) { s with cmdLog := s.cmdLog ++ [line] }) ∧
    (cmdOf line = 65 →
      processCommand m line s =
        { s with cmdLog := s.cmdLog ++ [line], receivingArrayIdx := 0
                 recvArrStartTimeMs := m, receivingArrayFlag := true }) ∧
    (cmdOf line = 83 →
      processCommand m line s =
        showStripColor (paramsOf line) { s with cmdLog := s.cmdLog ++ [line] }) ∧
    (cmdOf line = 66 →
      processCommand m line s =
        setBrightness (paramsOf line) { s with cmdLog := s.cmdLog ++ [line] }) ∧
    (cmdOf line = 69 →
      processCommand m line s =
        setSerialEcho (paramsOf line) { s with cmdLog := s.cmdLog ++ [line] }) ∧
    (cmdOf line = 76 →
      processCommand m line s =
        queryLastErrorMsg { s with cmdLog := s.cmdLog ++ [line] }) ∧
    (cmdOf line = 86 →
      processCommand m line s =
        writeMsgToSerial VERSION_STR (if s.serialEchoFlag then writeMsgToSerial lnFeedStr
          { s with cmdLog := s.cmdLog ++ [line] } else { s with cmdLog := s.cmdLog ++ [line] })) ∧
    (cmdOf line ∉ [67, 68, 77, 80, 82, 70, 65, 83, 66, 69, 76, 86] →
      processCommand m line s =
        sendErrorResponse (bytesOf "Unrecognized command")
          { s with cmdLog := s.cmdLog ++ [line] }) := by
  refine ⟨?_, ?_, ?_, ?_, ?_, ?_, ?_, ?_, ?_, ?_, ?_, ?_, ?_⟩
  · intro hc
    apply processCommand_cases (fun r => r =
      configureLeds (paramsOf line) { s with cmdLog := s.cmdLog ++ [line] }) <;> intro h
    all_goals first
      | (rw [hc] at h; exact absurd h (by decide))
      | rfl
  · intro hc
    apply processCommand_cases (fun r => r =
      describeLeds { s with cmdLog := s.cmdLog ++ [line] }) <;> intro h
    all_goals first
      | (rw [hc] at h; exact absurd h (by decide))
      | rfl
  · intro hc
    apply processCommand_cases (fun r => r =
      queryMaxNumLeds { s with cmdLog := s.cmdLog ++ [line] }) <;> intro h
    all_goals first
      | (rw [hc] at h; exact absurd h (by decide))
      | rfl
  · intro hc
    apply processCommand_cases (fun r => r =
      setPixelColor (paramsOf line) { s with cmdLog := s.cmdLog ++ [line] }) <;> intro h
    all_goals first
      | (rw [hc] at h; exact absurd h (by decide))
      | rfl
  · intro hc
    apply processCommand_cases (fun r => r =
      queryPixelColor (paramsOf line) { s with cmdLog := s.cmdLog ++ [line] }) <;> intro h
    all_goals first
      | (rw [hc] at h; exact absurd h (by decide))
      | rfl
  · intro hc
    apply processCommand_cases (fun r => r =
      fillStripColor (paramsOf line) { s with cmdLog := s.cmdLog ++ [line] }) <;> intro h
    all_goals first
      | (rw [hc] at h; exact absurd h (by decide))
      | rfl
  · intro hc
    apply processCommand_cases (fun r => r =
      { s with cmdLog := s.cmdLog ++ [line], receivingArrayIdx := 0
               recvArrStartTimeMs := m, receivingArrayFlag := true }) <;> intro h
    all_goals first
      | (rw [hc] at h; exact absurd h (by decide))
      | rfl
  · intro hc
    apply processCommand_cases (fun r => r =
      showStripColor (paramsOf line) { s with cmdLog := s.cmdLog ++ [line] }) <;> intro h
    all_goals first
      | (rw [hc] at h; exact absurd h (by decide))
      | rfl
  · intro hc
    apply processCommand_cases (fun r => r =
      setBrightness (paramsOf line) { s with cmdLog := s.cmdLog ++ [line] }) <;> intro h
    all_goals first
      | (rw [hc] at h; exact absurd h (by decide))
      | rfl
  · intro hc
    apply processCommand_cases (fun r => r =
      setSerialEcho (paramsOf line) { s with cmdLog := s.cmdLog ++ [line] }) <;> intro h
    all_goals first
      | (rw [hc] at h; exact absurd h (by decide))
      | rfl
  · intro hc
    apply processCommand_cases (fun r => r =
      queryLastErrorMsg { s with cmdLog := s.cmdLog ++ [line] }) <;> intro h
    all_goals first
      | (rw [hc] at h; exact absurd h (by decide))
      | rfl
  · intro hc
    apply processCommand_cases (fun r => r =
      writeMsgToSerial VERSION_STR (if s.serialEchoFlag then writeMsgToSerial lnFeedStr
        { s with cmdLog := s.cmdLog ++ [line] } else { s with cmdLog := s.cmdLog ++ [line] })) <;> intro h
    all_goals first
      | (rw [hc] at h; exact absurd h (by decide))
      | rfl
  · intro hc
    apply processCommand_cases (fun r => r =
      sendErrorResponse (bytesOf "Unrecognized command")
        { s with cmdLog := s.cmdLog ++ [line] }) <;> intro h
    all_goals first
      | (exfalso; apply hc; rw [h]; decide)
      | rfl

theorem paramsOf_dropWhile (c : Nat) (rest : List Nat) :
    paramsOf (c :: rest) = rest.dropWhile (fun x => x == 32) := by
  rw [paramsOf_cons]
  induction rest with
  | nil => rfl
  | cons x xs ih =>
    by_cases hx : x = 32
    · simp [skipSpaces, List.dropWhile_cons, hx, ih]
    · simp [skipSpaces, List.dropWhile_cons, hx]


/-- C12 as stated fails: the line ` D`, with a leading space, is not dispatched as `D`;
its first character is the space, which is no command, so it records
`Unrecognized command` and replies the error signal, while `D` describes the strip. -/
theorem C12_leading_space_not_skipped :
    (processCommand 0 (bytesOf " D") (setup initState)).errLog =
      [bytesOf "Unrecognized command"] ∧
    (processCommand 0 (bytesOf " D") (setup initState)).out =
      (setup initState).out ++ [errorChar] ∧
    (processCommand 0 (bytesOf "D") (setup initState)).errLog = [] ∧
    (processCommand 0 (bytesOf "D") (setup initState)).out =
      (setup initState).out ++ bytesOf "NumLEDs=8 ClrOrder=GRB LEDPin=3 Bright=20" := by
  decide

/-- C12, amended. Command selection: for every command line the operation executed is
selected by the first character of the line, lower-case letters folded to upper case, and
the parameter string it is run on is the remainder after that character with the
separating spaces skipped: `C` Configure, `D` Describe, `M` Max LEDs, `P` SetPixel, `R`
GetPixel, `F` Fill, `A` SendAll, `S` Show, `B` Brightness, `E` Echo, `L` Last Error, `V`
Version; any other first character, and the empty line, is an unrecognized command.
Leading spaces are not skipped: a line that starts with a space is an unrecognized
command. So a lower-case command letter is dispatched as the upper-case one, any number of
separating spaces is skipped, and two lines with the same folded first character and the
same parameter string are dispatched alike. -/
theorem C12_command_selection (m : Nat) (s : State) (c k : Nat) (rest params : List Nat) :
    (c = 67 ∨ c = 99 →
      processCommand m (c :: rest) s =
        configureLeds (rest.dropWhile (fun x => x == 32))
          { s with cmdLog := s.cmdLog ++ [c :: rest] }) ∧
    (c = 68 ∨ c = 100 →
      processCommand m (c :: rest) s =
        describeLeds { s with cmdLog := s.cmdLog ++ [c :: rest] }) ∧
    (c = 77 ∨ c = 109 →
      processCommand m (c :: rest) s =
        queryMaxNumLeds { s with cmdLog := s.cmdLog ++ [c :: rest] }) ∧
    (c = 80 ∨ c = 112 →
      processCommand m (c :: rest) s =
        setPixelColor (rest.dropWhile (fun x => x == 32))
          { s with cmdLog := s.cmdLog ++ [c :: rest] }) ∧
    (c = 82 ∨ c = 114 →
      processCommand m (c :: rest) s =
        queryPixelColor (rest.dropWhile (fun x => x == 32))
          { s with cmdLog := s.cmdLog ++ [c :: rest] }) ∧
    (c = 70 ∨ c = 102 →
      processCommand m (c :: rest) s =
        fillStripColor (rest.dropWhile (fun x => x == 32))
          { s with cmdLog := s.cmdLog ++ [c :: rest] }) ∧
    (c = 65 ∨ c = 97 →
      processCommand m (c :: rest) s =
        { s with cmdLog := s.cmdLog ++ [c :: rest], receivingArrayIdx := 0
                 recvArrStartTimeMs := m, receivingArrayFlag := true }) ∧
    (c = 83 ∨ c = 115 →
      processCommand m (c :: rest) s =
        showStripColor (rest.dropWhile (fun x => x == 32))
          { s with cmdLog := s.cmdLog ++ [c :: rest] }) ∧
    (c = 66 ∨ c = 98 →
      processCommand m (c :: rest) s =
        setBrightness (rest.dropWhile (fun x => x == 32))
          { s with cmdLog := s.cmdLog ++ [c :: rest] }) ∧
    (c = 69 ∨ c = 101 →
      processCommand m (c :: rest) s =
        setSerialEcho (rest.dropWhile (fun x => x == 32))
          { s with cmdLog := s.cmdLog ++ [c :: rest] }) ∧
    (c = 76 ∨ c = 108 →
      processCommand m (c :: rest) s =
        queryLastErrorMsg { s with cmdLog := s.cmdLog ++ [c :: rest] }) ∧
    (c = 86 ∨ c = 118 →
      processCommand m (c :: rest) s =
        writeMsgToSerial VERSION_STR (if s.serialEchoFlag then writeMsgToSerial lnFeedStr
          { s with cmdLog := s.cmdLog ++ [c :: rest] } else
          { s with cmdLog := s.cmdLog ++ [c :: rest] })) ∧
    (c ∉ [67, 68, 77, 80, 82, 70, 65, 83, 66, 69, 76, 86,
          99, 100, 109, 112, 114, 102, 97, 115, 98, 101, 108, 118] →
      processCommand m (c :: rest) s =
        sendErrorResponse (bytesOf "Unrecognized command")
          { s with cmdLog := s.cmdLog ++ [c :: rest] }) ∧
    processCommand m [] s =
      sendErrorResponse (bytesOf "Unrecognized command") { s with cmdLog := s.cmdLog ++ [[]] } ∧
    withoutCmdLog (processCommand m (c :: params) s) =
      withoutCmdLog (processCommand m (cmdOf [c] :: params) s) ∧
    withoutCmdLog (processCommand m (c :: (List.replicate k 32 ++ params)) s) =
      withoutCmdLog (processCommand m (c :: params) s) ∧
    processCommand m (32 :: params) s =
      sendErrorResponse (bytesOf "Unrecognized command")
        { s with cmdLog := s.cmdLog ++ [32 :: params] } ∧
    (∀ l1 l2 : List Nat, cmdOf l1 = cmdOf l2 → paramsOf l1 = paramsOf l2 →
      withoutCmdLog (processCommand m l1 s) = withoutCmdLog (processCommand m l2 s)) := by
  have hp := paramsOf_dropWhile c rest
  obtain ⟨t1, t2, t3, t4, t5, t6, t7, t8, t9, t10, t11, t12, t13⟩ :=
    processCommand_table m (c :: rest) s
  rw [hp] at t1 t4 t5 t6 t8 t9 t10
  have hfold : ∀ u : Nat, c = u ∨ c = u + 32 → 65 ≤ u → u ≤ 90 → cmdOf (c :: rest) = u := by
    intro u hu h1 h2
    rcases hu with rfl | rfl
    · simp only [cmdOf, charAt, List.getD_cons_zero]
      rw [if_neg (by omega)]
    · simp only [cmdOf, charAt, List.getD_cons_zero]
      rw [if_pos (by omega)]
      omega
  refine ⟨fun h => t1 (hfold 67 h (by omega) (by omega)),
    fun h => t2 (hfold 68 h (by omega) (by omega)),
    fun h => t3 (hfold 77 h (by omega) (by omega)),
    fun h => t4 (hfold 80 h (by omega) (by omega)),
    fun h => t5 (hfold 82 h (by omega) (by omega)),
    fun h => t6 (hfold 70 h (by omega) (by omega)),
    fun h => t7 (hfold 65 h (by omega) (by omega)),
    fun h => t8 (hfold 83 h (by omega) (by omega)),
    fun h => t9 (hfold 66 h (by omega) (by omega)),
    fun h => t10 (hfold 69 h (by omega) (by omega)),
    fun h => t11 (hfold 76 h (by omega) (by omega)),
    fun h => t12 (hfold 86 h (by omega) (by omega)), ?_, ?_, ?_, ?_, ?_,
    fun l1 l2 hc hp => processCommand_congr m l1 l2 s hc hp⟩
  · intro hc
    apply t13
    simp only [List.mem_cons, List.mem_singleton, List.not_mem_nil, or_false, not_or] at hc ⊢
    simp only [cmdOf, charAt, List.getD_cons_zero]
    split_ifs <;> omega
  · exact (processCommand_table m [] s).2.2.2.2.2.2.2.2.2.2.2.2 (by decide)
  · apply processCommand_congr
    · rw [cmdOf_cons, cmdOf_cons (cmdOf [c]), cmdOf_fold]
    · rw [paramsOf_cons, paramsOf_cons]
  · apply processCommand_congr
    · rw [cmdOf_cons, cmdOf_cons c params]
    · exact paramsOf_spaces c k params
  · have h32 : cmdOf (32 :: params) = 32 := by simp [cmdOf, charAt]
    apply processCommand_cases (fun r => r = sendErrorResponse (bytesOf "Unrecognized command")
      { s with cmdLog := s.cmdLog ++ [32 :: params] }) <;> intro h
    all_goals first
      | rfl
      | (rw [h32] at h; omega)

/-- C12 on the state after `setup()`: the line `d` runs Describe, `f   R` (three spaces)
runs Fill on the parameter string `R`, and `d` is dispatched as `D`. -/
theorem C12_command_selection_witness :
    processCommand 0 (bytesOf "d") (setup initState) =
      describeLeds { setup initState with cmdLog := [bytesOf "d"] } ∧
    processCommand 0 (bytesOf "f   R") (setup initState) =
      fillStripColor (bytesOf "R") { setup initState with cmdLog := [bytesOf "f   R"] } ∧
    withoutCmdLog (processCommand 0 (bytesOf "d") (setup initState)) =
      withoutCmdLog (processCommand 0 (bytesOf "D") (setup initState)) :=
  ⟨(C12_command_selection 0 (setup initState) 100 0 [] []).2.1 (Or.inr rfl),
   (C12_command_selection 0 (setup initState) 102 0 (bytesOf "   R") []).2.2.2.2.2.1
     (Or.inr rfl),
   (C12_command_selection 0 (setup initState) 100 0 [] []).2.2.2.2.2.2.2.2.2.2.2.2.2.2.1⟩

/-! ### C13: when black is accepted -/

/-- `P i c` on a valid index whose colour token fails the colour validation. -/
theorem setPixelColor_rejected (s : State) (i : Int) (c : List Nat)
    (hi : 0 ≤ i ∧ i < s.stripNumberLeds) (hr : i ≤ 32767) (hne : c ≠ [])
    (hsep : c.headD 0 ≠ 32 ∧ c.headD 0 ≠ 44)
    (hc : ¬ (stringToCRGB c ≠ Black ∨ c.headD 0 = 48)) :
    setPixelColor (itoa i ++ 32 :: c) s =
      sendErrorResponse (bytesOf "Invalid pixel color value") s := by
  have hat : atoi (itoa i ++ 32 :: c) = i :=
    atoi_itoa_append i ⟨by omega, hr⟩ (32 :: c) (by simp [isdigit])
  have hfs : findSecondParam (itoa i ++ 32 :: c) = (itoa i).length + 1 :=
    findSecondParam_space (itoa i) c (itoa_no_separator i) hsep
  have hcl : 0 < c.length := List.length_pos.2 hne
  have hdrop : List.drop ((itoa i).length + 1) (itoa i ++ 32 :: c) = c := by
    rw [List.drop_append_eq_append_drop]
    simp
  have hch : charAt (itoa i ++ 32 :: c) ((itoa i).length + 1) = c.headD 0 := by
    rw [charAt_eq_headD_drop, hdrop]
  simp only [setPixelColor, hat, hfs, hdrop, hch]
  have hlen : (itoa i ++ 32 :: c).length > 0 := by simp
  have hp : (itoa i).length + 1 > 0 ∧ (itoa i).length + 1 < (itoa i ++ 32 :: c).length := by
    simp; omega
  have hidx : i ≥ 0 ∧ i < s.stripNumberLeds := ⟨by omega, hi.2⟩
  simp only [hlen, hp, hidx, hc, and_self, if_true, if_false]

theorem charAt_zero (t : List Nat) : charAt t 0 = t.headD 0 := by
  rw [charAt_eq_headD_drop]; simp

/-- C13 as stated fails: the token `00` parses to black and is not the one-character
string `0`, yet `F 00`, `P 0 000000` and `S 00` are accepted: on a strip filled with red
they record no error, `F 00` makes the pixels black, `P 0 000000` makes pixel 0 black and
`S 00` shows black. -/
theorem C13_black_token_00_accepted :
    stringToCRGB (bytesOf "00") = Black ∧ stringToCRGB (bytesOf "000000") = Black ∧
    (processCommand 0 (bytesOf "F R") (setup initState)).crgbLedsArr.take 2 =
      [⟨255, 0, 0⟩, ⟨255, 0, 0⟩] ∧
    (processCommand 0 (bytesOf "F 00")
      (processCommand 0 (bytesOf "F R") (setup initState))).errLog = [] ∧
    (processCommand 0 (bytesOf "F 00")
      (processCommand 0 (bytesOf "F R") (setup initState))).crgbLedsArr.take 2 =
      [⟨0, 0, 0⟩, ⟨0, 0, 0⟩] ∧
    (processCommand 0 (bytesOf "P 0 000000")
      (processCommand 0 (bytesOf "F R") (setup initState))).errLog = [] ∧
    (processCommand 0 (bytesOf "P 0 000000")
      (processCommand 0 (bytesOf "F R") (setup initState))).crgbLedsArr.take 2 =
      [⟨0, 0, 0⟩, ⟨255, 0, 0⟩] ∧
    (processCommand 0 (bytesOf "S 00") (setup initState)).errLog = [] ∧
    (processCommand 0 (bytesOf "S 00") (setup initState)).hw.getLast? =
      some (HwCall.showColor ⟨0, 0, 0⟩) := by
  decide

/-- C13, amended. Black acceptance rule: for every colour token `t` whose parsed colour is
pure black, SetPixel (on a valid index `i`), Fill and Show accept `t` if and only if the
first character of `t` is the digit `0`: then no error is recorded, SetPixel stores black
at pixel `i`, Fill stores black at every pixel below the LED count and Show shows black;
every other token that parses to black (an unknown letter, for one) is rejected with the
invalid-colour error of the command and nothing else changes. -/
theorem C13_black_acceptance (s : State) (t : List Nat) (i : Int)
    (ht : t ≠ []) (hsep : t.headD 0 ≠ 32 ∧ t.headD 0 ≠ 44) (hb : stringToCRGB t = Black)
    (hi : 0 ≤ i ∧ i < s.stripNumberLeds) (hr : i ≤ 32767) :
    (t.headD 0 = 48 →
      setPixelColor (itoa i ++ 32 :: t) s =
        { s with crgbLedsArr := s.crgbLedsArr.set i.toNat Black } ∧
      (fillStripColor t s).crgbLedsArr =
        (List.range s.stripNumberLeds.toNat).foldl (fun arr idx => arr.set idx Black)
          s.crgbLedsArr ∧
      (fillStripColor t s).errLog = s.errLog ∧
      (showStripColor t s).errLog = s.errLog ∧
      (showStripColor t s).crgbLedsArr = s.crgbLedsArr ∧
      (showStripColor t s).hw =
        (if s.ledLibInitializedFlag then s else initializeLedLib s).hw ++
          [HwCall.showColor Black]) ∧
    (t.headD 0 ≠ 48 →
      setPixelColor (itoa i ++ 32 :: t) s =
        sendErrorResponse (bytesOf "Invalid pixel color value") s ∧
      fillStripColor t s = sendErrorResponse (bytesOf "Invalid fill color value") s ∧
      showStripColor t s = sendErrorResponse (bytesOf "Invalid pixel color value") s) := by
  have hlen : t.length > 0 := List.length_pos.2 ht
  constructor
  · intro h0
    have hc : stringToCRGB t ≠ Black ∨ t.headD 0 = 48 := Or.inr h0
    have hc' : stringToCRGB t ≠ Black ∨ charAt t 0 = 48 := by rw [charAt_zero]; exact hc
    refine ⟨?_, ?_, ?_, ?_, ?_, ?_⟩
    · rw [setPixelColor_ok s i t hi hr ht hsep hc, hb]
    · simp only [fillStripColor, hlen, if_true]
      rw [if_pos hc', hb]
    · simp only [fillStripColor, hlen, if_true]
      rw [if_pos hc']
    · simp only [showStripColor, hlen, if_true]
      rw [if_pos hc']
      cases hl : s.ledLibInitializedFlag <;> simp [initializeLedLib]
    · simp only [showStripColor, hlen, if_true]
      rw [if_pos hc']
      cases hl : s.ledLibInitializedFlag <;> simp [initializeLedLib]
    · simp only [showStripColor, hlen, if_true]
      rw [if_pos hc', hb]
      cases hl : s.ledLibInitializedFlag <;> simp [initializeLedLib]
  · intro h0
    have hc : ¬ (stringToCRGB t ≠ Black ∨ t.headD 0 = 48) := by
      rw [hb]
      intro h
      rcases h with h | h
      · exact h rfl
      · exact h0 h
    have hc' : ¬ (stringToCRGB t ≠ Black ∨ charAt t 0 = 48) := by
      rw [charAt_zero]; exact hc
    refine ⟨setPixelColor_rejected s i t hi hr ht hsep hc, ?_, ?_⟩
    · simp only [fillStripColor, hlen, if_true]
      rw [if_neg hc']
    · simp only [showStripColor, hlen, if_true]
      rw [if_neg hc']

/-- C13 on the 8-LED state after `setup()`: the token `0` is accepted by `P 3 0`, the
unknown letter `X` is rejected by `F X`. -/
theorem C13_black_acceptance_witness :
    (setPixelColor (bytesOf "3 0") (setup initState)).errLog = [] ∧
    (fillStripColor (bytesOf "X") (setup initState)).lastErrorStr =
      bytesOf "Invalid fill color value" :=
  ⟨congrArg State.errLog
      ((C13_black_acceptance (setup initState) (bytesOf "0") 3 (by decide) (by decide)
        (by decide) (by decide) (by decide)).1 (by decide)).1,
   congrArg State.lastErrorStr
      ((C13_black_acceptance (setup initState) (bytesOf "X") 3 (by decide) (by decide)
        (by decide) (by decide) (by decide)).2 (by decide)).2.1⟩

/-! ### C14: hexadecimal colour tokens -/

/-- On a token of hexadecimal digits `strtol` returns its value, or `LONG_MAX` when the
value does not fit in `long`. -/
theorem strtol16_hexDigits (t : List Nat) (hlen : 2 ≤ t.length)
    (ht : ∀ c ∈ t, (hexVal c).isSome = true) :
    strtol16 t = if (hexValue t : Int) > LONG_MAX then LONG_MAX else (hexValue t : Int) := by
  match t, hlen, ht with
  | c0 :: c1 :: cs, _, ht =>
    have h0 := hexVal_char c0 (ht c0 (by simp))
    have h1 := hexVal_char c1 (ht c1 (by simp))
    have hfold := hexDigits_eq_foldl (c0 :: c1 :: cs) ht 0
    simp only [hexValue, List.foldl_cons, Nat.zero_mul, Nat.zero_add] at hfold ⊢
    simp [strtol16, List.dropWhile, h0.1, h0.2.1, h0.2.2.1, charAt, h1.2.2.2.1, h1.2.2.2.2.1,
      hfold]

/-- C14 as stated fails: the 16-digit token `8000000000000000` has the value 2^63, whose
low 24 bits are zero, yet `stringToCRGB` returns white (255, 255, 255), because `strtol`
clamps the value to `LONG_MAX` before the mask; the 9-digit token `100000000` (2^32) does
the same. -/
theorem C14_hex_token_beyond_long :
    (bytesOf "8000000000000000").length = 16 ∧
    (∀ c ∈ bytesOf "8000000000000000", (hexVal c).isSome = true) ∧
    hexValue (bytesOf "8000000000000000") % 16777216 = 0 ∧
    stringToCRGB (bytesOf "8000000000000000") = ⟨255, 255, 255⟩ ∧
    hexValue (bytesOf "100000000") % 16777216 = 0 ∧
    stringToCRGB (bytesOf "100000000") = ⟨255, 255, 255⟩ := by
  decide

/-- C14, amended. Hex colour tokens: for every colour token `t` of two or more hex digits,
if the token's hexadecimal value fits in a 32-bit signed `long` (it is at most
2^31 - 1 = 0x7FFFFFFF, which holds for every token of up to 7 digits) `stringToCRGB`
returns that value reduced modulo 2^24 (red = bits 23..16, green = bits 15..8, blue =
bits 7..0), i.e. extra high bits are discarded; for a larger value it returns white
(255, 255, 255). -/
theorem C14_hex_token (t : List Nat) (hlen : 2 ≤ t.length)
    (ht : ∀ c ∈ t, (hexVal c).isSome = true) :
    (hexValue t ≤ 2147483647 →
      stringToCRGB t = CRGB.ofCode (hexValue t % 16777216) ∧
      (stringToCRGB t).r = hexValue t / 65536 % 256 ∧
      (stringToCRGB t).g = hexValue t / 256 % 256 ∧
      (stringToCRGB t).b = hexValue t % 256) ∧
    (t.length ≤ 7 → hexValue t ≤ 2147483647) ∧
    (2147483647 < hexValue t → stringToCRGB t = ⟨255, 255, 255⟩) := by
  have hl : t.length > 1 := by omega
  have hs := strtol16_hexDigits t hlen ht
  simp only [LONG_MAX, LONG_BITS] at hs
  norm_num at hs
  refine ⟨?_, ?_, ?_⟩
  · intro hv
    have hn : ¬ (2147483647 < hexValue t) := by omega
    rw [if_neg hn] at hs
    have hm : ((hexValue t : Int) % 16777216).toNat = hexValue t % 16777216 := by omega
    have he : stringToCRGB t = CRGB.ofCode (hexValue t % 16777216) := by
      simp only [stringToCRGB, hl, if_true, hs, hm]
    refine ⟨he, ?_, ?_, ?_⟩ <;> rw [he] <;> simp only [CRGB.ofCode] <;> omega
  · intro h7
    have h1 := hexFold_lt t 0
    have h2 : 16 ^ t.length ≤ 16 ^ 7 := Nat.pow_le_pow_right (by omega) h7
    simp only [hexValue]
    norm_num at h1 h2
    omega
  · intro hv
    rw [if_pos hv] at hs
    simp only [stringToCRGB, hl, if_true, hs]
    decide

/-- C14 on the tokens `1FF0000` (seven digits, the high bit is discarded: red) and
`FFFFFFFFF` (beyond `long`: white). -/
theorem C14_hex_token_witness :
    stringToCRGB (bytesOf "1FF0000") = CRGB.ofCode (hexValue (bytesOf "1FF0000") % 16777216) ∧
    stringToCRGB (bytesOf "FFFFFFFFF") = ⟨255, 255, 255⟩ :=
  ⟨((C14_hex_token (bytesOf "1FF0000") (by decide) (by decide)).1 (by decide)).1,
   (C14_hex_token (bytesOf "FFFFFFFFF") (by decide) (by decide)).2.2 (by decide)⟩

/-! ### C15: the echo parameter -/

theorem processCommand_E (m : Nat) (params : List Nat) (s : State)
    (hp : params.headD 0 ≠ 32) :
    processCommand m (69 :: 32 :: params) s =
      setSerialEcho params { s with cmdLog := s.cmdLog ++ [69 :: 32 :: params] } := by
  simp [processCommand, charAt, skipSpaces, skipSpaces_stop params hp]

/-- A string that `strcasecmp` finds equal to a word starting with `o` starts with neither
`0` nor `1`. -/
theorem head_of_lower_o (p w : List Nat) (h : p.map tolower = 111 :: w) :
    p.headD 0 ≠ 48 ∧ p.headD 0 ≠ 49 := by
  cases p with
  | nil => simp at h
  | cons c cs =>
    simp only [List.map_cons, List.cons.injEq] at h
    have hc := h.1
    simp only [tolower] at hc
    simp only [List.headD_cons]
    constructor <;> intro h0 <;> subst h0 <;> simp at hc

theorem sendErrorResponse_echo (msg : List Nat) (s : State) :
    (sendErrorResponse msg s).serialEchoFlag = s.serialEchoFlag ∧
    (sendErrorResponse msg s).errLog = s.errLog ++ [msg] ∧
    (sendErrorResponse msg s).lastErrorStr = msg := by
  cases he : s.serialEchoFlag <;>
    simp [sendErrorResponse, writeMsgToSerial, writeCharToSerial, he]

/-- C15 as stated fails: the parameter `1x` is none of `0`, `1`, `on`, `off`, yet `E 1x`
turns the echo on and records no error; likewise `E 0n` turns it off again. Only the first
character of the parameter is compared with `0` and `1`. -/
theorem C15_echo_first_character_only :
    (setup initState).serialEchoFlag = false ∧
    (processCommand 0 (bytesOf "E 1x") (setup initState)).serialEchoFlag = true ∧
    (processCommand 0 (bytesOf "E 1x") (setup initState)).errLog = [] ∧
    (processCommand 0 (bytesOf "E 0n")
      (processCommand 0 (bytesOf "E 1x") (setup initState))).serialEchoFlag = false ∧
    (processCommand 0 (bytesOf "E 0n")
      (processCommand 0 (bytesOf "E 1x") (setup initState))).errLog = [] := by
  decide

/-- C15, amended. Echo parameter validation: for every non-empty parameter string `p`,
dispatching `E p` sets echo off when the first character of `p` is `0` or `p` is `off`,
and on when the first character of `p` is `1` or `p` is `on` (on/off compared
case-insensitively), changing nothing else; for every other `p` it records the
"Invalid parameter" error and leaves the echo flag unchanged. -/
theorem C15_echo_parameter (m : Nat) (s : State) (p : List Nat)
    (hne : p ≠ []) (hp : p.headD 0 ≠ 32) :
    (p.headD 0 = 48 ∨ p.map tolower = bytesOf "off" →
      processCommand m (69 :: 32 :: p) s =
        { s with cmdLog := s.cmdLog ++ [69 :: 32 :: p], serialEchoFlag := false }) ∧
    (p.headD 0 = 49 ∨ p.map tolower = bytesOf "on" →
      processCommand m (69 :: 32 :: p) s =
        { s with cmdLog := s.cmdLog ++ [69 :: 32 :: p], serialEchoFlag := true }) ∧
    (p.headD 0 ≠ 48 → p.headD 0 ≠ 49 → p.map tolower ≠ bytesOf "off" →
      p.map tolower ≠ bytesOf "on" →
      processCommand m (69 :: 32 :: p) s =
        sendErrorResponse (bytesOf "Invalid parameter")
          { s with cmdLog := s.cmdLog ++ [69 :: 32 :: p] } ∧
      (processCommand m (69 :: 32 :: p) s).serialEchoFlag = s.serialEchoFlag ∧
      (processCommand m (69 :: 32 :: p) s).errLog =
        s.errLog ++ [bytesOf "Invalid parameter"]) := by
  have hlen : p.length > 0 := List.length_pos.2 hne
  have hoff : (bytesOf "off").map tolower = bytesOf "off" := by decide
  have hon : (bytesOf "on").map tolower = bytesOf "on" := by decide
  have hoff' : bytesOf "off" = 111 :: bytesOf "ff" := by decide
  have hon' : bytesOf "on" = 111 :: bytesOf "n" := by decide
  have hne2 : bytesOf "off" ≠ bytesOf "on" := by decide
  rw [processCommand_E m p s hp]
  simp only [setSerialEcho, hlen, if_true, charAt_zero, strcasecmpEq, hoff, hon, beq_iff_eq]
  refine ⟨?_, ?_, ?_⟩
  · rintro (h | h)
    · rw [if_pos h]
    · have h2 := head_of_lower_o p _ (h.trans hoff')
      rw [if_neg h2.1, if_neg h2.2, if_pos h]
  · rintro (h | h)
    · have h0 : p.headD 0 ≠ 48 := by rw [h]; decide
      rw [if_neg h0, if_pos h]
    · have h2 := head_of_lower_o p _ (h.trans hon')
      have h3 : p.map tolower ≠ bytesOf "off" := by rw [h]; exact fun e => hne2 e.symm
      rw [if_neg h2.1, if_neg h2.2, if_neg h3, if_pos h]
  · intro h0 h1 h2 h3
    rw [if_neg h0, if_neg h1, if_neg h2, if_neg h3]
    have h := sendErrorResponse_echo (bytesOf "Invalid parameter")
      { s with cmdLog := s.cmdLog ++ [69 :: 32 :: p] }
    exact ⟨rfl, h.1, h.2.1⟩

/-- C15 on the state after `setup()`: `E ON` turns the echo on, `E 1x` turns it on as
well, `E yes` records "Invalid parameter". -/
theorem C15_echo_parameter_witness :
    (processCommand 0 (bytesOf "E ON") (setup initState)).serialEchoFlag = true ∧
    (processCommand 0 (bytesOf "E 1x") (setup initState)).serialEchoFlag = true ∧
    (processCommand 0 (bytesOf "E yes") (setup initState)).errLog =
      [bytesOf "Invalid parameter"] :=
  ⟨congrArg State.serialEchoFlag
      ((C15_echo_parameter 0 (setup initState) (bytesOf "ON") (by decide) (by decide)).2.1
        (Or.inr (by decide))),
   congrArg State.serialEchoFlag
      ((C15_echo_parameter 0 (setup initState) (bytesOf "1x") (by decide) (by decide)).2.1
        (Or.inl (by decide))),
   ((C15_echo_parameter 0 (setup initState) (bytesOf "yes") (by decide) (by decide)).2.2
      (by decide) (by decide) (by decide) (by decide)).2.2⟩

/-! ### The configuration and the binary mode across the steps -/

theorem sameMode_refl (s : State) : SameMode s s := ⟨rfl, rfl, rfl, rfl, rfl⟩

theorem sameMode_trans (a b c : State) (h1 : SameMode a b) (h2 : SameMode b c) :
    SameMode a c := by
  obtain ⟨a1, a2, a3, a4, a5⟩ := h1
  obtain ⟨b1, b2, b3, b4, b5⟩ := h2
  exact ⟨b1.trans a1, b2.trans a2, b3.trans a3, b4.trans a4, b5.trans a5⟩

theorem sendErrorResponse_sameMode (msg : List Nat) (s : State) :
    SameMode s (sendErrorResponse msg s) := by
  cases he : s.serialEchoFlag <;>
    simp [SameMode, sendErrorResponse, writeMsgToSerial, writeCharToSerial, he]

theorem setPixelColor_sameMode (p : List Nat) (s : State) :
    SameMode s (setPixelColor p s) := by
  unfold setPixelColor
  simp only []
  split_ifs <;> first
    | exact sendErrorResponse_sameMode _ s
    | simp [SameMode]

theorem queryPixelColor_sameMode (p : List Nat) (s : State) :
    SameMode s (queryPixelColor p s) := by
  unfold queryPixelColor
  simp only []
  split_ifs <;> first
    | exact sendErrorResponse_sameMode _ s
    | simp [SameMode, writeMsgToSerial]

theorem fillStripColor_sameMode (p : List Nat) (s : State) :
    SameMode s (fillStripColor p s) := by
  unfold fillStripColor
  simp only []
  split_ifs <;> first
    | exact sendErrorResponse_sameMode _ s
    | simp [SameMode]

theorem showStripColor_sameMode (p : List Nat) (s : State) :
    SameMode s (showStripColor p s) := by
  unfold showStripColor
  simp only []
  split_ifs <;> first
    | exact sendErrorResponse_sameMode _ s
    | simp [SameMode, initializeLedLib]

theorem setBrightness_sameMode (p : List Nat) (s : State) :
    SameMode s (setBrightness p s) := by
  unfold setBrightness
  simp only []
  split_ifs <;> simp [SameMode, writeMsgToSerial]

theorem setSerialEcho_sameMode (p : List Nat) (s : State) :
    SameMode s (setSerialEcho p s) := by
  unfold setSerialEcho
  simp only []
  split_ifs <;> first
    | exact sendErrorResponse_sameMode _ s
    | simp [SameMode, writeMsgToSerial, writeCharToSerial]

/-- A dispatch of a command other than Configure and SendAll leaves the configuration and
the binary mode alone. -/
theorem processCommand_sameMode (m : Nat) (line : List Nat) (s : State)
    (hC : cmdOf line ≠ 67) (hA : cmdOf line ≠ 65) : SameMode s (processCommand m line s) := by
  apply processCommand_cases (fun r => SameMode s r) <;> intro h
  · exact absurd h hC
  · cases he : s.serialEchoFlag <;> simp [SameMode, describeLeds, writeMsgToSerial, he]
  · cases he : s.serialEchoFlag <;> simp [SameMode, queryMaxNumLeds, writeMsgToSerial, he]
  · exact setPixelColor_sameMode _ _
  · exact queryPixelColor_sameMode _ _
  · exact fillStripColor_sameMode _ _
  · exact absurd h hA
  · exact showStripColor_sameMode _ _
  · exact setBrightness_sameMode _ _
  · exact setSerialEcho_sameMode _ _
  · cases he : s.serialEchoFlag <;> simp [SameMode, queryLastErrorMsg, writeMsgToSerial, he]
  · cases he : s.serialEchoFlag <;> simp [SameMode, writeMsgToSerial, he]
  · exact sendErrorResponse_sameMode _ _

/-- What SendAll does to the configuration and the binary mode. -/
theorem processCommand_A_mode (m : Nat) (line : List Nat) (s : State) (hA : cmdOf line = 65) :
    processCommand m line s =
      { s with cmdLog := s.cmdLog ++ [line], receivingArrayIdx := 0
               recvArrStartTimeMs := m, receivingArrayFlag := true } := by
  apply processCommand_cases (fun r => r =
      { s with cmdLog := s.cmdLog ++ [line], receivingArrayIdx := 0
               recvArrStartTimeMs := m, receivingArrayFlag := true }) <;> intro h
  all_goals first
    | rfl
    | (rw [hA] at h; exact absurd h (by decide))

/-- What Configure does to the configuration and the binary mode: the mode is left alone;
the LED count and the channel order are either both left alone, or the count is set to a
value in `[1, 300]` and the order to at most 4 characters of the line or left alone. -/
theorem configureLeds_mode (p : List Nat) (s : State) :
    (configureLeds p s).receivingArrayFlag = s.receivingArrayFlag ∧
    (configureLeds p s).receivingArrayIdx = s.receivingArrayIdx ∧
    (configureLeds p s).recvArrStartTimeMs = s.recvArrStartTimeMs ∧
    (((configureLeds p s).stripNumberLeds = s.stripNumberLeds ∧
      (configureLeds p s).stripColorOrderStr = s.stripColorOrderStr) ∨
     ((1 ≤ (configureLeds p s).stripNumberLeds ∧
        (configureLeds p s).stripNumberLeds ≤ MAX_NUM_LEDS) ∧
      ((configureLeds p s).stripColorOrderStr = s.stripColorOrderStr ∨
        (configureLeds p s).stripColorOrderStr = (p.drop (findSecondParam p)).take 4))) := by
  unfold configureLeds
  simp only []
  split_ifs with h1 h2 h3
  · simp only [initializeLedLib, true_and]
    right
    exact ⟨⟨by omega, h2.2⟩, Or.inr trivial⟩
  · simp only [initializeLedLib, true_and]
    right
    exact ⟨⟨by omega, h2.2⟩, Or.inl trivial⟩
  · have h := sendErrorResponse_sameMode (bytesOf "LED count value out of range") s
    exact ⟨h.2.2.1, h.2.2.2.1, h.2.2.2.2, Or.inl ⟨h.1, h.2.1⟩⟩
  · simp

theorem modeInv_of_same (s r : State) (h : ModeInv s) (hm : SameMode s r)
    (ho : r.recvArrOrd = s.recvArrOrd)
    (ha : r.crgbLedsArr.length = s.crgbLedsArr.length) : ModeInv r := by
  obtain ⟨m1, m2, m3, m4, m5⟩ := hm
  unfold ModeInv at *
  rw [m1, m2, m3, m4, ho, ha]
  exact h

theorem processCommand_modeInv (m : Nat) (line : List Nat) (s : State) (h : ModeInv s) :
    ModeInv (processCommand m line s) := by
  obtain ⟨_, _, _, _, _, k6, _, k8, _⟩ := processCommand_keepsBuffers m line s
  by_cases hA : cmdOf line = 65
  · rw [processCommand_A_mode m line s hA]
    obtain ⟨h1, h2, h3, h4, h5, h6⟩ := h
    exact ⟨h1, h2, h3, ⟨le_refl 0, by simp [MAX_NUM_LEDS]⟩, fun _ => rfl, h6⟩
  by_cases hC : cmdOf line = 67
  · have hm : ModeInv (configureLeds (paramsOf line) { s with cmdLog := s.cmdLog ++ [line] }) ∧
        processCommand m line s =
          configureLeds (paramsOf line) { s with cmdLog := s.cmdLog ++ [line] } := by
      constructor
      · obtain ⟨c1, c2, c3, c4⟩ :=
          configureLeds_mode (paramsOf line) { s with cmdLog := s.cmdLog ++ [line] }
        obtain ⟨b1, b2, b3, b4, b5, b6, b7, b8, b9⟩ :=
          configureLeds_keepsBuffers (paramsOf line) { s with cmdLog := s.cmdLog ++ [line] }
        obtain ⟨h1, h2, h3, h4, h5, h6⟩ := h
        unfold ModeInv
        rw [c1, c2, b6, b8]
        refine ⟨?_, h2, h3, h4, h5, ?_⟩
        · rcases c4 with c | c
          · rw [c.1]; exact h1
          · exact c.1
        · rcases c4 with c | c
          · rw [c.2]; exact h6
          · rcases c.2 with c | c
            · rw [c]; exact h6
            · rw [c, List.length_take]; omega
      · apply processCommand_cases (fun r => r =
          configureLeds (paramsOf line) { s with cmdLog := s.cmdLog ++ [line] }) <;> intro h
        all_goals first
          | rfl
          | (rw [hC] at h; exact absurd h (by decide))
    rw [hm.2]
    exact hm.1
  · exact modeInv_of_same s _ h (processCommand_sameMode m line s hC hA) k6 k8

theorem recvArrayByte_modeInv (b : Nat) (s : State) (h : ModeInv s)
    (hf : s.receivingArrayFlag = true) : ModeInv (recvArrayByte b s) := by
  obtain ⟨⟨h1, h2⟩, h3, ⟨h4, h5⟩, ⟨h6, h7⟩, h8, h9⟩ := h
  simp only [MAX_NUM_LEDS] at *
  unfold recvArrayByte ModeInv
  simp only []
  cases he : s.serialEchoFlag <;>
    (split_ifs <;>
      simp [writePrompt, writeMsgToSerial, writeCharToSerial, he, MAX_NUM_LEDS, hf, h1, h2, h3,
        h9] <;> omega)

theorem recvLineByte_order (b : Nat) (s : State) :
    (recvLineByte b s).stripColorOrderStr = s.stripColorOrderStr := by
  unfold recvLineByte
  cases he : s.serialEchoFlag <;>
    (split_ifs <;>
      simp [copySerialMsgBuffer, writePrompt, writeCharToSerial, writeMsgToSerial, he])

theorem recvLineByte_sameMode (b : Nat) (s : State) : SameMode s (recvLineByte b s) := by
  obtain ⟨f1, f2, f3, f4, f5, f6, f7, f8, f9, f10⟩ := recvLineByte_frame b s
  exact ⟨f9, recvLineByte_order b s, f1, f2, f4⟩

theorem recvLineByte_modeInv (b : Nat) (s : State) (h : ModeInv s) :
    ModeInv (recvLineByte b s) := by
  obtain ⟨f1, f2, f3, f4, f5, f6, f7, f8, f9, f10⟩ := recvLineByte_frame b s
  exact modeInv_of_same s _ h (recvLineByte_sameMode b s) f3 (by rw [f5])

theorem serialLoop_modeInv (input : List Nat) : ∀ (iterCount : Int) (s : State),
    ModeInv s → ModeInv (serialLoop input iterCount s).1 := by
  induction input with
  | nil => intro it s h; simpa [serialLoop] using h
  | cons b bs ih =>
    intro it s h
    unfold serialLoop
    simp only []
    split_ifs with hf
    · exact ih _ _ (recvArrayByte_modeInv _ s h hf)
    · exact recvLineByte_modeInv _ s h
    · exact ih _ _ (recvLineByte_modeInv _ s h)
    · exact ih _ _ (recvLineByte_modeInv _ s h)

/-- The state the timeout check of `serialEvent` leaves. -/
theorem serialEvent_nil_modeInv (millis : Nat) (s : State) (h : ModeInv s) :
    ModeInv (serialEvent millis [] s).1 := by
  obtain ⟨h1, h2, h3, h4, h5, h6⟩ := h
  unfold serialEvent
  simp only [serialLoop]
  split_ifs
  · obtain ⟨m1, m2, m3, m4, m5⟩ := sendErrorResponse_sameMode
      (bytesOf "Timeout during receive of array data")
      { s with receivingArrayFlag := false, receivingArrayIdx := 0, recvArrOrd := 0 }
    obtain ⟨_, _, _, _, _, k6, _, k8, _⟩ := sendErrorResponse_keepsBuffers
      (bytesOf "Timeout during receive of array data")
      { s with receivingArrayFlag := false, receivingArrayIdx := 0, recvArrOrd := 0 }
    unfold ModeInv
    rw [m1, m2, m3, m4, k6, k8]
    exact ⟨h1, h2, by simp, by simp [MAX_NUM_LEDS], fun _ => rfl, h6⟩
  · exact ⟨h1, h2, h3, h4, h5, h6⟩

theorem serialEvent_eq_loop (millis : Nat) (input : List Nat) (s : State) :
    serialEvent millis input s = serialLoop input 0 (serialEvent millis [] s).1 := by
  unfold serialEvent
  simp only [serialLoop]

theorem serialEvent_modeInv (millis : Nat) (input : List Nat) (s : State) (h : ModeInv s) :
    ModeInv (serialEvent millis input s).1 := by
  rw [serialEvent_eq_loop]
  exact serialLoop_modeInv _ _ _ (serialEvent_nil_modeInv millis s h)

theorem setModuleLed_sameMode (onFlag : Bool) (s : State) :
    SameMode s (setModuleLed onFlag s) ∧
    (setModuleLed onFlag s).crgbLedsArr = s.crgbLedsArr ∧
    (setModuleLed onFlag s).errLog = s.errLog ∧
    (setModuleLed onFlag s).lastErrorStr = s.lastErrorStr := by
  unfold setModuleLed
  split_ifs <;> simp [SameMode]

/-- A tick with a staged command: what is left of the dispatch in the configuration, the
binary mode, the pixels and the error log is what `processCommand` made of them. -/
theorem loop_dispatch_mode (curTimeMs cmdTimeMs : Nat) (s : State)
    (h : s.commandBufferSize > 0) :
    SameMode (processCommand cmdTimeMs (cstr s.commandBuffer) (setModuleLed true s))
      (loop curTimeMs cmdTimeMs s) ∧
    (loop curTimeMs cmdTimeMs s).recvArrOrd =
      (processCommand cmdTimeMs (cstr s.commandBuffer) (setModuleLed true s)).recvArrOrd ∧
    (loop curTimeMs cmdTimeMs s).crgbLedsArr =
      (processCommand cmdTimeMs (cstr s.commandBuffer) (setModuleLed true s)).crgbLedsArr ∧
    (loop curTimeMs cmdTimeMs s).errLog =
      (processCommand cmdTimeMs (cstr s.commandBuffer) (setModuleLed true s)).errLog ∧
    (loop curTimeMs cmdTimeMs s).lastErrorStr =
      (processCommand cmdTimeMs (cstr s.commandBuffer) (setModuleLed true s)).lastErrorStr := by
  obtain ⟨a1, a2, a3, a4, a5, a6, a7, a8, a9⟩ := setModuleLed_keepsBuffers true s
  generalize hs1 : processCommand cmdTimeMs (cstr s.commandBuffer) (setModuleLed true s) = s1
  have hl : loop curTimeMs cmdTimeMs s =
      (let s2 := { writePrompt { s1 with commandBufferSize := 0 } with
                    cmdRecvDivVal := (((curTimeMs / 100 % 40 : Nat) : Int) + 2) % 40 }
       if s2.serialCmdWaitingFlag ∧ s2.serialBufferIndex > 0 then copySerialMsgBuffer s2
       else s2) := by
    simp only [loop, h, if_true, a2, hs1]
  rw [hl]
  simp only []
  cases he : s1.serialEchoFlag <;>
    (split_ifs <;>
      simp [SameMode, writePrompt, writeMsgToSerial, writeCharToSerial, he,
        copySerialMsgBuffer])

/-- A tick with no staged command leaves the configuration, the binary mode, the pixels
and the error log alone. -/
theorem loop_idle_mode (curTimeMs cmdTimeMs : Nat) (s : State)
    (h : ¬ s.commandBufferSize > 0) :
    SameMode s (loop curTimeMs cmdTimeMs s) ∧
    (loop curTimeMs cmdTimeMs s).recvArrOrd = s.recvArrOrd ∧
    (loop curTimeMs cmdTimeMs s).crgbLedsArr = s.crgbLedsArr ∧
    (loop curTimeMs cmdTimeMs s).errLog = s.errLog ∧
    (loop curTimeMs cmdTimeMs s).lastErrorStr = s.lastErrorStr := by
  simp only [loop, h, if_false, setModuleLed]
  split_ifs <;> simp [SameMode]

theorem loop_modeInv (curTimeMs cmdTimeMs : Nat) (s : State) (h : ModeInv s) :
    ModeInv (loop curTimeMs cmdTimeMs s) := by
  by_cases hc : s.commandBufferSize > 0
  · obtain ⟨d1, d2, d3, _⟩ := loop_dispatch_mode curTimeMs cmdTimeMs s hc
    obtain ⟨e1, e2, _⟩ := setModuleLed_sameMode true s
    obtain ⟨_, _, _, _, _, k6, _, k8, _⟩ := setModuleLed_keepsBuffers true s
    have h1 : ModeInv (setModuleLed true s) := modeInv_of_same s _ h e1 k6 k8
    exact modeInv_of_same _ _ (processCommand_modeInv cmdTimeMs _ _ h1) d1 d2 (by rw [d3])
  · obtain ⟨d1, d2, d3, _⟩ := loop_idle_mode curTimeMs cmdTimeMs s hc
    exact modeInv_of_same s _ h d1 d2 (by rw [d3])

/-- The bounds on the configuration and on the binary receiver hold in every reachable
state. -/
theorem modeInv_reachable (s : State) (h : Reachable s) : ModeInv s := by
  induction h with
  | setup => unfold ModeInv; decide
  | serialEvent millis input s _ ih => exact serialEvent_modeInv millis input s ih
  | loop c m s _ ih => exact loop_modeInv c m s ih

/-! ### C16: the receive index -/

theorem recvArrayByte_index (b : Nat) (s : State) (h : ModeInv s)
    (hi : s.receivingArrayIdx < s.stripNumberLeds) :
    (recvArrayByte b s).receivingArrayIdx < (recvArrayByte b s).stripNumberLeds := by
  obtain ⟨⟨h1, h2⟩, h3, ⟨h4, h5⟩, ⟨h6, h7⟩, h8, h9⟩ := h
  unfold recvArrayByte
  simp only []
  cases he : s.serialEchoFlag <;>
    (split_ifs <;>
      simp [writePrompt, writeMsgToSerial, writeCharToSerial, he] <;> omega)

theorem serialLoop_index (input : List Nat) : ∀ (iterCount : Int) (s : State),
    ModeInv s → s.receivingArrayIdx < s.stripNumberLeds →
    (serialLoop input iterCount s).1.receivingArrayIdx <
      (serialLoop input iterCount s).1.stripNumberLeds := by
  induction input with
  | nil => intro it s _ h; simpa [serialLoop] using h
  | cons b bs ih =>
    intro it s hm h
    have hl : (recvLineByte (b % 256) s).receivingArrayIdx <
        (recvLineByte (b % 256) s).stripNumberLeds := by
      obtain ⟨m1, _, _, m4, _⟩ := recvLineByte_sameMode (b % 256) s
      rw [m1, m4]; exact h
    unfold serialLoop
    simp only []
    split_ifs with hf
    · exact ih _ _ (recvArrayByte_modeInv _ s hm hf) (recvArrayByte_index _ s hm h)
    · exact hl
    · exact ih _ _ (recvLineByte_modeInv _ s hm) hl
    · exact ih _ _ (recvLineByte_modeInv _ s hm) hl

theorem serialEvent_index (millis : Nat) (input : List Nat) (s : State) (hm : ModeInv s)
    (h : s.receivingArrayIdx < s.stripNumberLeds) :
    (serialEvent millis input s).1.receivingArrayIdx <
      (serialEvent millis input s).1.stripNumberLeds := by
  rw [serialEvent_eq_loop]
  apply serialLoop_index _ _ _ (serialEvent_nil_modeInv millis s hm)
  unfold serialEvent
  simp only [serialLoop]
  split_ifs
  · obtain ⟨m1, _, _, m4, _⟩ := sendErrorResponse_sameMode
      (bytesOf "Timeout during receive of array data")
      { s with receivingArrayFlag := false, receivingArrayIdx := 0, recvArrOrd := 0 }
    rw [m1, m4]
    exact hm.1.1
  · exact h

theorem loop_index (curTimeMs cmdTimeMs : Nat) (s : State) (hm : ModeInv s)
    (h : s.receivingArrayIdx < s.stripNumberLeds)
    (hc : ¬ (s.commandBufferSize > 0 ∧ cmdOf (cstr s.commandBuffer) = 67 ∧
      s.receivingArrayFlag = true)) :
    (loop curTimeMs cmdTimeMs s).receivingArrayIdx <
      (loop curTimeMs cmdTimeMs s).stripNumberLeds := by
  by_cases hb : s.commandBufferSize > 0
  · obtain ⟨⟨d1, _, _, d4, _⟩, _⟩ := loop_dispatch_mode curTimeMs cmdTimeMs s hb
    obtain ⟨e1, _⟩ := setModuleLed_sameMode true s
    obtain ⟨_, _, _, _, _, k6, _, k8, _⟩ := setModuleLed_keepsBuffers true s
    have h1 : ModeInv (setModuleLed true s) := modeInv_of_same s _ hm e1 k6 k8
    have h2 := processCommand_modeInv cmdTimeMs (cstr s.commandBuffer) _ h1
    rw [d1, d4]
    by_cases hA : cmdOf (cstr s.commandBuffer) = 65
    · rw [processCommand_A_mode cmdTimeMs _ _ hA]
      obtain ⟨n1, _⟩ := e1
      show (0 : Int) < (setModuleLed true s).stripNumberLeds
      rw [n1]
      exact hm.1.1
    by_cases hC : cmdOf (cstr s.commandBuffer) = 67
    · have hf : s.receivingArrayFlag = false := by
        cases hfl : s.receivingArrayFlag
        · rfl
        · exact absurd ⟨hb, hC, hfl⟩ hc
      have hz : s.receivingArrayIdx = 0 := hm.2.2.2.2.1 hf
      have hcfg : processCommand cmdTimeMs (cstr s.commandBuffer) (setModuleLed true s) =
          configureLeds (paramsOf (cstr s.commandBuffer))
            { setModuleLed true s with
              cmdLog := (setModuleLed true s).cmdLog ++ [cstr s.commandBuffer] } := by
        apply processCommand_cases (fun r => r =
          configureLeds (paramsOf (cstr s.commandBuffer))
            { setModuleLed true s with
              cmdLog := (setModuleLed true s).cmdLog ++ [cstr s.commandBuffer] }) <;> intro h
        all_goals first
          | rfl
          | (rw [hC] at h; exact absurd h (by decide))
      have hidx : (processCommand cmdTimeMs (cstr s.commandBuffer)
          (setModuleLed true s)).receivingArrayIdx = 0 := by
        rw [hcfg, (configureLeds_mode _ _).2.1]
        show (setModuleLed true s).receivingArrayIdx = 0
        rw [e1.2.2.2.1]
        exact hz
      rw [hidx]
      exact h2.1.1
    · obtain ⟨p1, _, _, p4, _⟩ :=
        processCommand_sameMode cmdTimeMs (cstr s.commandBuffer) (setModuleLed true s) hC hA
      rw [p1, p4, e1.1, e1.2.2.2.1]
      exact h
  · obtain ⟨⟨d1, _, _, d4, _⟩, _⟩ := loop_idle_mode curTimeMs cmdTimeMs s hb
    rw [d1, d4]
    exact h

/-- C16 as stated fails: `loweredCountState` is reachable (two lines, a tick, nine binary
bytes, a tick), binary mode is active in it and the receive index is 3 while the LED count
is 1. -/
theorem C16_index_above_lowered_count :
    Reachable loweredCountState ∧
    loweredCountState.receivingArrayFlag = true ∧
    loweredCountState.receivingArrayIdx = 3 ∧
    loweredCountState.stripNumberLeds = 1 ∧
    loweredCountState.cmdLog = [bytesOf "A", bytesOf "C 1"] :=
  ⟨Reachable.loop _ _ _ (Reachable.serialEvent _ _ _ (Reachable.loop _ _ _
      (Reachable.serialEvent _ _ _ Reachable.setup))),
    by decide, by decide, by decide, by decide⟩

/-- C16, amended. Binary receive index invariant: in every state reachable from the
initial state by any sequence of byte arrivals and scheduling ticks the receive index
satisfies `0 ≤ receivingArrayIdx < 300` (`MAX_NUM_LEDS`), and it is zero whenever binary
mode is not active; `receivingArrayIdx < stripNumberLeds` (the currently configured LED
count) is kept by every byte-arrival handler invocation and by every scheduling tick other
than one that dispatches a Configure command while binary mode is active. -/
theorem C16_receive_index (s : State) (h : Reachable s) :
    (0 ≤ s.receivingArrayIdx ∧ s.receivingArrayIdx < MAX_NUM_LEDS) ∧
    (s.receivingArrayFlag = false → s.receivingArrayIdx = 0) ∧
    (s.receivingArrayIdx < s.stripNumberLeds →
      (∀ (millis : Nat) (input : List Nat),
        (serialEvent millis input s).1.receivingArrayIdx <
          (serialEvent millis input s).1.stripNumberLeds) ∧
      (∀ curTimeMs cmdTimeMs : Nat,
        ¬ (s.commandBufferSize > 0 ∧ cmdOf (cstr s.commandBuffer) = 67 ∧
          s.receivingArrayFlag = true) →
        (loop curTimeMs cmdTimeMs s).receivingArrayIdx <
          (loop curTimeMs cmdTimeMs s).stripNumberLeds)) := by
  have hm := modeInv_reachable s h
  refine ⟨hm.2.2.2.1, hm.2.2.2.2.1, fun hi => ⟨?_, ?_⟩⟩
  · intro millis input
    exact serialEvent_index millis input s hm hi
  · intro c m hc
    exact loop_index c m s hm hi hc

/-- C16 on a reachable state in binary mode (the line `A`, then a tick): the receive index
is below 300, and it is below the LED count 8 after two pixels of a frame have arrived. -/
theorem C16_receive_index_witness :
    (loop 10 10 (serialEvent 0 [65, 13] (setup initState)).1).receivingArrayIdx <
      MAX_NUM_LEDS ∧
    (serialEvent 20 [1, 2, 3, 4, 5, 6]
      (loop 10 10 (serialEvent 0 [65, 13] (setup initState)).1)).1.receivingArrayIdx <
    (serialEvent 20 [1, 2, 3, 4, 5, 6]
      (loop 10 10 (serialEvent 0 [65, 13] (setup initState)).1)).1.stripNumberLeds :=
  ⟨(C16_receive_index _
      (Reachable.loop 10 10 _ (Reachable.serialEvent 0 [65, 13] _ Reachable.setup))).1.2,
   ((C16_receive_index _
      (Reachable.loop 10 10 _ (Reachable.serialEvent 0 [65, 13] _ Reachable.setup))).2.2
      (by decide)).1 20 [1, 2, 3, 4, 5, 6]⟩

/-! ### C17: the channel order -/

/-- The channel order `initializeLedLib` hands to the library: the one the stored string
spells, `GRB` if it spells none. -/
theorem initializeLedLib_order (s : State) :
    ∃ order : EOrder,
      (initializeLedLib s).hw =
        s.hw ++ [HwCall.addLeds order s.stripNumberLeds,
          HwCall.setBrightness s.stripBrightness] ∧
      (∀ e ∈ orderTable, strcasecmpEq s.stripColorOrderStr e.1 = true → order = e.2) ∧
      ((∀ e ∈ orderTable, strcasecmpEq s.stripColorOrderStr e.1 = false) →
        order = EOrder.GRB) := by
  refine ⟨_, rfl, ?_, ?_⟩
  · intro e he hm
    simp only [strcasecmpEq, beq_iff_eq] at hm ⊢
    simp only [orderTable, List.mem_cons, List.mem_singleton, List.not_mem_nil, or_false]
      at he
    rcases he with rfl | rfl | rfl | rfl | rfl | rfl <;> (rw [hm]; decide)
  · intro hall
    have h1 := hall (bytesOf "RGB", EOrder.RGB) (by decide)
    have h2 := hall (bytesOf "RBG", EOrder.RBG) (by decide)
    have h3 := hall (bytesOf "GRB", EOrder.GRB) (by decide)
    have h4 := hall (bytesOf "GBR", EOrder.GBR) (by decide)
    have h5 := hall (bytesOf "BRG", EOrder.BRG) (by decide)
    have h6 := hall (bytesOf "BGR", EOrder.BGR) (by decide)
    simp only [] at h1 h2 h3 h4 h5 h6
    simp [h1, h2, h3, h4, h5, h6]

theorem configureLeds_order (s : State) (count : Int) (ord : List Nat)
    (hc : 0 < count ∧ count ≤ 300) (ho : ord ≠ [])
    (hsep : ord.headD 0 ≠ 32 ∧ ord.headD 0 ≠ 44) :
    (configureLeds (itoa count ++ 32 :: ord) s).stripColorOrderStr = ord.take 4 ∧
    (configureLeds (itoa count ++ 32 :: ord) s).stripNumberLeds = count ∧
    (configureLeds (itoa count ++ 32 :: ord) s).errLog = s.errLog := by
  have hat : atoi (itoa count ++ 32 :: ord) = count :=
    atoi_itoa_append count ⟨by omega, by omega⟩ (32 :: ord) (by simp [isdigit])
  have hfs : findSecondParam (itoa count ++ 32 :: ord) = (itoa count).length + 1 :=
    findSecondParam_space (itoa count) ord (itoa_no_separator count) hsep
  have hdrop : (itoa count ++ 32 :: ord).drop ((itoa count).length + 1) = ord := by
    rw [List.drop_append_eq_append_drop]
    simp
  have hlen : (itoa count ++ 32 :: ord).length > 0 := by simp
  have hnum : count > 0 ∧ count ≤ MAX_NUM_LEDS := ⟨hc.1, hc.2⟩
  have hol : 0 < ord.length := List.length_pos.2 ho
  have hp : (itoa count).length + 1 > 0 ∧
      (itoa count).length + 1 < (itoa count ++ 32 :: ord).length := by
    simp; omega
  simp only [configureLeds, hat, hfs, hdrop, hlen, hnum, hp, and_self, if_true,
    initializeLedLib]

/-- C17 as stated fails: `oddOrderState` is reachable (the line `C 4,XYZ`, then a tick),
no error was recorded, the stored channel order is `XYZ`, Describe reports `ClrOrder=XYZ`,
and the library was set up with the fallback order GRB. -/
theorem C17_order_XYZ_stored :
    Reachable oddOrderState ∧
    oddOrderState.errLog = [] ∧
    oddOrderState.stripColorOrderStr = bytesOf "XYZ" ∧
    (processCommand 0 (bytesOf "D") oddOrderState).out =
      oddOrderState.out ++ bytesOf "NumLEDs=4 ClrOrder=XYZ LEDPin=3 Bright=20" ∧
    oddOrderState.hw.take 4 =
      [HwCall.digitalWrite true, HwCall.digitalWrite false, HwCall.digitalWrite true,
       HwCall.addLeds EOrder.GRB 4] :=
  ⟨Reachable.loop _ _ _ (Reachable.serialEvent _ _ _ Reachable.setup),
    by decide, by decide, by decide, by decide⟩

/-- C17, amended. Channel-order invariant: in every reachable state the stored channel
order is a string of at most 4 characters, not necessarily one of the six 3-letter
permutations of R/G/B: an accepted Configure command with a second parameter stores the
first 4 characters of that parameter, whatever they are, and Describe (`D`) reports the
stored string as ClrOrder; the order handed to the LED library is one of the six - the
permutation the stored string spells (compared case-insensitively), GRB if it spells
none. -/
theorem C17_channel_order (s : State) (h : Reachable s) (count : Int) (ord : List Nat)
    (hc : 0 < count ∧ count ≤ 300) (ho : ord ≠ [])
    (hsep : ord.headD 0 ≠ 32 ∧ ord.headD 0 ≠ 44) :
    s.stripColorOrderStr.length ≤ 4 ∧
    (configureLeds (itoa count ++ 32 :: ord) s).stripColorOrderStr = ord.take 4 ∧
    (configureLeds (itoa count ++ 32 :: ord) s).errLog = s.errLog ∧
    (describeLeds s).out =
      s.out ++ (if s.serialEchoFlag then lnFeedStr else []) ++ bytesOf "NumLEDs=" ++
        itoa s.stripNumberLeds ++ bytesOf " ClrOrder=" ++ s.stripColorOrderStr ++
        bytesOf " LEDPin=" ++ itoa STRIP_LED_PIN ++ bytesOf " Bright=" ++
        itoa s.stripBrightness ∧
    (∃ order : EOrder,
      (initializeLedLib s).hw =
        s.hw ++ [HwCall.addLeds order s.stripNumberLeds,
          HwCall.setBrightness s.stripBrightness] ∧
      (∀ e ∈ orderTable, strcasecmpEq s.stripColorOrderStr e.1 = true → order = e.2) ∧
      ((∀ e ∈ orderTable, strcasecmpEq s.stripColorOrderStr e.1 = false) →
        order = EOrder.GRB)) := by
  obtain ⟨c1, _, c3⟩ := configureLeds_order s count ord hc ho hsep
  refine ⟨(modeInv_reachable s h).2.2.2.2.2, c1, c3, ?_, initializeLedLib_order s⟩
  cases he : s.serialEchoFlag <;> simp [describeLeds, writeMsgToSerial, he]

/-- C17 on the state after `setup()`: the stored order has at most 4 characters, and
`C 4 XYZ` stores `XYZ`. -/
theorem C17_channel_order_witness :
    (setup initState).stripColorOrderStr.length ≤ 4 ∧
    (configureLeds (bytesOf "4 XYZ") (setup initState)).stripColorOrderStr = bytesOf "XYZ" :=
  ⟨(C17_channel_order (setup initState) Reachable.setup 4 (bytesOf "XYZ") (by decide)
      (by decide) (by decide)).1,
   (C17_channel_order (setup initState) Reachable.setup 4 (bytesOf "XYZ") (by decide)
      (by decide) (by decide)).2.1⟩

/-! ### C18: the indices of the pixel array and of the 3-byte colour -/

theorem writePixel_ok (lim : Int) (arr : List CRGB) (i : Int) (v : CRGB)
    (h0 : 0 ≤ i) (h1 : i < lim) (h2 : i.toNat < arr.length) :
    writePixel lim arr i v = some (arr.set i.toNat v) := by
  simp [writePixel, h0, h1, h2]

theorem readPixel_ok (lim : Int) (arr : List CRGB) (i : Int)
    (h0 : 0 ≤ i) (h1 : i < lim) (h2 : i.toNat < arr.length) :
    readPixel lim arr i = some (arr.getD i.toNat Black) := by
  simp [readPixel, h0, h1, h2]

/-- The checks are real: a write at index 300, a write at the limit and a colour byte at
counter 3 fail. -/
theorem checked_access_fails :
    writePixel 300 (setup initState).crgbLedsArr 300 Black = none ∧
    setPixelColorChecked 5 (bytesOf "7 R") (setup initState) = none ∧
    fillStripColorChecked 5 (bytesOf "R") (setup initState) = none ∧
    queryPixelColorChecked 7 (bytesOf "7") (setup initState) = none ∧
    recvArrayByteChecked 300 1 { setup initState with recvArrOrd := 3 } = none ∧
    recvArrayByteChecked 300 1
      { setup initState with recvArrOrd := 2, receivingArrayIdx := 300 } = none := by
  decide

/-- With the LED count within the array, SetPixel makes no access outside `[0, count)`. -/
theorem setPixelColorChecked_eq (p : List Nat) (s : State)
    (hn : s.stripNumberLeds ≤ (s.crgbLedsArr.length : Int)) :
    setPixelColorChecked s.stripNumberLeds p s = some (setPixelColor p s) := by
  unfold setPixelColorChecked setPixelColor
  simp only []
  split_ifs with h1 h2 h3 h4
  · rw [writePixel_ok _ _ _ _ h2.1 h2.2 (by omega)]
  all_goals rfl

/-- With the LED count within the array, GetPixel makes no access outside `[0, count)`. -/
theorem queryPixelColorChecked_eq (p : List Nat) (s : State)
    (hn : s.stripNumberLeds ≤ (s.crgbLedsArr.length : Int)) :
    queryPixelColorChecked s.stripNumberLeds p s = some (queryPixelColor p s) := by
  unfold queryPixelColorChecked queryPixelColor
  simp only []
  split_ifs with h1 h2 <;> first
    | rfl
    | rw [readPixel_ok _ _ _ h2.1 h2.2 (by omega)]

theorem fillLoopChecked_eq (lim : Int) (v : CRGB) (idxs : List Nat) :
    ∀ arr : List CRGB, (∀ i ∈ idxs, (i : Int) < lim ∧ i < arr.length) →
      fillLoopChecked lim v idxs arr = some (idxs.foldl (fun a idx => a.set idx v) arr) := by
  induction idxs with
  | nil => intro arr _; rfl
  | cons i is ih =>
    intro arr h
    have hi := h i (by simp)
    have hw : writePixel lim arr (i : Int) v = some (arr.set i v) := by
      rw [writePixel_ok lim arr (i : Int) v (by omega) hi.1 (by simpa using hi.2)]
      simp
    simp only [fillLoopChecked, hw, List.foldl_cons]
    apply ih
    intro j hj
    have := h j (by simp [hj])
    simpa using this

/-- With the LED count within the array, Fill makes no access outside `[0, count)`. -/
theorem fillStripColorChecked_eq (p : List Nat) (s : State)
    (hn : s.stripNumberLeds ≤ (s.crgbLedsArr.length : Int)) :
    fillStripColorChecked s.stripNumberLeds p s = some (fillStripColor p s) := by
  have hf : ∀ v : CRGB,
      fillLoopChecked s.stripNumberLeds v (List.range s.stripNumberLeds.toNat)
        s.crgbLedsArr =
      some ((List.range s.stripNumberLeds.toNat).foldl (fun a idx => a.set idx v)
        s.crgbLedsArr) := by
    intro v
    apply fillLoopChecked_eq
    intro i hi
    have := List.mem_range.1 hi
    omega
  unfold fillStripColorChecked fillStripColor
  simp only []
  split_ifs
  · rw [hf]
  all_goals rfl

/-- With the LED count within the array, no dispatch makes a pixel access outside
`[0, count)`. -/
theorem processCommandChecked_eq (m : Nat) (line : List Nat) (s : State)
    (hn : s.stripNumberLeds ≤ (s.crgbLedsArr.length : Int)) :
    processCommandChecked s.stripNumberLeds m line s = some (processCommand m line s) := by
  unfold processCommandChecked processCommand
  simp only []
  generalize (if 97 ≤ charAt line 0 ∧ charAt line 0 ≤ 122 then charAt line 0 - 32
    else charAt line 0) = cmdByte
  generalize List.drop (1 + skipSpaces (List.drop 1 line)) line = paramsStr
  by_cases h0 : cmdByte = 67
  · simp only [if_pos h0]
  simp only [if_neg h0]
  by_cases h1 : cmdByte = 68
  · simp only [if_pos h1]
  simp only [if_neg h1]
  by_cases h2 : cmdByte = 77
  · simp only [if_pos h2]
  simp only [if_neg h2]
  by_cases h3 : cmdByte = 80
  · simp only [if_pos h3]
    exact setPixelColorChecked_eq paramsStr { s with cmdLog := s.cmdLog ++ [line] } hn
  simp only [if_neg h3]
  by_cases h4 : cmdByte = 82
  · simp only [if_pos h4]
    exact queryPixelColorChecked_eq paramsStr { s with cmdLog := s.cmdLog ++ [line] } hn
  simp only [if_neg h4]
  by_cases h5 : cmdByte = 70
  · simp only [if_pos h5]
    exact fillStripColorChecked_eq paramsStr { s with cmdLog := s.cmdLog ++ [line] } hn
  simp only [if_neg h5]
  by_cases h6 : cmdByte = 65
  · simp only [if_pos h6]
  simp only [if_neg h6]
  by_cases h7 : cmdByte = 83
  · simp only [if_pos h7]
  simp only [if_neg h7]
  by_cases h8 : cmdByte = 66
  · simp only [if_pos h8]
  simp only [if_neg h8]
  by_cases h9 : cmdByte = 69
  · simp only [if_pos h9]
  simp only [if_neg h9]
  by_cases h10 : cmdByte = 76
  · simp only [if_pos h10]
  simp only [if_neg h10]
  by_cases h11 : cmdByte = 86
  · simp only [if_pos h11]
  simp only [if_neg h11]

/-- With the LED count within the array, no tick makes a pixel access outside
`[0, count)`. -/
theorem loopChecked_eq (curTimeMs cmdTimeMs : Nat) (s : State)
    (hn : s.stripNumberLeds ≤ (s.crgbLedsArr.length : Int)) :
    loopChecked s.stripNumberLeds curTimeMs cmdTimeMs s =
      some (loop curTimeMs cmdTimeMs s) := by
  obtain ⟨e1, e2, _⟩ := setModuleLed_sameMode true s
  have hpc : processCommandChecked s.stripNumberLeds cmdTimeMs
      (cstr (setModuleLed true s).commandBuffer) (setModuleLed true s) =
      some (processCommand cmdTimeMs (cstr (setModuleLed true s).commandBuffer)
        (setModuleLed true s)) := by
    have h := processCommandChecked_eq cmdTimeMs (cstr (setModuleLed true s).commandBuffer)
      (setModuleLed true s) (by rw [e1.1, e2]; exact hn)
    rw [e1.1] at h
    exact h
  unfold loopChecked loop
  simp only [hpc]
  split_ifs <;> rfl

/-- Within the bounds of `ModeInv`, a byte of a frame is stored with both writes in
bounds. -/
theorem recvArrayByteChecked_eq (b : Nat) (s : State) (h : ModeInv s) :
    recvArrayByteChecked MAX_NUM_LEDS b s = some (recvArrayByte b s) := by
  obtain ⟨_, h2, ⟨h3, h4⟩, ⟨h5, h6⟩, _⟩ := h
  have hraw : s.recvCRGBVal.setRawChecked s.recvArrOrd b =
      some (s.recvCRGBVal.setRaw s.recvArrOrd b) := by
    simp [CRGB.setRawChecked, h3, h4]
  have hw : ∀ v : CRGB, writePixel MAX_NUM_LEDS s.crgbLedsArr s.receivingArrayIdx v =
      some (s.crgbLedsArr.set s.receivingArrayIdx.toNat v) := by
    intro v
    simp only [MAX_NUM_LEDS] at h6
    exact writePixel_ok _ _ _ _ h5 h6 (by rw [h2]; omega)
  unfold recvArrayByteChecked recvArrayByte
  simp only [hraw, hw]
  split_ifs <;> rfl

theorem serialLoopChecked_eq (input : List Nat) : ∀ (iterCount : Int) (s : State),
    ModeInv s →
    serialLoopChecked MAX_NUM_LEDS input iterCount s = some (serialLoop input iterCount s) := by
  induction input with
  | nil => intro it s _; rfl
  | cons b bs ih =>
    intro it s h
    unfold serialLoopChecked serialLoop
    simp only []
    split_ifs with hf
    · rw [recvArrayByteChecked_eq _ s h]
      exact ih _ _ (recvArrayByte_modeInv _ s h hf)
    · rfl
    · exact ih _ _ (recvLineByte_modeInv _ s h)
    · exact ih _ _ (recvLineByte_modeInv _ s h)

theorem serialEventChecked_eq (millis : Nat) (input : List Nat) (s : State) (h : ModeInv s) :
    serialEventChecked MAX_NUM_LEDS millis input s = some (serialEvent millis input s) := by
  have hc : serialEventChecked MAX_NUM_LEDS millis input s =
      serialLoopChecked MAX_NUM_LEDS input 0 (serialEvent millis [] s).1 := by
    unfold serialEventChecked serialEvent
    simp only [serialLoop]
  rw [hc, serialEvent_eq_loop]
  exact serialLoopChecked_eq input 0 _ (serialEvent_nil_modeInv millis s h)

/-- C18. Pixel-array index safety: in every reachable state `1 ≤ stripNumberLeds ≤ 300`
(`MAX_NUM_LEDS`) and the pixel array has its 300 entries. SetPixel, GetPixel and Fill, on
any parameters, and the tick `loop()` with the command it dispatches, run with every
pixel-array read or write checked to be at an index in `[0, stripNumberLeds)` and inside
the array, never fail the check and do what the unchecked functions do; the byte-arrival
handler `serialEvent`, on any clock reading and any bytes, run with every pixel write of
the binary frame receiver checked to be at an index in `[0, 300)` and every write to the
3-byte colour value checked to be at a byte counter in `{0, 1, 2}`, never fails the check
and does what the unchecked handler does - so no access falls outside the 300-entry pixel
array or the 3-byte colour. -/
theorem C18_pixel_index_safety (s : State) (h : Reachable s) :
    (1 ≤ s.stripNumberLeds ∧ s.stripNumberLeds ≤ MAX_NUM_LEDS) ∧
    s.crgbLedsArr.length = 300 ∧
    (∀ p : List Nat, setPixelColorChecked s.stripNumberLeds p s = some (setPixelColor p s)) ∧
    (∀ p : List Nat,
      queryPixelColorChecked s.stripNumberLeds p s = some (queryPixelColor p s)) ∧
    (∀ p : List Nat,
      fillStripColorChecked s.stripNumberLeds p s = some (fillStripColor p s)) ∧
    (∀ (m : Nat) (line : List Nat),
      processCommandChecked s.stripNumberLeds m line s = some (processCommand m line s)) ∧
    (∀ curTimeMs cmdTimeMs : Nat,
      loopChecked s.stripNumberLeds curTimeMs cmdTimeMs s =
        some (loop curTimeMs cmdTimeMs s)) ∧
    (∀ (b : Nat), recvArrayByteChecked MAX_NUM_LEDS b s = some (recvArrayByte b s)) ∧
    (∀ (millis : Nat) (input : List Nat),
      serialEventChecked MAX_NUM_LEDS millis input s =
        some (serialEvent millis input s)) := by
  have hm := modeInv_reachable s h
  obtain ⟨⟨h1, h2⟩, h3, _⟩ := modeInv_reachable s h
  have hn : s.stripNumberLeds ≤ (s.crgbLedsArr.length : Int) := by
    simp only [MAX_NUM_LEDS] at h2
    rw [h3]
    exact_mod_cast h2
  exact ⟨⟨h1, h2⟩, h3, fun p => setPixelColorChecked_eq p s hn,
    fun p => queryPixelColorChecked_eq p s hn, fun p => fillStripColorChecked_eq p s hn,
    fun m line => processCommandChecked_eq m line s hn,
    fun c m => loopChecked_eq c m s hn,
    fun b => recvArrayByteChecked_eq b s hm,
    fun millis input => serialEventChecked_eq millis input s hm⟩

/-- C18 on a reachable state in binary mode (the line `A`, then a tick): the LED count is
at most 300, seven bytes of a frame are received with every write in bounds, and the tick
that dispatches a staged `F R` fills with every write below the LED count. -/
theorem C18_pixel_index_safety_witness :
    (loop 10 10 (serialEvent 0 [65, 13] (setup initState)).1).stripNumberLeds ≤
      MAX_NUM_LEDS ∧
    serialEventChecked MAX_NUM_LEDS 20 [1, 2, 3, 4, 5, 6, 7]
        (loop 10 10 (serialEvent 0 [65, 13] (setup initState)).1) =
      some (serialEvent 20 [1, 2, 3, 4, 5, 6, 7]
        (loop 10 10 (serialEvent 0 [65, 13] (setup initState)).1)) ∧
    loopChecked (serialEvent 0 [70, 32, 82, 13] (setup initState)).1.stripNumberLeds 10 10
        (serialEvent 0 [70, 32, 82, 13] (setup initState)).1 =
      some (loop 10 10 (serialEvent 0 [70, 32, 82, 13] (setup initState)).1) :=
  ⟨(C18_pixel_index_safety _
      (Reachable.loop 10 10 _ (Reachable.serialEvent 0 [65, 13] _ Reachable.setup))).1.2,
   (C18_pixel_index_safety _
      (Reachable.loop 10 10 _
        (Reachable.serialEvent 0 [65, 13] _ Reachable.setup))).2.2.2.2.2.2.2.2 20
      [1, 2, 3, 4, 5, 6, 7],
   (C18_pixel_index_safety _
      (Reachable.serialEvent 0 [70, 32, 82, 13] _ Reachable.setup)).2.2.2.2.2.2.1 10 10⟩

/-! ### C20: the waiting flag -/

theorem recvLineByte_waitInv (b : Nat) (s : State) (h : WaitInv s) :
    WaitInv (recvLineByte b s) := by
  unfold WaitInv at *
  unfold recvLineByte
  cases he : s.serialEchoFlag <;> cases hw : s.serialCmdWaitingFlag <;>
    (split_ifs <;>
      simp_all [copySerialMsgBuffer, writePrompt, writeCharToSerial, writeMsgToSerial])

theorem serialLoop_waitInv (input : List Nat) : ∀ (iterCount : Int) (s : State),
    WaitInv s → WaitInv (serialLoop input iterCount s).1 := by
  induction input with
  | nil => intro it s h; simpa [serialLoop] using h
  | cons b bs ih =>
    intro it s h
    unfold serialLoop
    simp only []
    split_ifs
    · apply ih
      obtain ⟨_, _, k3, k4, k5, _⟩ := recvArrayByte_keepsBuffers (b % 256) s
      unfold WaitInv at *
      rw [k3, k4, k5]
      exact h
    · exact recvLineByte_waitInv _ s h
    · exact ih _ _ (recvLineByte_waitInv _ s h)
    · exact ih _ _ (recvLineByte_waitInv _ s h)

theorem serialEvent_waitInv (millis : Nat) (input : List Nat) (s : State) (h : WaitInv s) :
    WaitInv (serialEvent millis input s).1 := by
  unfold serialEvent
  simp only []
  split_ifs
  · apply serialLoop_waitInv
    obtain ⟨_, _, k3, k4, k5, _⟩ := sendErrorResponse_keepsBuffers
      (bytesOf "Timeout during receive of array data")
      { s with receivingArrayFlag := false, receivingArrayIdx := 0, recvArrOrd := 0 }
    unfold WaitInv at *
    rw [k3, k4, k5]
    exact h
  · exact serialLoop_waitInv _ _ _ h

/-- After a tick the waiting flag is clear. -/
theorem loop_waiting_clear (curTimeMs cmdTimeMs : Nat) (s : State) (h : WaitInv s) :
    (loop curTimeMs cmdTimeMs s).serialCmdWaitingFlag = false := by
  unfold WaitInv at h
  by_cases hc : s.commandBufferSize > 0
  · obtain ⟨_, _, _, d4, d5⟩ := loop_dispatch curTimeMs cmdTimeMs s hc
    by_cases hw : s.serialCmdWaitingFlag = true ∧ s.serialBufferIndex > 0
    · exact (d4 hw).2.2.2
    · rw [(d5 hw).2.2.2]
      cases hf : s.serialCmdWaitingFlag
      · rfl
      · exact absurd ⟨hf, (h hf).1⟩ hw
  · obtain ⟨_, _, _, _, k5, _⟩ := loop_idle curTimeMs cmdTimeMs s hc
    rw [k5]
    cases hf : s.serialCmdWaitingFlag
    · rfl
    · exact absurd (h hf).2 hc

theorem waitInv_reachable (s : State) (h : Reachable s) : WaitInv s := by
  induction h with
  | setup => unfold WaitInv; decide
  | serialEvent millis input s _ ih => exact serialEvent_waitInv millis input s ih
  | loop c m s _ ih =>
    intro hw
    rw [loop_waiting_clear c m s ih] at hw
    exact absurd hw (by decide)

theorem buffersOk_reachable (s : State) (h : Reachable s) : BuffersOk s := by
  induction h with
  | setup => unfold BuffersOk; decide
  | serialEvent millis input s _ ih => exact serialEvent_buffersOk millis input s ih
  | loop c m s _ ih => exact loop_buffersOk c m s ih

/-- C20. Waiting-flag invariant (no wedge): in every state reachable from the initial
state, if the serial-command-waiting flag is set then the reassembly buffer is non-empty
(`serialBufferIndex > 0`) and a staged command is present (`commandBufferSize > 0`);
consequently the waiting flag is clear after every scheduling tick: a tick on a state with
the flag set stages the held-back line and empties the reassembly buffer, and the next
printable byte arriving in line mode is stored, not discarded. -/
theorem C20_waiting_flag (s : State) (h : Reachable s) :
    (s.serialCmdWaitingFlag = true → s.serialBufferIndex > 0 ∧ s.commandBufferSize > 0) ∧
    (∀ curTimeMs cmdTimeMs : Nat,
      (loop curTimeMs cmdTimeMs s).serialCmdWaitingFlag = false) ∧
    (s.serialCmdWaitingFlag = true → ∀ curTimeMs cmdTimeMs : Nat,
      (loop curTimeMs cmdTimeMs s).commandBufferSize = s.serialBufferIndex ∧
      (loop curTimeMs cmdTimeMs s).serialBufferIndex = 0 ∧
      ∀ b : Nat, 32 ≤ b →
        (recvLineByte b (loop curTimeMs cmdTimeMs s)).serialBufferIndex = 1 ∧
        (recvLineByte b (loop curTimeMs cmdTimeMs s)).serialBuffer.getD 0 0 = b) := by
  have hw := waitInv_reachable s h
  have hb := (buffersOk_reachable s h).2.2.2.2.1
  refine ⟨fun hf => hw hf, fun c m => loop_waiting_clear c m s hw, ?_⟩
  intro hf c m
  obtain ⟨h1, h2⟩ := hw hf
  obtain ⟨_, d2, _, d4, _⟩ := loop_dispatch c m s h2
  obtain ⟨e1, e2, e3, e4⟩ := d4 ⟨hf, h1⟩
  refine ⟨e2, e3, ?_⟩
  intro b hb32
  have hne : b ≠ 13 := by omega
  have hlen : (loop c m s).serialBuffer.length = 20 := by rw [d2]; exact hb
  have hpos : 0 < (loop c m s).serialBuffer.length := by omega
  unfold recvLineByte
  cases he : (loop c m s).serialEchoFlag <;>
    simp [e3, e4, hne, hb32, SERIAL_BUFFER_SIZE, he, writeCharToSerial,
      List.getD_eq_getElem?_getD, hpos]

/-- C20 on a reachable state with the waiting flag set (two lines arrived, no tick yet):
the flag is clear after the tick. -/
theorem C20_waiting_flag_witness :
    (serialEvent 0 [65, 13, 66, 13] (setup initState)).1.serialBufferIndex > 0 ∧
    (loop 10 10 (serialEvent 0 [65, 13, 66, 13] (setup initState)).1).serialCmdWaitingFlag =
      false :=
  ⟨((C20_waiting_flag _ (Reachable.serialEvent 0 [65, 13, 66, 13] _ Reachable.setup)).1
      (by decide)).1,
   (C20_waiting_flag _ (Reachable.serialEvent 0 [65, 13, 66, 13] _ Reachable.setup)).2.1
      10 10⟩

/-! ### C19: the timeout comparison at the wrap of the clock -/

/-- C19 fails at the wrap of the 32-bit clock: `nearWrapState` is reachable and in binary
mode with start timestamp `2^32 - 1000`, all 24 bytes of the frame are still needed; the
handler invoked 100 ms later (clock `2^32 - 900`, elapsed time 100 ms) with one byte leaves
binary mode and records the timeout error, because `start + 5000` wraps to 4000 and the
clock is compared with that. -/
theorem C19_timeout_at_clock_wrap :
    Reachable nearWrapState ∧
    nearWrapState.receivingArrayFlag = true ∧
    nearWrapState.recvArrStartTimeMs = 4294966296 ∧
    (4294966396 + 2 ^ 32 - nearWrapState.recvArrStartTimeMs) % 2 ^ 32 = 100 ∧
    bytesNeeded nearWrapState = 24 ∧
    (nearWrapState.recvArrStartTimeMs + 5000) % 2 ^ 32 = 4000 ∧
    (serialEvent 4294966396 [1] nearWrapState).1.receivingArrayFlag = false ∧
    (serialEvent 4294966396 [1] nearWrapState).1.errLog =
      [bytesOf "Timeout during receive of array data"] :=
  ⟨Reachable.loop _ _ _ (Reachable.serialEvent _ _ _ Reachable.setup),
    by decide, by decide, by decide, by decide, by decide, by decide, by decide⟩

/-! ### C11: where the timeout is polled -/

end LEDCtrlr
